import Mathlib

/-!
# Shallow embedding of the `@hazae41/wasm` WebAssembly binary codec

This file embeds `src/mods/wasm/mod.ts` — a decoder/encoder for the `.wasm`
binary module format — and proves properties of the embedding.

Modelling conventions:
* Byte streams are `List Nat` (each entry one byte of the stream).
* The external byte cursor (`@hazae41/cursor`, out of scope of the repository)
  is modelled from the spec (§6) as explicit state passing: a reader takes the
  remaining bytes and returns the parsed value together with the bytes left;
  failure uses `Except ReadErr`.  A writer is a pure function to the list of
  emitted bytes (`cursor.writeUint8OrThrow b` emits `b % 256`, the `Uint8Array`
  store semantics).
* JavaScript `number`/`bigint` integer values are `Nat`/`Int`; two's-complement
  bigint operations are translated explicitly: `value & 0x7Fn` is `value % 128`
  (Euclidean mod), `value >>= 7n` is `Int.fdiv value 128`, and
  `value |= (-1n << shift)` on an accumulator known to be `< 2 ^ shift` is
  subtraction of `2 ^ shift` (justified by `Wasm.LEB128.readLoop_lt` below).
* IEEE-754 immediates (`F32`/`F64`) are carried as their little-endian bit
  patterns (a `Nat`), which is exactly what the codec reads and re-emits.
-/

deriving instance DecidableEq for Except

namespace Wasm

/-- Decoder failure channel (spec §7): one constructor per distinct error the
source throws (`Invalid magic number`, `Unsupported version`, cursor
exhaustion, `Value exceeds ... range`, `Unknown opcode`, `Unknown sub-opcode`,
`Unknown import`, `Unknown element segment flag`, `Unknown data segment flag`,
`Unknown section` in the type-body dispatch), plus `leftoverBytes` for
`Readable.readFromBytesOrThrow` detecting an under-consuming section decode. -/
inductive ReadErr
  | unexpectedEnd
  | invalidMagic
  | unsupportedVersion
  | valueOverflow
  | unknownOpcode
  | unknownSubOpcode
  | unknownImportKind
  | unknownElementFlag
  | unknownDataFlag
  | unknownTypeKind
  | leftoverBytes
deriving DecidableEq

/-- Modelled from the spec (§6): `cursor.readUint8OrThrow()`. -/
def readUint8 : List Nat → Except ReadErr (Nat × List Nat)
  | [] => .error .unexpectedEnd
  | b :: rest => .ok (b, rest)

/-- Modelled from the spec (§6): `cursor.readOrThrow(n)` — a slice of `n`
bytes, failing if fewer remain. -/
def readBytes (n : Nat) (bs : List Nat) : Except ReadErr (List Nat × List Nat) :=
  if n ≤ bs.length then .ok (bs.take n, bs.drop n) else .error .unexpectedEnd

/-- Modelled from the spec (§6): `cursor.readUint32OrThrow(true)`,
little-endian. -/
def readUint32LE (bs : List Nat) : Except ReadErr (Nat × List Nat) :=
  match bs with
  | b0 :: b1 :: b2 :: b3 :: rest =>
    .ok (b0 + 256 * b1 + 65536 * b2 + 16777216 * b3, rest)
  | _ => .error .unexpectedEnd

/-- Modelled from the spec (§6): `cursor.writeUint8OrThrow(v)` — `Uint8Array`
stores take the value mod 256. -/
def writeUint8 (v : Nat) : List Nat := [v % 256]

/-- Modelled from the spec (§6): `cursor.writeUint32OrThrow(v, true)`,
little-endian. -/
def writeUint32LE (v : Nat) : List Nat :=
  [v % 256, v / 256 % 256, v / 65536 % 256, v / 16777216 % 256]

namespace LEB128

/-- The LEB128 accumulation loop, inlined verbatim in each of the five
readers of the source (`U32`/`I32`/`I33`/`U64`/`I64` `readOrThrow`):

```ts
do {
  byte = cursor.readUint8OrThrow()
  value |= (BigInt(byte & 0x7F) << shift)
  shift += 7n
} while ((byte & 0x80) && (shift < 70n))
```

Returns `(value, shift, byte, rest)` with `byte` the last byte consumed. -/
def readLoop : List Nat → Nat → Nat → Option (Nat × Nat × Nat × List Nat)
  | [], _, _ => none
  | b :: rest, value, shift =>
    if b &&& 128 ≠ 0 ∧ shift + 7 < 70 then
      readLoop rest (value ||| ((b &&& 127) <<< shift)) (shift + 7)
    else some (value ||| ((b &&& 127) <<< shift), shift + 7, b, rest)

/-- `LEB128.U32.readOrThrow` (after the loop: `if (value > 2**32 - 1) throw`). -/
def U32.readOrThrow (bs : List Nat) : Except ReadErr (Nat × List Nat) :=
  match readLoop bs 0 0 with
  | none => .error .unexpectedEnd
  | some (value, _, _, rest) =>
    if value > 2 ^ 32 - 1 then .error .valueOverflow else .ok (value, rest)

/-- `LEB128.U64.readOrThrow` (after the loop: `if (value > 2**64 - 1) throw`). -/
def U64.readOrThrow (bs : List Nat) : Except ReadErr (Nat × List Nat) :=
  match readLoop bs 0 0 with
  | none => .error .unexpectedEnd
  | some (value, _, _, rest) =>
    if value > 2 ^ 64 - 1 then .error .valueOverflow else .ok (value, rest)

/-- The signed readers' sign-extension step `if (byte & 0x40) value |= (-1n << shift)`.
The accumulated `value` always satisfies `value < 2 ^ shift`
(`readLoop_lt` below), so the bigint or-assignment is subtraction of
`2 ^ shift`. -/
def signExtend (value shift lastByte : Nat) : Int :=
  if lastByte &&& 64 ≠ 0 then (value : Int) - 2 ^ shift else (value : Int)

/-- `LEB128.I32.readOrThrow`: loop, sign-extend, then
`if (value > 2**31 - 1) throw`. -/
def I32.readOrThrow (bs : List Nat) : Except ReadErr (Int × List Nat) :=
  match readLoop bs 0 0 with
  | none => .error .unexpectedEnd
  | some (value, shift, b, rest) =>
    if signExtend value shift b > 2 ^ 31 - 1 then .error .valueOverflow
    else .ok (signExtend value shift b, rest)

/-- `LEB128.I33.readOrThrow`: loop, sign-extend, then
`if (value > 2**32 - 1) throw`. -/
def I33.readOrThrow (bs : List Nat) : Except ReadErr (Int × List Nat) :=
  match readLoop bs 0 0 with
  | none => .error .unexpectedEnd
  | some (value, shift, b, rest) =>
    if signExtend value shift b > 2 ^ 32 - 1 then .error .valueOverflow
    else .ok (signExtend value shift b, rest)

/-- `LEB128.I64.readOrThrow`: loop, sign-extend, then
`if (value > 2**63 - 1) throw`. -/
def I64.readOrThrow (bs : List Nat) : Except ReadErr (Int × List Nat) :=
  match readLoop bs 0 0 with
  | none => .error .unexpectedEnd
  | some (value, shift, b, rest) =>
    if signExtend value shift b > 2 ^ 63 - 1 then .error .valueOverflow
    else .ok (signExtend value shift b, rest)

/-- The unsigned emit loop, the shared text of `U32.writeOrThrow` and
`U64.writeOrThrow`:

```ts
do {
  let byte = Number(value & 0x7Fn)
  value >>= 7n
  if (value !== 0n) byte |= 0x80
  cursor.writeUint8OrThrow(byte)
} while (value !== 0n)
```
-/
def unsignedWrite (value : Nat) : List Nat :=
  if h : value >>> 7 ≠ 0 then ((value &&& 127) ||| 128) :: unsignedWrite (value >>> 7)
  else [value &&& 127]
termination_by value
decreasing_by
  simp only [Nat.shiftRight_eq_div_pow] at *
  omega

/-- The unsigned size loop, same structure as `unsignedWrite` with `size += 1`
per iteration (`U32.sizeOrThrow` / `U64.sizeOrThrow`). -/
def unsignedSize (value : Nat) : Nat :=
  if h : value >>> 7 ≠ 0 then 1 + unsignedSize (value >>> 7)
  else 1
termination_by value
decreasing_by
  simp only [Nat.shiftRight_eq_div_pow] at *
  omega

/-- `LEB128.U32.writeOrThrow` (class field `value : number`, converted with
`BigInt`; nonnegative integral values are `Nat`). -/
def U32.writeOrThrow (value : Nat) : List Nat := unsignedWrite value

/-- `LEB128.U32.sizeOrThrow`. -/
def U32.sizeOrThrow (value : Nat) : Nat := unsignedSize value

/-- `LEB128.U64.writeOrThrow`. -/
def U64.writeOrThrow (value : Nat) : List Nat := unsignedWrite value

/-- `LEB128.U64.sizeOrThrow`. -/
def U64.sizeOrThrow (value : Nat) : Nat := unsignedSize value

/-- One iteration of the unsigned write loop's value update (`value >>= 7n`)
over a *signed* bigint, used to analyse the loop when `U32.value` is negative:
`BigInt(value) >> 7n` is floor division by 128. -/
def unsignedWriteStep (value : Int) : Int := Int.fdiv value 128

/-- The signed emit loop, the shared text of `I32.writeOrThrow`,
`I33.writeOrThrow` and `I64.writeOrThrow`:

```ts
while (more) {
  let byte = Number(value & 0x7Fn)
  value >>= 7n
  if ((value === 0n && (byte & 0x40) === 0) || (value === -1n && (byte & 0x40) !== 0))
    more = false
  else
    byte |= 0x80
  cursor.writeUint8OrThrow(byte)
}
```

`value & 0x7Fn` is `value % 128` (Euclidean mod, two's complement low bits);
`value >>= 7n` is `Int.fdiv value 128`. -/
def signedWrite (value : Int) : List Nat :=
  if h : (Int.fdiv value 128 = 0 ∧ (value % 128).toNat &&& 64 = 0)
       ∨ (Int.fdiv value 128 = -1 ∧ (value % 128).toNat &&& 64 ≠ 0)
  then [(value % 128).toNat]
  else ((value % 128).toNat ||| 128) :: signedWrite (Int.fdiv value 128)
termination_by value.natAbs
decreasing_by
  rw [Int.fdiv_eq_ediv _ (by norm_num)] at h ⊢
  rcases eq_or_ne value 0 with rfl | h0
  · exact absurd (Or.inl (by decide)) h
  rcases eq_or_ne value (-1) with rfl | h1
  · exact absurd (Or.inr (by decide)) h
  omega

/-- The signed size loop (`I32.sizeOrThrow` / `I33.sizeOrThrow` /
`I64.sizeOrThrow`), same structure as `signedWrite` with `size += 1`. -/
def signedSize (value : Int) : Nat :=
  if h : (Int.fdiv value 128 = 0 ∧ (value % 128).toNat &&& 64 = 0)
       ∨ (Int.fdiv value 128 = -1 ∧ (value % 128).toNat &&& 64 ≠ 0)
  then 1
  else 1 + signedSize (Int.fdiv value 128)
termination_by value.natAbs
decreasing_by
  rw [Int.fdiv_eq_ediv _ (by norm_num)] at h ⊢
  rcases eq_or_ne value 0 with rfl | h0
  · exact absurd (Or.inl (by decide)) h
  rcases eq_or_ne value (-1) with rfl | h1
  · exact absurd (Or.inr (by decide)) h
  omega

/-- `LEB128.I32.writeOrThrow`. -/
def I32.writeOrThrow (value : Int) : List Nat := signedWrite value

/-- `LEB128.I32.sizeOrThrow`. -/
def I32.sizeOrThrow (value : Int) : Nat := signedSize value

/-- `LEB128.I33.writeOrThrow`. -/
def I33.writeOrThrow (value : Int) : List Nat := signedWrite value

/-- `LEB128.I33.sizeOrThrow`. -/
def I33.sizeOrThrow (value : Int) : Nat := signedSize value

/-- `LEB128.I64.writeOrThrow`. -/
def I64.writeOrThrow (value : Int) : List Nat := signedWrite value

/-- `LEB128.I64.sizeOrThrow`. -/
def I64.sizeOrThrow (value : Int) : Nat := signedSize value

/-! ### Bit-level helper lemmas -/

theorem land_127_eq_mod (x : Nat) : x &&& 127 = x % 128 := by
  have h := Nat.and_pow_two_sub_one_eq_mod x 7
  norm_num at h
  exact h

theorem land_128_eq_zero {x : Nat} (h : x < 128) : x &&& 128 = 0 := by
  apply Nat.eq_of_testBit_eq
  intro i
  rw [Nat.testBit_land, Nat.zero_testBit]
  rcases eq_or_ne i 7 with rfl | hne
  · rw [Nat.testBit_lt_two_pow (h.trans_eq (by norm_num))]
    simp
  · have h128 : Nat.testBit 128 i = false := by
      rw [show (128 : Nat) = 2 ^ 7 by norm_num, Nat.testBit_two_pow]
      simp [hne.symm]
    simp [h128]

theorem lor_128_land_127 (x : Nat) : (x ||| 128) &&& 127 = x &&& 127 := by
  rw [Nat.and_distrib_right, show (128 : Nat) &&& 127 = 0 from by decide, Nat.or_zero]

theorem lor_128_land_128 (x : Nat) : (x ||| 128) &&& 128 ≠ 0 := by
  rw [Nat.and_distrib_right, show (128 : Nat) &&& 128 = 128 from by decide]
  intro h
  have h7 := congrArg (fun t => Nat.testBit t 7) h
  simp only [Nat.testBit_or, Nat.zero_testBit, Bool.or_eq_false_iff] at h7
  exact absurd h7.2 (by decide)

theorem or_shift_eq_add {acc shift : Nat} (x : Nat) (h : acc < 2 ^ shift) :
    acc ||| (x <<< shift) = acc + x * 2 ^ shift := by
  rw [Nat.shiftLeft_eq, Nat.or_comm, Nat.mul_comm x (2 ^ shift),
    ← Nat.mul_add_lt_is_or h x]
  omega

/-! ### Properties of the read loop -/

/-- Loop invariant: the accumulated value stays below `2 ^ shift` (each byte
contributes 7 bits at positions `[shift, shift + 7)`).  This justifies
translating `value |= (-1n << shift)` as subtraction in `signExtend`. -/
theorem readLoop_lt :
    ∀ (bs : List Nat) (value shift v s b : Nat) (rest : List Nat),
      value < 2 ^ shift → readLoop bs value shift = some (v, s, b, rest) →
      v < 2 ^ s := by
  intro bs
  induction bs with
  | nil => intro value shift v s b rest hv h; simp [readLoop] at h
  | cons x xs ih =>
    intro value shift v s b rest hv h
    have hstep : value ||| ((x &&& 127) <<< shift) < 2 ^ (shift + 7) := by
      apply Nat.or_lt_two_pow
      · exact lt_of_lt_of_le hv (Nat.pow_le_pow_right (by norm_num) (by omega))
      · rw [Nat.shiftLeft_eq, pow_add]
        have hx : x &&& 127 < 2 ^ 7 := by
          rw [land_127_eq_mod]; exact Nat.mod_lt _ (by norm_num)
        exact lt_of_lt_of_eq (mul_lt_mul_of_pos_right hx (by positivity)) (by ring)
    rw [readLoop] at h
    split at h
    · exact ih _ _ _ _ _ _ hstep h
    · simp only [Option.some.injEq, Prod.mk.injEq] at h
      obtain ⟨rfl, rfl, rfl, rfl⟩ := h
      exact hstep

/-- Loop exit: the final byte has its continuation bit clear, or the shift
guard was reached. -/
theorem readLoop_exit :
    ∀ (bs : List Nat) (value shift v s b : Nat) (rest : List Nat),
      readLoop bs value shift = some (v, s, b, rest) →
      b &&& 128 = 0 ∨ 70 ≤ s := by
  intro bs
  induction bs with
  | nil => intro value shift v s b rest h; simp [readLoop] at h
  | cons x xs ih =>
    intro value shift v s b rest h
    rw [readLoop] at h
    split at h
    · exact ih _ _ _ _ _ _ h
    · next hcond =>
      simp only [Option.some.injEq, Prod.mk.injEq] at h
      obtain ⟨rfl, rfl, rfl, rfl⟩ := h
      rcases Decidable.em (x &&& 128 = 0) with h0 | h0
      · exact Or.inl h0
      · right; by_contra hs
        exact hcond ⟨h0, by omega⟩

/-- Loop exit, shift bound: starting from a shift that is a multiple of 7 and
below 70, the final shift never exceeds 70. -/
theorem readLoop_shift_le :
    ∀ (bs : List Nat) (value shift v s b : Nat) (rest : List Nat),
      7 ∣ shift → shift < 70 →
      readLoop bs value shift = some (v, s, b, rest) →
      s ≤ 70 ∧ shift < s := by
  intro bs
  induction bs with
  | nil => intro value shift v s b rest _ _ h; simp [readLoop] at h
  | cons x xs ih =>
    intro value shift v s b rest hdvd hlt h
    rw [readLoop] at h
    split at h
    · next hcond =>
      have := ih _ _ _ _ _ _ (Nat.dvd_add hdvd (dvd_refl 7)) hcond.2 h
      omega
    · simp only [Option.some.injEq, Prod.mk.injEq] at h
      obtain ⟨rfl, rfl, rfl, rfl⟩ := h
      obtain ⟨c, rfl⟩ := hdvd
      omega

/-- The loop consumes at least one byte. -/
theorem readLoop_length :
    ∀ (bs : List Nat) (value shift v s b : Nat) (rest : List Nat),
      readLoop bs value shift = some (v, s, b, rest) →
      rest.length < bs.length := by
  intro bs
  induction bs with
  | nil => intro value shift v s b rest h; simp [readLoop] at h
  | cons x xs ih =>
    intro value shift v s b rest h
    rw [readLoop] at h
    split at h
    · exact Nat.lt_trans (ih _ _ _ _ _ _ h) (by simp)
    · simp only [Option.some.injEq, Prod.mk.injEq] at h
      obtain ⟨rfl, rfl, rfl, rfl⟩ := h
      simp

/-! ### Properties of the unsigned writer -/

theorem land_pow_eq_zero {x n : Nat} (h : x < 2 ^ n) : x &&& 2 ^ n = 0 := by
  apply Nat.eq_of_testBit_eq
  intro i
  rw [Nat.testBit_land, Nat.zero_testBit]
  rcases eq_or_ne i n with rfl | hne
  · rw [Nat.testBit_lt_two_pow h]
    simp
  · rw [Nat.testBit_two_pow_of_ne hne.symm]
    simp

theorem land_64_iff {x : Nat} (h : x < 128) : x &&& 64 ≠ 0 ↔ 64 ≤ x := by
  constructor
  · intro hne
    by_contra hlt
    exact hne (by
      rw [show (64 : Nat) = 2 ^ 6 from by norm_num]
      exact land_pow_eq_zero (by omega))
  · intro hge hzero
    have h6 := congrArg (fun t => Nat.testBit t 6) hzero
    simp only [Nat.zero_testBit, Nat.testBit_land] at h6
    rw [show Nat.testBit 64 6 = true from by decide, Bool.and_true] at h6
    rw [Nat.testBit_to_div_mod] at h6
    simp only [decide_eq_false_iff_not] at h6
    have : x / 2 ^ 6 = 1 := by norm_num; omega
    rw [this] at h6
    exact h6 rfl

theorem unsignedSize_pos (v : Nat) : 1 ≤ unsignedSize v := by
  rw [unsignedSize]
  split <;> omega

theorem unsignedSize_eq_length (v : Nat) :
    unsignedSize v = (unsignedWrite v).length := by
  induction v using unsignedWrite.induct with
  | case1 v hv ih =>
    rw [unsignedWrite, dif_pos hv, unsignedSize, dif_pos hv]
    simp only [List.length_cons, ih]
    omega
  | case2 v hv =>
    rw [unsignedWrite, dif_neg hv, unsignedSize, dif_neg hv]
    simp

theorem unsignedWrite_shape (v : Nat) :
    ∃ bs b, unsignedWrite v = bs ++ [b] ∧ b &&& 128 = 0 ∧
      ∀ x ∈ bs, x &&& 128 ≠ 0 := by
  induction v using unsignedWrite.induct with
  | case1 v hv ih =>
    obtain ⟨bs, b, heq, hb, hall⟩ := ih
    refine ⟨((v &&& 127) ||| 128) :: bs, b, ?_, hb, ?_⟩
    · rw [unsignedWrite, dif_pos hv, heq]
      rfl
    · intro x hx
      rcases List.mem_cons.mp hx with rfl | hx
      · exact lor_128_land_128 _
      · exact hall x hx
  | case2 v hv =>
    refine ⟨[], v &&& 127, ?_, ?_, by simp⟩
    · rw [unsignedWrite, dif_neg hv]
      rfl
    · apply land_128_eq_zero
      rw [land_127_eq_mod]
      exact Nat.mod_lt _ (by norm_num)

theorem unsignedSize_le (v : Nat) :
    ∀ k : Nat, 1 ≤ k → v < 2 ^ (7 * k) → unsignedSize v ≤ k := by
  induction v using unsignedSize.induct with
  | case1 v hv ih =>
    intro k hk h
    rw [unsignedSize, dif_pos hv]
    have hv128 : 128 ≤ v := by
      by_contra hlt
      exact hv (by rw [Nat.shiftRight_eq_div_pow]; norm_num; omega)
    have hk2 : 2 ≤ k := by
      by_contra hlt
      have hk1 : k = 1 := by omega
      subst hk1
      norm_num at h
      omega
    have hdiv : v >>> 7 < 2 ^ (7 * (k - 1)) := by
      rw [Nat.shiftRight_eq_div_pow]
      have hp : 2 ^ (7 * k) = 2 ^ (7 * (k - 1)) * 2 ^ 7 := by
        rw [← pow_add]
        congr 1
        omega
      rw [hp] at h
      norm_num at h ⊢
      omega
    have := ih (k - 1) (by omega) hdiv
    omega
  | case2 v hv =>
    intro k hk _
    rw [unsignedSize, dif_neg hv]
    exact hk

theorem readLoop_unsignedWrite (v : Nat) :
    ∀ (acc shift : Nat) (rest : List Nat),
      shift + 7 * unsignedSize v ≤ 70 → acc < 2 ^ shift →
      ∃ b, readLoop (unsignedWrite v ++ rest) acc shift
          = some (acc + v * 2 ^ shift, shift + 7 * unsignedSize v, b, rest) := by
  induction v using unsignedWrite.induct with
  | case1 v hv ih =>
    intro acc shift rest hbound hacc
    rw [unsignedSize, dif_pos hv] at hbound ⊢
    rw [unsignedWrite, dif_pos hv]
    have hpos := unsignedSize_pos (v >>> 7)
    rw [List.cons_append, readLoop, if_pos ⟨lor_128_land_128 _, by omega⟩]
    rw [lor_128_land_127, Nat.and_assoc, show (127 : Nat) &&& 127 = 127 from by decide,
      land_127_eq_mod, or_shift_eq_add _ hacc]
    have hacc' : acc + v % 128 * 2 ^ shift < 2 ^ (shift + 7) := by
      have h1 : v % 128 ≤ 127 := by omega
      have h2 : 2 ^ (shift + 7) = 2 ^ shift * 128 := by
        rw [pow_add]; norm_num
      have h3 : v % 128 * 2 ^ shift ≤ 127 * 2 ^ shift :=
        Nat.mul_le_mul_right _ h1
      omega
    obtain ⟨b, hb⟩ := ih (acc + v % 128 * 2 ^ shift) (shift + 7) rest (by omega) hacc'
    refine ⟨b, ?_⟩
    have hsplit : v = 128 * (v >>> 7) + v % 128 := by
      rw [Nat.shiftRight_eq_div_pow]
      norm_num
      omega
    have hpow : 2 ^ (shift + 7) = 2 ^ shift * 128 := by
      rw [pow_add]; norm_num
    have hval : acc + v % 128 * 2 ^ shift + v >>> 7 * 2 ^ (shift + 7)
        = acc + v * 2 ^ shift := by
      rw [hpow]
      conv_rhs => rw [hsplit]
      ring
    have hsh : shift + 7 + 7 * unsignedSize (v >>> 7)
        = shift + 7 * (1 + unsignedSize (v >>> 7)) := by ring
    rw [hb, hval, hsh]
  | case2 v hv =>
    intro acc shift rest hbound hacc
    rw [unsignedSize, dif_neg hv] at hbound ⊢
    rw [unsignedWrite, dif_neg hv]
    have hvlt : v < 128 := by
      by_contra hge
      exact hv (by rw [Nat.shiftRight_eq_div_pow]; norm_num; omega)
    have hlast : (v &&& 127) &&& 128 = 0 := by
      apply land_128_eq_zero
      rw [land_127_eq_mod]
      omega
    rw [List.singleton_append, readLoop, if_neg (by simp [hlast])]
    refine ⟨v &&& 127, ?_⟩
    rw [Nat.and_assoc, show (127 : Nat) &&& 127 = 127 from by decide,
      or_shift_eq_add _ hacc, land_127_eq_mod, Nat.mod_eq_of_lt hvlt]

theorem unsignedWrite_read_init (v : Nat) (rest : List Nat)
    (hsz : 7 * unsignedSize v ≤ 70) :
    ∃ b, readLoop (unsignedWrite v ++ rest) 0 0
        = some (v, 7 * unsignedSize v, b, rest) := by
  obtain ⟨b, hb⟩ := readLoop_unsignedWrite v 0 0 rest (by omega) (by norm_num)
  refine ⟨b, ?_⟩
  simpa using hb

/-- Round-trip for `LEB128.U32`: writing a value `< 2 ^ 32` and reading the
result back (with any continuation) succeeds and restores the value. -/
theorem U32_read_write {u : Nat} (h : u < 2 ^ 32) (rest : List Nat) :
    U32.readOrThrow (U32.writeOrThrow u ++ rest) = .ok (u, rest) := by
  have hsz : unsignedSize u ≤ 5 :=
    unsignedSize_le u 5 (by norm_num) (lt_of_lt_of_le h (by norm_num))
  obtain ⟨b, hb⟩ := unsignedWrite_read_init u rest (by omega)
  simp only [U32.readOrThrow, U32.writeOrThrow, hb]
  rw [if_neg (by omega)]

/-- Round-trip for `LEB128.U64`. -/
theorem U64_read_write {u : Nat} (h : u < 2 ^ 64) (rest : List Nat) :
    U64.readOrThrow (U64.writeOrThrow u ++ rest) = .ok (u, rest) := by
  have hsz : unsignedSize u ≤ 10 :=
    unsignedSize_le u 10 (by norm_num) (lt_of_lt_of_le h (by norm_num))
  obtain ⟨b, hb⟩ := unsignedWrite_read_init u rest (by omega)
  simp only [U64.readOrThrow, U64.writeOrThrow, hb]
  rw [if_neg (by omega)]

/-! ### Properties of the signed writer -/

theorem signedSize_pos (v : Int) : 1 ≤ signedSize v := by
  rw [signedSize]
  split <;> omega

theorem signedSize_eq_length (v : Int) :
    signedSize v = (signedWrite v).length := by
  induction v using signedWrite.induct with
  | case1 v hstop =>
    rw [signedWrite, dif_pos hstop, signedSize, dif_pos hstop]
    rfl
  | case2 v hstop ih =>
    rw [signedWrite, dif_neg hstop, signedSize, dif_neg hstop]
    simp only [List.length_cons, ih]
    omega

theorem signedSize_le (v : Int) :
    ∀ k : Nat, 1 ≤ k → -(2 ^ (7 * k - 1) : Int) ≤ v → v < 2 ^ (7 * k - 1) →
      signedSize v ≤ k := by
  induction v using signedSize.induct with
  | case1 v hstop =>
    intro k hk _ _
    rw [signedSize, dif_pos hstop]
    exact hk
  | case2 v hstop ih =>
    intro k hk h1 h2
    rw [signedSize, dif_neg hstop]
    rw [Int.fdiv_eq_ediv _ (by norm_num)] at hstop ih ⊢
    have hbv : ((v % 128).toNat : Int) = v % 128 :=
      Int.toNat_of_nonneg (Int.emod_nonneg v (by norm_num))
    have hrange : v < -64 ∨ 64 ≤ v := by
      by_contra hc
      push_neg at hc
      obtain ⟨hc1, hc2⟩ := hc
      rcases le_or_lt 0 v with hv0 | hv0
      · refine hstop (Or.inl ⟨by omega, ?_⟩)
        rw [show (64 : Nat) = 2 ^ 6 from by norm_num]
        exact land_pow_eq_zero (by omega)
      · refine hstop (Or.inr ⟨by omega, ?_⟩)
        rw [land_64_iff (by omega)]
        omega
    have hk2 : 2 ≤ k := by
      by_contra hlt
      have hk1 : k = 1 := by omega
      subst hk1
      norm_num at h1 h2
      omega
    have hdiv1 : -(2 ^ (7 * (k - 1) - 1) : Int) ≤ v / 128 := by
      have hp : (2 ^ (7 * k - 1) : Int) = 2 ^ (7 * (k - 1) - 1) * 128 := by
        rw [show (128 : Int) = 2 ^ 7 from by norm_num, ← pow_add]
        congr 1
        omega
      rw [hp] at h1
      omega
    have hdiv2 : v / 128 < (2 ^ (7 * (k - 1) - 1) : Int) := by
      have hp : (2 ^ (7 * k - 1) : Int) = 2 ^ (7 * (k - 1) - 1) * 128 := by
        rw [show (128 : Int) = 2 ^ 7 from by norm_num, ← pow_add]
        congr 1
        omega
      rw [hp] at h2
      omega
    have := ih (k - 1) (by omega) hdiv1 hdiv2
    omega

theorem readLoop_signedWrite (v : Int) :
    ∀ (acc shift : Nat) (rest : List Nat),
      shift + 7 * signedSize v ≤ 70 → acc < 2 ^ shift →
      ∃ w b, readLoop (signedWrite v ++ rest) acc shift
          = some (w, shift + 7 * signedSize v, b, rest)
        ∧ (w : Int)
            = acc + (v + if v < 0 then 2 ^ (7 * signedSize v) else 0) * 2 ^ shift
        ∧ (b &&& 64 ≠ 0 ↔ v < 0) := by
  induction v using signedWrite.induct with
  | case1 v hstop =>
    intro acc shift rest hbound hacc
    rw [signedSize, dif_pos hstop] at hbound ⊢
    rw [signedWrite, dif_pos hstop]
    have hbv : ((v % 128).toNat : Int) = v % 128 :=
      Int.toNat_of_nonneg (Int.emod_nonneg v (by norm_num))
    have hblt : (v % 128).toNat < 128 := by
      have := Int.emod_lt_of_pos v (show (0 : Int) < 128 from by norm_num)
      omega
    rw [Int.fdiv_eq_ediv _ (by norm_num)] at hstop
    rw [List.singleton_append, readLoop,
      if_neg (by simp [land_128_eq_zero hblt])]
    refine ⟨acc + (v % 128).toNat * 2 ^ shift, (v % 128).toNat, ?_, ?_, ?_⟩
    · rw [land_127_eq_mod, Nat.mod_eq_of_lt hblt, or_shift_eq_add _ hacc]
    · rw [Nat.cast_add, Nat.cast_mul, hbv]
      rcases hstop with ⟨h0, _⟩ | ⟨h1, _⟩
      · rw [if_neg (by omega)]
        have hv : (v % 128 : Int) = v := by omega
        rw [hv]
        push_cast
        ring
      · rw [if_pos (by omega)]
        have hv : (v % 128 : Int) = v + 128 := by omega
        rw [hv]
        push_cast
        norm_num
    · rcases hstop with ⟨h0, hb0⟩ | ⟨h1, hb1⟩
      · constructor
        · intro hb
          exact absurd hb0 hb
        · intro hv
          omega
      · constructor
        · intro _
          omega
        · intro _
          exact hb1
  | case2 v hstop ih =>
    intro acc shift rest hbound hacc
    rw [signedSize, dif_neg hstop] at hbound ⊢
    rw [signedWrite, dif_neg hstop]
    have hbv : ((v % 128).toNat : Int) = v % 128 :=
      Int.toNat_of_nonneg (Int.emod_nonneg v (by norm_num))
    have hblt : (v % 128).toNat < 128 := by
      have := Int.emod_lt_of_pos v (show (0 : Int) < 128 from by norm_num)
      omega
    have hpos := signedSize_pos (Int.fdiv v 128)
    have hacc' : acc + (v % 128).toNat * 2 ^ shift < 2 ^ (shift + 7) := by
      have h2 : 2 ^ (shift + 7) = 2 ^ shift * 128 := by
        rw [pow_add]; norm_num
      have h3 : (v % 128).toNat * 2 ^ shift ≤ 127 * 2 ^ shift :=
        Nat.mul_le_mul_right _ (by omega)
      omega
    obtain ⟨w, b, hb, hw, hsign⟩ :=
      ih (acc + (v % 128).toNat * 2 ^ shift) (shift + 7) rest (by omega) hacc'
    have hsignv : Int.fdiv v 128 < 0 ↔ v < 0 := by
      rw [Int.fdiv_eq_ediv _ (by norm_num)]
      omega
    refine ⟨w, b, ?_, ?_, ?_⟩
    · rw [List.cons_append, readLoop, if_pos ⟨lor_128_land_128 _, by omega⟩]
      rw [lor_128_land_127, land_127_eq_mod, Nat.mod_eq_of_lt hblt,
        or_shift_eq_add _ hacc]
      rw [hb]
      have hsh : shift + 7 + 7 * signedSize (Int.fdiv v 128)
          = shift + 7 * (1 + signedSize (Int.fdiv v 128)) := by ring
      rw [hsh]
    · rw [hw]
      rw [Int.fdiv_eq_ediv _ (by norm_num)]
      have hvsplit : v = 128 * (v / 128) + v % 128 := by omega
      have hpow : ((2 : Int) ^ (shift + 7)) = 2 ^ shift * 128 := by
        rw [pow_add]; norm_num
      have hpowN : ((2 : Nat) ^ (shift + 7)) = 2 ^ shift * 128 := by
        rw [pow_add]; norm_num
      have hps : ((2 : Int) ^ (7 * (1 + signedSize (v / 128))))
          = 2 ^ (7 * signedSize (v / 128)) * 128 := by
        rw [show 7 * (1 + signedSize (v / 128))
            = 7 * signedSize (v / 128) + 7 from by ring, pow_add]
        norm_num
      rcases lt_or_le v 0 with hneg | hnonneg
      · rw [if_pos hneg, if_pos (by omega)]
        push_cast
        rw [hbv, hps, hpow]
        set t := signedSize (v / 128) with ht
        conv_rhs => rw [hvsplit]
        ring
      · rw [if_neg (by omega), if_neg (by omega)]
        push_cast
        rw [hbv, hpow]
        conv_rhs => rw [hvsplit]
        ring
    · rw [hsign, hsignv]

theorem readLoop_signedWrite_init (v : Int) (rest : List Nat)
    (hsz : 7 * signedSize v ≤ 70) :
    ∃ w b, readLoop (signedWrite v ++ rest) 0 0
        = some (w, 7 * signedSize v, b, rest)
      ∧ signExtend w (7 * signedSize v) b = v := by
  obtain ⟨w, b, hb, hw, hsign⟩ :=
    readLoop_signedWrite v 0 0 rest (by omega) (by norm_num)
  norm_num at hb hw
  refine ⟨w, b, hb, ?_⟩
  rw [signExtend]
  rcases lt_or_le v 0 with hneg | hnonneg
  · rw [if_pos (hsign.mpr hneg)]
    rw [if_pos hneg] at hw
    omega
  · rw [if_neg (by rw [hsign]; omega)]
    rw [if_neg (by omega)] at hw
    omega

/-- Round-trip for `LEB128.I32` on the declared range `[-2³¹, 2³¹-1]`. -/
theorem I32_read_write {i : Int} (h1 : -2 ^ 31 ≤ i) (h2 : i ≤ 2 ^ 31 - 1)
    (rest : List Nat) :
    I32.readOrThrow (I32.writeOrThrow i ++ rest) = .ok (i, rest) := by
  have hsz : signedSize i ≤ 5 := by
    refine signedSize_le i 5 (by norm_num) ?_ ?_ <;> norm_num at h1 h2 ⊢ <;> omega
  obtain ⟨w, b, hb, hse⟩ := readLoop_signedWrite_init i rest (by omega)
  simp only [I32.readOrThrow, I32.writeOrThrow, hb, hse]
  rw [if_neg (by omega)]

/-- Round-trip for `LEB128.I33` on the range `[-2³², 2³²-1]` (spec §8, law 5). -/
theorem I33_read_write {i : Int} (h1 : -2 ^ 32 ≤ i) (h2 : i ≤ 2 ^ 32 - 1)
    (rest : List Nat) :
    I33.readOrThrow (I33.writeOrThrow i ++ rest) = .ok (i, rest) := by
  have hsz : signedSize i ≤ 5 := by
    refine signedSize_le i 5 (by norm_num) ?_ ?_ <;> norm_num at h1 h2 ⊢ <;> omega
  obtain ⟨w, b, hb, hse⟩ := readLoop_signedWrite_init i rest (by omega)
  simp only [I33.readOrThrow, I33.writeOrThrow, hb, hse]
  rw [if_neg (by omega)]

/-- Round-trip for `LEB128.I64` on the declared range `[-2⁶³, 2⁶³-1]`. -/
theorem I64_read_write {i : Int} (h1 : -2 ^ 63 ≤ i) (h2 : i ≤ 2 ^ 63 - 1)
    (rest : List Nat) :
    I64.readOrThrow (I64.writeOrThrow i ++ rest) = .ok (i, rest) := by
  have hsz : signedSize i ≤ 10 := by
    refine signedSize_le i 10 (by norm_num) ?_ ?_ <;> norm_num at h1 h2 ⊢ <;> omega
  obtain ⟨w, b, hb, hse⟩ := readLoop_signedWrite_init i rest (by omega)
  simp only [I64.readOrThrow, I64.writeOrThrow, hb, hse]
  rw [if_neg (by omega)]

/-! ### Consumption lemmas for the readers -/

theorem U32_read_length {bs : List Nat} {v : Nat} {rest : List Nat}
    (h : U32.readOrThrow bs = .ok (v, rest)) : rest.length < bs.length := by
  rw [U32.readOrThrow] at h
  split at h
  · exact absurd h (by simp)
  · next w s b r heq =>
    split at h
    · exact absurd h (by simp)
    · simp only [Except.ok.injEq, Prod.mk.injEq] at h
      obtain ⟨rfl, rfl⟩ := h
      exact readLoop_length _ _ _ _ _ _ _ heq

theorem U64_read_length {bs : List Nat} {v : Nat} {rest : List Nat}
    (h : U64.readOrThrow bs = .ok (v, rest)) : rest.length < bs.length := by
  rw [U64.readOrThrow] at h
  split at h
  · exact absurd h (by simp)
  · next w s b r heq =>
    split at h
    · exact absurd h (by simp)
    · simp only [Except.ok.injEq, Prod.mk.injEq] at h
      obtain ⟨rfl, rfl⟩ := h
      exact readLoop_length _ _ _ _ _ _ _ heq

theorem I32_read_length {bs : List Nat} {v : Int} {rest : List Nat}
    (h : I32.readOrThrow bs = .ok (v, rest)) : rest.length < bs.length := by
  rw [I32.readOrThrow] at h
  split at h
  · exact absurd h (by simp)
  · next w s b r heq =>
    split at h
    · exact absurd h (by simp)
    · simp only [Except.ok.injEq, Prod.mk.injEq] at h
      obtain ⟨rfl, rfl⟩ := h
      exact readLoop_length _ _ _ _ _ _ _ heq

theorem I33_read_length {bs : List Nat} {v : Int} {rest : List Nat}
    (h : I33.readOrThrow bs = .ok (v, rest)) : rest.length < bs.length := by
  rw [I33.readOrThrow] at h
  split at h
  · exact absurd h (by simp)
  · next w s b r heq =>
    split at h
    · exact absurd h (by simp)
    · simp only [Except.ok.injEq, Prod.mk.injEq] at h
      obtain ⟨rfl, rfl⟩ := h
      exact readLoop_length _ _ _ _ _ _ _ heq

theorem I64_read_length {bs : List Nat} {v : Int} {rest : List Nat}
    (h : I64.readOrThrow bs = .ok (v, rest)) : rest.length < bs.length := by
  rw [I64.readOrThrow] at h
  split at h
  · exact absurd h (by simp)
  · next w s b r heq =>
    split at h
    · exact absurd h (by simp)
    · simp only [Except.ok.injEq, Prod.mk.injEq] at h
      obtain ⟨rfl, rfl⟩ := h
      exact readLoop_length _ _ _ _ _ _ _ heq

/-- Iterating `value >>= 7n` on a negative bigint never reaches zero: floor
division by 128 keeps negatives negative. -/
theorem unsignedWriteStep_iterate_neg (v : Int) (hv : v < 0) (n : Nat) :
    unsignedWriteStep^[n] v ≠ 0 := by
  induction n generalizing v with
  | zero =>
    simpa using (by omega : v ≠ 0)
  | succ n ih =>
    rw [Function.iterate_succ_apply]
    apply ih
    rw [unsignedWriteStep, Int.fdiv_eq_ediv _ (by norm_num)]
    omega

end LEB128

/-! ### Claims about the LEB128 codec -/

/-- C1 (counterexample): ten `0x80` bytes in a row — every byte has the
continuation bit set, so the accumulated shift reaches 70 bits without any
terminating byte — yet `LEB128.U32.readOrThrow` SUCCEEDS, returning `0`
with the whole input consumed, instead of failing with `LebOverflow`. -/
theorem u32_read_accepts_unterminated_guard :
    LEB128.U32.readOrThrow (List.replicate 10 128) = .ok (0, []) := by
  decide

/-- C1 (amended): every LEB128 reader consumes bytes until a byte with the
continuation bit clear *or* until the accumulated shift reaches 70 bits,
whichever comes first; a read that completes the loop fails only when the
(sign-extended) accumulated value exceeds the declared upper bound — an
encoding whose continuation bits never clear within the guard is *accepted*
whenever the accumulated value is in range. -/
theorem leb128_read_stops_at_guard (bs : List Nat) (v s b : Nat)
    (rest : List Nat) (h : LEB128.readLoop bs 0 0 = some (v, s, b, rest)) :
    (b &&& 128 = 0 ∨ s = 70)
    ∧ (LEB128.U32.readOrThrow bs
        = if 2 ^ 32 - 1 < v then .error .valueOverflow else .ok (v, rest))
    ∧ (LEB128.U64.readOrThrow bs
        = if 2 ^ 64 - 1 < v then .error .valueOverflow else .ok (v, rest))
    ∧ (LEB128.I32.readOrThrow bs
        = if 2 ^ 31 - 1 < LEB128.signExtend v s b then .error .valueOverflow
          else .ok (LEB128.signExtend v s b, rest))
    ∧ (LEB128.I33.readOrThrow bs
        = if 2 ^ 32 - 1 < LEB128.signExtend v s b then .error .valueOverflow
          else .ok (LEB128.signExtend v s b, rest))
    ∧ (LEB128.I64.readOrThrow bs
        = if 2 ^ 63 - 1 < LEB128.signExtend v s b then .error .valueOverflow
          else .ok (LEB128.signExtend v s b, rest)) := by
  refine ⟨?_, ?_, ?_, ?_, ?_, ?_⟩
  · rcases LEB128.readLoop_exit _ _ _ _ _ _ _ h with h0 | h70
    · exact Or.inl h0
    · have := LEB128.readLoop_shift_le _ _ _ _ _ _ _ ⟨0, rfl⟩ (by norm_num) h
      exact Or.inr (by omega)
  · simp only [LEB128.U32.readOrThrow, h, gt_iff_lt]
  · simp only [LEB128.U64.readOrThrow, h, gt_iff_lt]
  · simp only [LEB128.I32.readOrThrow, h, gt_iff_lt]
  · simp only [LEB128.I33.readOrThrow, h, gt_iff_lt]
  · simp only [LEB128.I64.readOrThrow, h, gt_iff_lt]

/-- Witness for `leb128_read_stops_at_guard` at the ten-continuation-byte
input. -/
theorem leb128_read_stops_at_guard_witness :
    (128 &&& 128 = 0 ∨ 70 = 70)
    ∧ (LEB128.U32.readOrThrow (List.replicate 10 128)
        = if 2 ^ 32 - 1 < 0 then .error .valueOverflow else .ok (0, [])) :=
  have h : LEB128.readLoop (List.replicate 10 128) 0 0 = some (0, 70, 128, []) := by
    decide
  ⟨(leb128_read_stops_at_guard _ _ _ _ _ h).1,
   (leb128_read_stops_at_guard _ _ _ _ _ h).2.1⟩

/-- C4 (confirmed): for every `u` in `[0, 2³²−1]`, writing `u` with
`LEB128.U32.writeOrThrow` and reading the produced bytes back with
`LEB128.U32.readOrThrow` succeeds and returns `u`. -/
theorem u32_write_read_roundtrip (u : Nat) (h : u ≤ 2 ^ 32 - 1) :
    LEB128.U32.readOrThrow (LEB128.U32.writeOrThrow u) = .ok (u, []) := by
  have := LEB128.U32_read_write (u := u) (by omega) []
  simpa using this

/-- Witness for `u32_write_read_roundtrip` at `u = 2³²−1`. -/
theorem u32_write_read_roundtrip_witness :
    LEB128.U32.readOrThrow (LEB128.U32.writeOrThrow 4294967295)
      = .ok (4294967295, []) :=
  u32_write_read_roundtrip 4294967295 (by norm_num)

/-- C5 (confirmed): the signed `LEB128.I32` encoder produces exactly the
spec's boundary byte sequences (`-1 ↦ 7F`, `-128 ↦ 80 7F`, `63 ↦ 3F`,
`64 ↦ C0 00`), and the reader decodes each back to the original value. -/
theorem i32_sign_boundary_examples :
    LEB128.I32.writeOrThrow (-1) = [0x7F]
    ∧ LEB128.I32.writeOrThrow (-128) = [0x80, 0x7F]
    ∧ LEB128.I32.writeOrThrow 63 = [0x3F]
    ∧ LEB128.I32.writeOrThrow 64 = [0xC0, 0x00]
    ∧ LEB128.I32.readOrThrow [0x7F] = .ok (-1, [])
    ∧ LEB128.I32.readOrThrow [0x80, 0x7F] = .ok (-128, [])
    ∧ LEB128.I32.readOrThrow [0x3F] = .ok (63, [])
    ∧ LEB128.I32.readOrThrow [0xC0, 0x00] = .ok (64, []) := by
  refine ⟨?_, ?_, ?_, ?_, by decide, by decide, by decide, by decide⟩
  · rw [LEB128.I32.writeOrThrow, LEB128.signedWrite, dif_pos (by decide)]
    decide
  · rw [LEB128.I32.writeOrThrow, LEB128.signedWrite, dif_neg (by decide),
      LEB128.signedWrite, dif_pos (by decide)]
    decide
  · rw [LEB128.I32.writeOrThrow, LEB128.signedWrite, dif_pos (by decide)]
    decide
  · rw [LEB128.I32.writeOrThrow, LEB128.signedWrite, dif_neg (by decide),
      LEB128.signedWrite, dif_pos (by decide)]
    decide

/-- C9 (confirmed): the signed readers check only the *upper* bound of their
declared range after sign extension.  Concretely, `80 80 80 80 40` decodes
under `I32` to `-2³⁴ < -2³¹`; analogous inputs give `I33` the value
`-2⁴¹ < -2³²` and `I64` the value `-2⁶⁹ < -2⁶³`.  In general, whenever the
accumulation loop completes and the sign-extended value is at most the upper
bound, the read succeeds — there is no lower-bound rejection. -/
theorem signed_readers_check_only_upper_bound :
    (LEB128.I32.readOrThrow [0x80, 0x80, 0x80, 0x80, 0x40]
      = .ok (-(2 ^ 34), []) ∧ (-(2 ^ 34) : Int) < -(2 ^ 31))
    ∧ (LEB128.I33.readOrThrow [0x80, 0x80, 0x80, 0x80, 0x80, 0x40]
      = .ok (-(2 ^ 41), []) ∧ (-(2 ^ 41) : Int) < -(2 ^ 32))
    ∧ (LEB128.I64.readOrThrow
        [0x80, 0x80, 0x80, 0x80, 0x80, 0x80, 0x80, 0x80, 0x80, 0x40]
      = .ok (-(2 ^ 69), []) ∧ (-(2 ^ 69) : Int) < -(2 ^ 63))
    ∧ (∀ (bs : List Nat) (v s b : Nat) (rest : List Nat),
        LEB128.readLoop bs 0 0 = some (v, s, b, rest) →
        LEB128.signExtend v s b ≤ 2 ^ 31 - 1 →
        LEB128.I32.readOrThrow bs = .ok (LEB128.signExtend v s b, rest))
    ∧ (∀ (bs : List Nat) (v s b : Nat) (rest : List Nat),
        LEB128.readLoop bs 0 0 = some (v, s, b, rest) →
        LEB128.signExtend v s b ≤ 2 ^ 32 - 1 →
        LEB128.I33.readOrThrow bs = .ok (LEB128.signExtend v s b, rest))
    ∧ (∀ (bs : List Nat) (v s b : Nat) (rest : List Nat),
        LEB128.readLoop bs 0 0 = some (v, s, b, rest) →
        LEB128.signExtend v s b ≤ 2 ^ 63 - 1 →
        LEB128.I64.readOrThrow bs = .ok (LEB128.signExtend v s b, rest)) := by
  refine ⟨⟨by decide, by decide⟩, ⟨by decide, by decide⟩, ⟨by decide, by decide⟩,
    ?_, ?_, ?_⟩
  · intro bs v s b rest h hle
    simp only [LEB128.I32.readOrThrow, h, gt_iff_lt]
    rw [if_neg (by omega)]
  · intro bs v s b rest h hle
    simp only [LEB128.I33.readOrThrow, h, gt_iff_lt]
    rw [if_neg (by omega)]
  · intro bs v s b rest h hle
    simp only [LEB128.I64.readOrThrow, h, gt_iff_lt]
    rw [if_neg (by omega)]

/-- Witness for `signed_readers_check_only_upper_bound` applying the general
conjunct at the single byte `0x00`. -/
theorem signed_readers_check_only_upper_bound_witness :
    LEB128.I32.readOrThrow [0] = .ok (LEB128.signExtend 0 7 0, []) :=
  signed_readers_check_only_upper_bound.2.2.2.1 [0] 0 7 0 []
    (by decide) (by decide)

/-- C10 (confirmed): the unsigned LEB128 emit loop always emits at least one
byte (`0 ↦ [00]`); exactly the final byte has the continuation bit clear;
the working value strictly decreases under the 7-bit shift while nonzero
(which is why the loop terminates for every nonnegative value); and for a
negative bigint the update `value >>= 7n` never reaches `0`, so the loop
would never exit — nonnegativity is required for termination. -/
theorem u32_write_terminates_with_final_byte_clear :
    (∀ v : Nat, ∃ bs b, LEB128.unsignedWrite v = bs ++ [b]
      ∧ b &&& 128 = 0 ∧ ∀ x ∈ bs, x &&& 128 ≠ 0)
    ∧ LEB128.unsignedWrite 0 = [0]
    ∧ (∀ v : Nat, v ≠ 0 → v >>> 7 < v)
    ∧ (∀ v : Int, v < 0 → ∀ n : Nat, LEB128.unsignedWriteStep^[n] v ≠ 0) := by
  refine ⟨LEB128.unsignedWrite_shape, ?_, ?_, LEB128.unsignedWriteStep_iterate_neg⟩
  · rw [LEB128.unsignedWrite, dif_neg (by decide)]
    decide
  · intro v hv
    rw [Nat.shiftRight_eq_div_pow]
    norm_num
    omega

/-- Witness for `u32_write_terminates_with_final_byte_clear`. -/
theorem u32_write_terminates_witness :
    (300 : Nat) >>> 7 < 300 ∧ LEB128.unsignedWriteStep^[3] (-5 : Int) ≠ 0 :=
  ⟨u32_write_terminates_with_final_byte_clear.2.2.1 300 (by norm_num),
   u32_write_terminates_with_final_byte_clear.2.2.2 (-5) (by norm_num) 3⟩

/-! ## Scalar primitives (`U8`, `F32`, `F64`)

`F32`/`F64` are carried as their IEEE-754 bit patterns (the exact bytes the
cursor reads and writes little-endian), per spec §4.2: bit patterns
round-trip exactly. -/

/-- `U8.readOrThrow`. -/
def U8.readOrThrow (bs : List Nat) : Except ReadErr (Nat × List Nat) :=
  readUint8 bs

/-- `U8.writeOrThrow`. -/
def U8.writeOrThrow (value : Nat) : List Nat := writeUint8 value

/-- `F32.readOrThrow` (`cursor.readFloat32OrThrow(true)`): four little-endian
bytes, kept as the 32-bit pattern. -/
def F32.readOrThrow (bs : List Nat) : Except ReadErr (Nat × List Nat) :=
  readUint32LE bs

/-- `F32.writeOrThrow` (`cursor.writeFloat32OrThrow(value, true)`). -/
def F32.writeOrThrow (bits : Nat) : List Nat := writeUint32LE bits

/-- `F64.readOrThrow` (`cursor.readFloat64OrThrow(true)`): eight little-endian
bytes, kept as the 64-bit pattern. -/
def F64.readOrThrow (bs : List Nat) : Except ReadErr (Nat × List Nat) :=
  match bs with
  | b0 :: b1 :: b2 :: b3 :: b4 :: b5 :: b6 :: b7 :: rest =>
    .ok (b0 + 2 ^ 8 * b1 + 2 ^ 16 * b2 + 2 ^ 24 * b3 + 2 ^ 32 * b4
      + 2 ^ 40 * b5 + 2 ^ 48 * b6 + 2 ^ 56 * b7, rest)
  | _ => .error .unexpectedEnd

/-- `F64.writeOrThrow` (`cursor.writeFloat64OrThrow(value, true)`). -/
def F64.writeOrThrow (bits : Nat) : List Nat :=
  [bits % 256, bits / 2 ^ 8 % 256, bits / 2 ^ 16 % 256, bits / 2 ^ 24 % 256,
   bits / 2 ^ 32 % 256, bits / 2 ^ 40 % 256, bits / 2 ^ 48 % 256,
   bits / 2 ^ 56 % 256]

/-- Round-trip of the `F32` bit-pattern codec. -/
theorem F32_read_write {bits : Nat} (h : bits < 2 ^ 32) (r : List Nat) :
    F32.readOrThrow (F32.writeOrThrow bits ++ r) = .ok (bits, r) := by
  have hv : bits % 256 + 256 * (bits / 256 % 256) + 65536 * (bits / 65536 % 256)
      + 16777216 * (bits / 16777216 % 256) = bits := by omega
  rw [F32.writeOrThrow, writeUint32LE]
  simp only [List.cons_append, List.nil_append]
  rw [F32.readOrThrow, readUint32LE, hv]

/-- Round-trip of the `F64` bit-pattern codec. -/
theorem F64_read_write {bits : Nat} (h : bits < 2 ^ 64) (r : List Nat) :
    F64.readOrThrow (F64.writeOrThrow bits ++ r) = .ok (bits, r) := by
  have hv : bits % 256 + 2 ^ 8 * (bits / 2 ^ 8 % 256) + 2 ^ 16 * (bits / 2 ^ 16 % 256)
      + 2 ^ 24 * (bits / 2 ^ 24 % 256) + 2 ^ 32 * (bits / 2 ^ 32 % 256)
      + 2 ^ 40 * (bits / 2 ^ 40 % 256) + 2 ^ 48 * (bits / 2 ^ 48 % 256)
      + 2 ^ 56 * (bits / 2 ^ 56 % 256) = bits := by
    norm_num
    omega
  rw [F64.writeOrThrow]
  simp only [List.cons_append, List.nil_append]
  rw [F64.readOrThrow, hv]

/-! ## Generic list combinators

The source writes sequences with `for (const x of xs) x.writeOrThrow(cursor)`
and reads them with `for (let i = 0; i < count.value; i++) xs.push(readOrThrow(cursor))`;
these two combinators are those loops. -/

/-- Emit each element of a list in order. -/
def writeList (f : α → List Nat) : List α → List Nat
  | [] => []
  | x :: xs => f x ++ writeList f xs

/-- Sum of element sizes. -/
def sizeList (f : α → Nat) : List α → Nat
  | [] => 0
  | x :: xs => f x + sizeList f xs

/-- Read `n` consecutive elements with `read1`. -/
def readCount (read1 : List Nat → Except ReadErr (α × List Nat)) :
    Nat → List Nat → Except ReadErr (List α × List Nat)
  | 0, bs => .ok ([], bs)
  | n + 1, bs =>
    match read1 bs with
    | .error e => .error e
    | .ok (x, bs) =>
      match readCount read1 n bs with
      | .error e => .error e
      | .ok (xs, bs) => .ok (x :: xs, bs)

theorem sizeList_eq_length {f : α → Nat} {g : α → List Nat} (xs : List α)
    (h : ∀ x ∈ xs, f x = (g x).length) :
    sizeList f xs = (writeList g xs).length := by
  induction xs with
  | nil => rfl
  | cons x xs ih =>
    rw [sizeList, writeList, List.length_append,
      h x (List.mem_cons_self _ _), ih fun y hy => h y (List.mem_cons_of_mem _ hy)]

theorem readCount_writeList {read1 : List Nat → Except ReadErr (α × List Nat)}
    {write1 : α → List Nat} (xs : List α) (rest : List Nat)
    (h : ∀ x ∈ xs, ∀ r, read1 (write1 x ++ r) = .ok (x, r)) :
    readCount read1 xs.length (writeList write1 xs ++ rest) = .ok (xs, rest) := by
  induction xs with
  | nil => rfl
  | cons x xs ih =>
    simp only [List.length_cons, writeList, List.append_assoc, readCount,
      h x (List.mem_cons_self _ _),
      ih (fun y hy r => h y (List.mem_cons_of_mem _ hy) r)]

theorem readCount_length {read1 : List Nat → Except ReadErr (α × List Nat)}
    (hmono : ∀ bs x r, read1 bs = .ok (x, r) → r.length ≤ bs.length) :
    ∀ (n : Nat) (bs : List Nat) (xs : List α) (rest : List Nat),
      readCount read1 n bs = .ok (xs, rest) → rest.length ≤ bs.length := by
  intro n
  induction n with
  | zero =>
    intro bs xs rest h
    rw [readCount] at h
    simp only [Except.ok.injEq, Prod.mk.injEq] at h
    obtain ⟨-, rfl⟩ := h
    exact le_refl _
  | succ n ih =>
    intro bs xs rest h
    rw [readCount] at h
    split at h
    · exact absurd h (by simp)
    · next x bs' heq =>
      split at h
      · exact absurd h (by simp)
      · next xs' bs'' heq' =>
        simp only [Except.ok.injEq, Prod.mk.injEq] at h
        obtain ⟨-, rfl⟩ := h
        exact le_trans (ih _ _ _ heq') (hmono _ _ _ heq)

theorem readCount_forall {read1 : List Nat → Except ReadErr (α × List Nat)}
    {P : α → Prop} (hP : ∀ bs x r, read1 bs = .ok (x, r) → P x) :
    ∀ (n : Nat) (bs : List Nat) (xs : List α) (rest : List Nat),
      readCount read1 n bs = .ok (xs, rest) → ∀ x ∈ xs, P x := by
  intro n
  induction n with
  | zero =>
    intro bs xs rest h
    rw [readCount] at h
    simp only [Except.ok.injEq, Prod.mk.injEq] at h
    obtain ⟨rfl, -⟩ := h
    simp
  | succ n ih =>
    intro bs xs rest h
    rw [readCount] at h
    split at h
    · exact absurd h (by simp)
    · next x bs' heq =>
      split at h
      · exact absurd h (by simp)
      · next xs' bs'' heq' =>
        simp only [Except.ok.injEq, Prod.mk.injEq] at h
        obtain ⟨rfl, -⟩ := h
        intro y hy
        rcases List.mem_cons.mp hy with rfl | hy
        · exact hP _ _ _ heq
        · exact ih _ _ _ heq' y hy

/-! ## The instruction codec -/

/-- An instruction immediate.  The source stores `Writable[]`, a
heterogeneous array over the immediate classes used by
`Instruction.readOrThrow`: `LEB128.U32`, `LEB128.I32`, `LEB128.I33`,
`LEB128.I64`, `U8`, `F32`, `F64`. -/
inductive Writable
  | u8 (value : Nat)
  | u32 (value : Nat)
  | i32 (value : Int)
  | i33 (value : Int)
  | i64 (value : Int)
  | f32 (bits : Nat)
  | f64 (bits : Nat)
deriving DecidableEq

/-- Dispatch of `param.sizeOrThrow()` over the immediate classes. -/
def Writable.sizeOrThrow : Writable → Nat
  | .u8 _ => 1
  | .u32 v => LEB128.U32.sizeOrThrow v
  | .i32 v => LEB128.I32.sizeOrThrow v
  | .i33 v => LEB128.I33.sizeOrThrow v
  | .i64 v => LEB128.I64.sizeOrThrow v
  | .f32 _ => 4
  | .f64 _ => 8

/-- Dispatch of `param.writeOrThrow(cursor)` over the immediate classes. -/
def Writable.writeOrThrow : Writable → List Nat
  | .u8 v => U8.writeOrThrow v
  | .u32 v => LEB128.U32.writeOrThrow v
  | .i32 v => LEB128.I32.writeOrThrow v
  | .i33 v => LEB128.I33.writeOrThrow v
  | .i64 v => LEB128.I64.writeOrThrow v
  | .f32 bits => F32.writeOrThrow bits
  | .f64 bits => F64.writeOrThrow bits

/-- `class Instruction { opcode: number, params: Writable[] }`. -/
structure Instruction where
  opcode : Nat
  params : List Writable
deriving DecidableEq

/-- `Instruction.sizeOrThrow`: `1 + Σ param.sizeOrThrow()`. -/
def Instruction.sizeOrThrow (i : Instruction) : Nat :=
  1 + sizeList Writable.sizeOrThrow i.params

/-- `Instruction.writeOrThrow`: opcode byte, then each param in order. -/
def Instruction.writeOrThrow (i : Instruction) : List Nat :=
  writeUint8 i.opcode ++ writeList Writable.writeOrThrow i.params

/-- The immediate layout of an opcode. -/
inductive Shape
  | noImm
  | blocktype
  | u32Imm
  | u32u32
  | brTable
  | selectT
  | tryTable
  | i32Const
  | i64Const
  | f32Const
  | f64Const
  | fcSub
  | unknownOp
deriving DecidableEq

/-- Transcription of the `switch (opcode)` of `Instruction.readOrThrow`: the
source's contiguous `case` groups, in source order.  Opcodes reaching the
final `throw` are `unknownOp`. -/
def shapeOf (opcode : Nat) : Shape :=
  if opcode = 0x00 ∨ opcode = 0x01 then .noImm
  else if opcode = 0x02 ∨ opcode = 0x03 ∨ opcode = 0x04 then .blocktype
  else if opcode = 0x05 then .noImm
  else if opcode = 0x08 then .u32Imm
  else if opcode = 0x0a then .noImm
  else if opcode = 0x0b then .noImm
  else if opcode = 0x0c ∨ opcode = 0x0d then .u32Imm
  else if opcode = 0x0e then .brTable
  else if opcode = 0x0f then .noImm
  else if opcode = 0x10 then .u32Imm
  else if opcode = 0x11 then .u32u32
  else if opcode = 0x12 then .u32Imm
  else if opcode = 0x13 then .u32u32
  else if opcode = 0x14 ∨ opcode = 0x15 then .u32Imm
  else if opcode = 0x1a ∨ opcode = 0x1b then .noImm
  else if opcode = 0x1c then .selectT
  else if opcode = 0x1f then .tryTable
  else if 0x20 ≤ opcode ∧ opcode ≤ 0x26 then .u32Imm
  else if 0x28 ≤ opcode ∧ opcode ≤ 0x3e then .u32u32
  else if opcode = 0x3f ∨ opcode = 0x40 then .u32Imm
  else if opcode = 0x41 then .i32Const
  else if opcode = 0x42 then .i64Const
  else if opcode = 0x43 then .f32Const
  else if opcode = 0x44 then .f64Const
  else if 0x45 ≤ opcode ∧ opcode ≤ 0xc4 then .noImm
  else if opcode = 0xd0 then .blocktype
  else if opcode = 0xd1 then .noImm
  else if opcode = 0xd2 then .u32Imm
  else if opcode = 0xd3 ∨ opcode = 0xd4 then .noImm
  else if opcode = 0xd5 ∨ opcode = 0xd6 then .u32Imm
  else if opcode = 0xfc then .fcSub
  else .unknownOp

/-- Transcription of the inner `switch (subopcode.value)` of the `0xFC`
prefix: how many `U32` immediates follow the subopcode (`none` reaches
`throw new Error(Unknown sub-opcode)`). -/
def fcArity (sub : Nat) : Option Nat :=
  if sub ≤ 0x07 then some 0
  else if sub = 0x08 then some 2
  else if sub = 0x09 then some 1
  else if sub = 0x0a then some 2
  else if sub = 0x0b then some 1
  else if sub = 0x0c then some 2
  else if sub = 0x0d then some 1
  else if sub = 0x0e then some 2
  else if sub = 0x0f then some 1
  else if sub = 0x10 then some 1
  else if sub = 0x11 then some 1
  else none

/-- One `U32` immediate read as a `Writable` (`LEB128.U32.readOrThrow`
pushed into `params`). -/
def readU32Param (bs : List Nat) : Except ReadErr (Writable × List Nat) :=
  match LEB128.U32.readOrThrow bs with
  | .error e => .error e
  | .ok (v, bs) => .ok (.u32 v, bs)

/-- The `0x1F` (`try_table`) catch-clause loop: for each of `n` clauses read
a `u8` kind, a `U32` tag index when `kind < 2`, and a `U32` label index;
all pushed flat into `params` in that order. -/
def readCatches : Nat → List Nat → Except ReadErr (List Writable × List Nat)
  | 0, bs => .ok ([], bs)
  | n + 1, bs =>
    match readUint8 bs with
    | .error e => .error e
    | .ok (kind, bs) =>
      if kind < 2 then
        match LEB128.U32.readOrThrow bs with
        | .error e => .error e
        | .ok (tag, bs) =>
          match LEB128.U32.readOrThrow bs with
          | .error e => .error e
          | .ok (lbl, bs) =>
            match readCatches n bs with
            | .error e => .error e
            | .ok (ws, bs) => .ok (.u8 kind :: .u32 tag :: .u32 lbl :: ws, bs)
      else
        match LEB128.U32.readOrThrow bs with
        | .error e => .error e
        | .ok (lbl, bs) =>
          match readCatches n bs with
          | .error e => .error e
          | .ok (ws, bs) => .ok (.u8 kind :: .u32 lbl :: ws, bs)

/-- `Instruction.readOrThrow`: read the opcode byte, dispatch on its
immediate layout (`shapeOf` transcribes the `switch`). -/
def Instruction.readOrThrow (bs : List Nat) :
    Except ReadErr (Instruction × List Nat) :=
  match readUint8 bs with
  | .error e => .error e
  | .ok (opcode, bs) =>
    match shapeOf opcode with
    | .noImm => .ok (⟨opcode, []⟩, bs)
    | .blocktype =>
      match LEB128.I33.readOrThrow bs with
      | .error e => .error e
      | .ok (v, bs) => .ok (⟨opcode, [.i33 v]⟩, bs)
    | .u32Imm =>
      match LEB128.U32.readOrThrow bs with
      | .error e => .error e
      | .ok (v, bs) => .ok (⟨opcode, [.u32 v]⟩, bs)
    | .u32u32 =>
      match LEB128.U32.readOrThrow bs with
      | .error e => .error e
      | .ok (a, bs) =>
        match LEB128.U32.readOrThrow bs with
        | .error e => .error e
        | .ok (b, bs) => .ok (⟨opcode, [.u32 a, .u32 b]⟩, bs)
    | .brTable =>
      match LEB128.U32.readOrThrow bs with
      | .error e => .error e
      | .ok (count, bs) =>
        match readCount readU32Param count bs with
        | .error e => .error e
        | .ok (labels, bs) =>
          match LEB128.U32.readOrThrow bs with
          | .error e => .error e
          | .ok (fallback, bs) =>
            .ok (⟨opcode, .u32 count :: labels ++ [.u32 fallback]⟩, bs)
    | .selectT =>
      match LEB128.U32.readOrThrow bs with
      | .error e => .error e
      | .ok (count, bs) =>
        match readCount readU32Param count bs with
        | .error e => .error e
        | .ok (types, bs) => .ok (⟨opcode, .u32 count :: types⟩, bs)
    | .tryTable =>
      match LEB128.I33.readOrThrow bs with
      | .error e => .error e
      | .ok (bt, bs) =>
        match LEB128.U32.readOrThrow bs with
        | .error e => .error e
        | .ok (count, bs) =>
          match readCatches count bs with
          | .error e => .error e
          | .ok (catches, bs) =>
            .ok (⟨opcode, .i33 bt :: .u32 count :: catches⟩, bs)
    | .i32Const =>
      match LEB128.I32.readOrThrow bs with
      | .error e => .error e
      | .ok (v, bs) => .ok (⟨opcode, [.i32 v]⟩, bs)
    | .i64Const =>
      match LEB128.I64.readOrThrow bs with
      | .error e => .error e
      | .ok (v, bs) => .ok (⟨opcode, [.i64 v]⟩, bs)
    | .f32Const =>
      match F32.readOrThrow bs with
      | .error e => .error e
      | .ok (v, bs) => .ok (⟨opcode, [.f32 v]⟩, bs)
    | .f64Const =>
      match F64.readOrThrow bs with
      | .error e => .error e
      | .ok (v, bs) => .ok (⟨opcode, [.f64 v]⟩, bs)
    | .fcSub =>
      match LEB128.U32.readOrThrow bs with
      | .error e => .error e
      | .ok (sub, bs) =>
        match fcArity sub with
        | none => .error .unknownSubOpcode
        | some k =>
          match readCount readU32Param k bs with
          | .error e => .error e
          | .ok (args, bs) => .ok (⟨opcode, .u32 sub :: args⟩, bs)
    | .unknownOp => .error .unknownOpcode

/-! ### Well-formed instructions

A constructed `Instruction` round-trips through the codec exactly when its
`params` match the immediate layout the reader produces for its opcode, with
every integer in the declared range of its immediate class. -/

/-- All elements are `u32` immediates with in-range values. -/
def u32ListOk : List Writable → Bool
  | [] => true
  | .u32 v :: rest => decide (v < 2 ^ 32) && u32ListOk rest
  | _ => false

/-- `n` well-formed catch clauses, flattened as the reader stores them. -/
def catchesOk : Nat → List Writable → Bool
  | 0, ws => decide (ws = [])
  | n + 1, .u8 k :: rest =>
    if k < 2 then
      match rest with
      | .u32 a :: .u32 b :: rest' =>
        decide (a < 2 ^ 32) && decide (b < 2 ^ 32) && catchesOk n rest'
      | _ => false
    else
      match rest with
      | .u32 a :: rest' =>
        decide (k < 256) && decide (a < 2 ^ 32) && catchesOk n rest'
      | _ => false
  | _ + 1, _ => false

/-- The params expected by `Instruction.readOrThrow` for this opcode. -/
def paramsOk (opcode : Nat) (params : List Writable) : Bool :=
  match shapeOf opcode with
  | .noImm => decide (params = [])
  | .blocktype =>
    match params with
    | [.i33 v] => decide (-(2 ^ 32 : Int) ≤ v) && decide (v ≤ 2 ^ 32 - 1)
    | _ => false
  | .u32Imm =>
    match params with
    | [.u32 v] => decide (v < 2 ^ 32)
    | _ => false
  | .u32u32 =>
    match params with
    | [.u32 a, .u32 b] => decide (a < 2 ^ 32) && decide (b < 2 ^ 32)
    | _ => false
  | .brTable =>
    match params with
    | .u32 n :: rest =>
      decide (n < 2 ^ 32) && decide (rest.length = n + 1) && u32ListOk rest
    | _ => false
  | .selectT =>
    match params with
    | .u32 n :: rest =>
      decide (n < 2 ^ 32) && decide (rest.length = n) && u32ListOk rest
    | _ => false
  | .tryTable =>
    match params with
    | .i33 bt :: .u32 n :: rest =>
      decide (-(2 ^ 32 : Int) ≤ bt) && decide (bt ≤ 2 ^ 32 - 1)
        && decide (n < 2 ^ 32) && catchesOk n rest
    | _ => false
  | .i32Const =>
    match params with
    | [.i32 v] => decide (-(2 ^ 31 : Int) ≤ v) && decide (v ≤ 2 ^ 31 - 1)
    | _ => false
  | .i64Const =>
    match params with
    | [.i64 v] => decide (-(2 ^ 63 : Int) ≤ v) && decide (v ≤ 2 ^ 63 - 1)
    | _ => false
  | .f32Const =>
    match params with
    | [.f32 bits] => decide (bits < 2 ^ 32)
    | _ => false
  | .f64Const =>
    match params with
    | [.f64 bits] => decide (bits < 2 ^ 64)
    | _ => false
  | .fcSub =>
    match params with
    | .u32 sub :: rest =>
      match fcArity sub with
      | some k => decide (rest.length = k) && u32ListOk rest
      | none => false
    | _ => false
  | .unknownOp => false

/-- Well-formed instruction: byte-sized opcode with matching immediates. -/
def instrOk (i : Instruction) : Bool :=
  decide (i.opcode < 256) && paramsOk i.opcode i.params

/-! ### Size agreement for instructions -/

/-! ### Consumption bounds for the imported cursor primitives -/

theorem readUint8_length {bs : List Nat} {b : Nat} {r : List Nat}
    (h : readUint8 bs = .ok (b, r)) : r.length < bs.length := by
  cases bs with
  | nil => exact absurd h (by simp [readUint8])
  | cons x xs =>
    rw [readUint8] at h
    simp only [Except.ok.injEq, Prod.mk.injEq] at h
    obtain ⟨rfl, rfl⟩ := h
    simp

theorem readBytes_length {n : Nat} {bs xs r : List Nat}
    (h : readBytes n bs = .ok (xs, r)) :
    r.length ≤ bs.length ∧ xs.length = n ∧ xs ++ r = bs := by
  rw [readBytes] at h
  split at h
  · next hle =>
    simp only [Except.ok.injEq, Prod.mk.injEq] at h
    obtain ⟨rfl, rfl⟩ := h
    refine ⟨by simp, by simp [hle], by simp⟩
  · exact absurd h (by simp)

theorem readBytes_append (xs rest : List Nat) :
    readBytes xs.length (xs ++ rest) = .ok (xs, rest) := by
  rw [readBytes, if_pos (by simp)]
  simp

theorem F32_read_length {bs : List Nat} {v : Nat} {r : List Nat}
    (h : F32.readOrThrow bs = .ok (v, r)) : r.length < bs.length := by
  rcases bs with _ | ⟨a0, _ | ⟨a1, _ | ⟨a2, _ | ⟨a3, rest⟩⟩⟩⟩ <;>
    simp [F32.readOrThrow, readUint32LE] at h
  obtain ⟨-, rfl⟩ := h
  simp only [List.length_cons]
  omega

theorem F64_read_length {bs : List Nat} {v : Nat} {r : List Nat}
    (h : F64.readOrThrow bs = .ok (v, r)) : r.length < bs.length := by
  rcases bs with _ | ⟨a0, _ | ⟨a1, _ | ⟨a2, _ | ⟨a3, _ | ⟨a4, _ | ⟨a5,
    _ | ⟨a6, _ | ⟨a7, rest⟩⟩⟩⟩⟩⟩⟩⟩ <;>
    simp [F64.readOrThrow] at h
  obtain ⟨-, rfl⟩ := h
  simp only [List.length_cons]
  omega

theorem readU32Param_length {bs : List Nat} {x : Writable} {r : List Nat}
    (h : readU32Param bs = .ok (x, r)) : r.length < bs.length := by
  rw [readU32Param] at h
  split at h
  · exact absurd h (by simp)
  · next v r' heq =>
    simp only [Except.ok.injEq, Prod.mk.injEq] at h
    obtain ⟨rfl, rfl⟩ := h
    exact LEB128.U32_read_length heq

theorem readCatches_length :
    ∀ (n : Nat) (bs : List Nat) (ws : List Writable) (r : List Nat),
      readCatches n bs = .ok (ws, r) → r.length ≤ bs.length := by
  intro n
  induction n with
  | zero =>
    intro bs ws r h
    rw [readCatches] at h
    simp only [Except.ok.injEq, Prod.mk.injEq] at h
    obtain ⟨-, rfl⟩ := h
    exact le_refl _
  | succ n ih =>
    intro bs ws r h
    rw [readCatches] at h
    split at h
    · exact absurd h (by simp)
    · next kind bs1 h1 =>
      split at h
      · split at h
        · exact absurd h (by simp)
        · next tag bs2 h2 =>
          split at h
          · exact absurd h (by simp)
          · next lbl bs3 h3 =>
            split at h
            · exact absurd h (by simp)
            · next ws' bs4 h4 =>
              simp only [Except.ok.injEq, Prod.mk.injEq] at h
              obtain ⟨-, rfl⟩ := h
              have := ih _ _ _ h4
              have := LEB128.U32_read_length h3
              have := LEB128.U32_read_length h2
              have := readUint8_length h1
              omega
      · split at h
        · exact absurd h (by simp)
        · next lbl bs2 h2 =>
          split at h
          · exact absurd h (by simp)
          · next ws' bs3 h3 =>
            simp only [Except.ok.injEq, Prod.mk.injEq] at h
            obtain ⟨-, rfl⟩ := h
            have := ih _ _ _ h3
            have := LEB128.U32_read_length h2
            have := readUint8_length h1
            omega

/-- Every successful instruction read consumes at least one byte. -/
theorem Instruction_read_length {bs : List Nat} {i : Instruction}
    {r : List Nat} (h : Instruction.readOrThrow bs = .ok (i, r)) :
    r.length < bs.length := by
  rw [Instruction.readOrThrow] at h
  split at h
  · exact absurd h (by simp)
  · next opcode bs1 h1 =>
    have hu8 := readUint8_length h1
    split at h
    · -- noImm
      simp only [Except.ok.injEq, Prod.mk.injEq] at h
      obtain ⟨-, rfl⟩ := h
      exact hu8
    · -- blocktype
      split at h
      · exact absurd h (by simp)
      · next v bs2 h2 =>
        simp only [Except.ok.injEq, Prod.mk.injEq] at h
        obtain ⟨-, rfl⟩ := h
        exact lt_trans (LEB128.I33_read_length h2) hu8
    · -- u32Imm
      split at h
      · exact absurd h (by simp)
      · next v bs2 h2 =>
        simp only [Except.ok.injEq, Prod.mk.injEq] at h
        obtain ⟨-, rfl⟩ := h
        exact lt_trans (LEB128.U32_read_length h2) hu8
    · -- u32u32
      split at h
      · exact absurd h (by simp)
      · next a bs2 h2 =>
        split at h
        · exact absurd h (by simp)
        · next b bs3 h3 =>
          simp only [Except.ok.injEq, Prod.mk.injEq] at h
          obtain ⟨-, rfl⟩ := h
          have := LEB128.U32_read_length h2
          have := LEB128.U32_read_length h3
          omega
    · -- brTable
      split at h
      · exact absurd h (by simp)
      · next count bs2 h2 =>
        split at h
        · exact absurd h (by simp)
        · next labels bs3 h3 =>
          split at h
          · exact absurd h (by simp)
          · next fb bs4 h4 =>
            simp only [Except.ok.injEq, Prod.mk.injEq] at h
            obtain ⟨-, rfl⟩ := h
            have := LEB128.U32_read_length h2
            have := readCount_length
              (fun _ _ _ hh => le_of_lt (readU32Param_length hh)) _ _ _ _ h3
            have := LEB128.U32_read_length h4
            omega
    · -- selectT
      split at h
      · exact absurd h (by simp)
      · next count bs2 h2 =>
        split at h
        · exact absurd h (by simp)
        · next types bs3 h3 =>
          simp only [Except.ok.injEq, Prod.mk.injEq] at h
          obtain ⟨-, rfl⟩ := h
          have := LEB128.U32_read_length h2
          have := readCount_length
            (fun _ _ _ hh => le_of_lt (readU32Param_length hh)) _ _ _ _ h3
          omega
    · -- tryTable
      split at h
      · exact absurd h (by simp)
      · next bt bs2 h2 =>
        split at h
        · exact absurd h (by simp)
        · next count bs3 h3 =>
          split at h
          · exact absurd h (by simp)
          · next catches bs4 h4 =>
            simp only [Except.ok.injEq, Prod.mk.injEq] at h
            obtain ⟨-, rfl⟩ := h
            have := LEB128.I33_read_length h2
            have := LEB128.U32_read_length h3
            have := readCatches_length _ _ _ _ h4
            omega
    · -- i32Const
      split at h
      · exact absurd h (by simp)
      · next v bs2 h2 =>
        simp only [Except.ok.injEq, Prod.mk.injEq] at h
        obtain ⟨-, rfl⟩ := h
        exact lt_trans (LEB128.I32_read_length h2) hu8
    · -- i64Const
      split at h
      · exact absurd h (by simp)
      · next v bs2 h2 =>
        simp only [Except.ok.injEq, Prod.mk.injEq] at h
        obtain ⟨-, rfl⟩ := h
        exact lt_trans (LEB128.I64_read_length h2) hu8
    · -- f32Const
      split at h
      · exact absurd h (by simp)
      · next v bs2 h2 =>
        simp only [Except.ok.injEq, Prod.mk.injEq] at h
        obtain ⟨-, rfl⟩ := h
        exact lt_trans (F32_read_length h2) hu8
    · -- f64Const
      split at h
      · exact absurd h (by simp)
      · next v bs2 h2 =>
        simp only [Except.ok.injEq, Prod.mk.injEq] at h
        obtain ⟨-, rfl⟩ := h
        exact lt_trans (F64_read_length h2) hu8
    · -- fcSub
      split at h
      · exact absurd h (by simp)
      · next sub bs2 h2 =>
        split at h
        · exact absurd h (by simp)
        · next k hk =>
          split at h
          · exact absurd h (by simp)
          · next args bs3 h3 =>
            simp only [Except.ok.injEq, Prod.mk.injEq] at h
            obtain ⟨-, rfl⟩ := h
            have := LEB128.U32_read_length h2
            have := readCount_length
              (fun _ _ _ hh => le_of_lt (readU32Param_length hh)) _ _ _ _ h3
            omega
    · -- unknownOp
      exact absurd h (by simp)

theorem Writable_size_eq_length (w : Writable) :
    w.sizeOrThrow = w.writeOrThrow.length := by
  cases w with
  | u8 v => rfl
  | u32 v => exact LEB128.unsignedSize_eq_length v
  | i32 v => exact LEB128.signedSize_eq_length v
  | i33 v => exact LEB128.signedSize_eq_length v
  | i64 v => exact LEB128.signedSize_eq_length v
  | f32 bits => rfl
  | f64 bits => rfl

/-- `Instruction.sizeOrThrow` equals the number of bytes
`Instruction.writeOrThrow` emits. -/
theorem Instruction_size_eq_length (i : Instruction) :
    i.sizeOrThrow = i.writeOrThrow.length := by
  rw [Instruction.sizeOrThrow, Instruction.writeOrThrow, List.length_append,
    sizeList_eq_length i.params fun w _ => Writable_size_eq_length w]
  rfl

/-! ### Round-trip of the instruction codec -/

theorem writeList_append (f : α → List Nat) (xs ys : List α) :
    writeList f (xs ++ ys) = writeList f xs ++ writeList f ys := by
  induction xs with
  | nil => rfl
  | cons x xs ih => simp [writeList, ih]

theorem readU32Param_write {v : Nat} (h : v < 2 ^ 32) (r : List Nat) :
    readU32Param (LEB128.U32.writeOrThrow v ++ r) = .ok (.u32 v, r) := by
  rw [readU32Param, LEB128.U32_read_write h r]

theorem u32ListOk_mem {ws : List Writable} (h : u32ListOk ws = true) :
    ∀ x ∈ ws, ∃ v, x = .u32 v ∧ v < 2 ^ 32 := by
  induction ws with
  | nil => simp
  | cons w ws ih =>
    rw [u32ListOk.eq_def] at h
    split at h
    · simp_all
    · next v rest heq =>
      simp only [List.cons.injEq] at heq
      obtain ⟨rfl, rfl⟩ := heq
      simp only [Bool.and_eq_true, decide_eq_true_eq] at h
      intro x hx
      rcases List.mem_cons.mp hx with rfl | hx
      · exact ⟨v, rfl, h.1⟩
      · exact ih h.2 x hx
    · simp at h

theorem u32ListOk_append {xs ys : List Writable}
    (h : u32ListOk (xs ++ ys) = true) :
    u32ListOk xs = true ∧ u32ListOk ys = true := by
  induction xs with
  | nil => exact ⟨rfl, h⟩
  | cons x xs ih =>
    rw [List.cons_append, u32ListOk.eq_def] at h
    split at h
    · simp_all
    · next v rest heq =>
      simp only [List.cons.injEq] at heq
      obtain ⟨rfl, hrest⟩ := heq
      simp only [Bool.and_eq_true, decide_eq_true_eq] at h
      rw [← hrest] at h
      obtain ⟨h1, h2⟩ := ih h.2
      refine ⟨?_, h2⟩
      rw [u32ListOk.eq_def]
      simp only [Bool.and_eq_true, decide_eq_true_eq]
      exact ⟨h.1, h1⟩
    · simp at h

theorem u32ListOk_read {ws : List Writable} (h : u32ListOk ws = true) :
    ∀ x ∈ ws, ∀ r,
      readU32Param (Writable.writeOrThrow x ++ r) = .ok (x, r) := by
  intro x hx r
  obtain ⟨v, rfl, hv⟩ := u32ListOk_mem h x hx
  exact readU32Param_write hv r

theorem fcArity_bound {sub k : Nat} (h : fcArity sub = some k) :
    sub < 2 ^ 32 := by
  by_contra hge
  push_neg at hge
  have c0 : ¬sub ≤ 0x07 := by omega
  have c1 : sub ≠ 0x08 := by omega
  have c2 : sub ≠ 0x09 := by omega
  have c3 : sub ≠ 0x0a := by omega
  have c4 : sub ≠ 0x0b := by omega
  have c5 : sub ≠ 0x0c := by omega
  have c6 : sub ≠ 0x0d := by omega
  have c7 : sub ≠ 0x0e := by omega
  have c8 : sub ≠ 0x0f := by omega
  have c9 : sub ≠ 0x10 := by omega
  have c10 : sub ≠ 0x11 := by omega
  rw [fcArity, if_neg c0, if_neg c1, if_neg c2, if_neg c3, if_neg c4,
    if_neg c5, if_neg c6, if_neg c7, if_neg c8, if_neg c9, if_neg c10] at h
  exact absurd h (by simp)

theorem readCatches_write :
    ∀ (n : Nat) (ws : List Writable), catchesOk n ws = true →
      ∀ r, readCatches n (writeList Writable.writeOrThrow ws ++ r)
        = .ok (ws, r) := by
  intro n
  induction n with
  | zero =>
    intro ws hok r
    rw [catchesOk.eq_def] at hok
    simp only [decide_eq_true_eq] at hok
    subst hok
    rw [writeList, List.nil_append, readCatches]
  | succ n ih =>
    intro ws hok r
    rw [catchesOk.eq_def] at hok
    split at hok
    · simp_all
    · next n' k wrest heq =>
      obtain rfl : n' = n := by omega
      split at hok
      · next hk2 =>
        split at hok
        · next a b rest' =>
          simp only [Bool.and_eq_true, decide_eq_true_eq] at hok
          obtain ⟨⟨ha, hb⟩, hrest⟩ := hok
          simp only [writeList, Writable.writeOrThrow, U8.writeOrThrow,
            writeUint8, List.cons_append, List.nil_append, List.append_assoc]
          rw [readCatches, readUint8, Nat.mod_eq_of_lt (by omega)]
          simp only [if_pos hk2, LEB128.U32_read_write ha,
            LEB128.U32_read_write hb, ih rest' hrest r]
        · simp at hok
      · next hk2 =>
        split at hok
        · next a rest' =>
          simp only [Bool.and_eq_true, decide_eq_true_eq] at hok
          obtain ⟨⟨hk256, ha⟩, hrest⟩ := hok
          simp only [writeList, Writable.writeOrThrow, U8.writeOrThrow,
            writeUint8, List.cons_append, List.nil_append, List.append_assoc]
          rw [readCatches, readUint8, Nat.mod_eq_of_lt hk256]
          simp only [if_neg hk2, LEB128.U32_read_write ha, ih rest' hrest r]
        · simp at hok
    · simp at hok

/-- Round-trip of the instruction codec: a well-formed instruction written
with `Instruction.writeOrThrow` is read back unchanged by
`Instruction.readOrThrow`, leaving exactly the continuation. -/
theorem Instruction_read_write (i : Instruction) (h : instrOk i = true)
    (rest : List Nat) :
    Instruction.readOrThrow (i.writeOrThrow ++ rest) = .ok (i, rest) := by
  obtain ⟨opcode, params⟩ := i
  rw [instrOk] at h
  simp only [Bool.and_eq_true, decide_eq_true_eq] at h
  obtain ⟨hop, hp⟩ := h
  rw [paramsOk.eq_def] at hp
  rw [Instruction.writeOrThrow, writeUint8, Nat.mod_eq_of_lt hop]
  simp only [List.cons_append, List.nil_append, List.append_assoc]
  cases hs : shapeOf opcode with
  | noImm =>
    rw [hs] at hp
    simp only [decide_eq_true_eq] at hp
    subst hp
    simp [Instruction.readOrThrow, readUint8, hs, writeList]
  | blocktype =>
    rw [hs] at hp
    simp only [] at hp
    split at hp
    · next v =>
      simp only [Bool.and_eq_true, decide_eq_true_eq] at hp
      simp [Instruction.readOrThrow, readUint8, hs, writeList,
        Writable.writeOrThrow, LEB128.I33_read_write hp.1 hp.2]
    · simp at hp
  | u32Imm =>
    rw [hs] at hp
    simp only [] at hp
    split at hp
    · next v =>
      simp only [decide_eq_true_eq] at hp
      simp [Instruction.readOrThrow, readUint8, hs, writeList,
        Writable.writeOrThrow, LEB128.U32_read_write hp]
    · simp at hp
  | u32u32 =>
    rw [hs] at hp
    simp only [] at hp
    split at hp
    · next a b =>
      simp only [Bool.and_eq_true, decide_eq_true_eq] at hp
      simp [Instruction.readOrThrow, readUint8, hs, writeList,
        Writable.writeOrThrow, LEB128.U32_read_write hp.1,
        LEB128.U32_read_write hp.2]
    · simp at hp
  | brTable =>
    rw [hs] at hp
    simp only [] at hp
    split at hp
    · next n rest' =>
      simp only [Bool.and_eq_true, decide_eq_true_eq] at hp
      obtain ⟨⟨hn, hlen⟩, hok⟩ := hp
      rcases List.eq_nil_or_concat rest' with rfl | ⟨labels, fb, rfl⟩
      · exact absurd hlen (by simp)
      · simp only [List.concat_eq_append] at hlen hok ⊢
        have hlab : labels.length = n := by
          simp only [List.length_append, List.length_cons, List.length_nil] at hlen
          omega
        obtain ⟨hoklab, hokfb⟩ := u32ListOk_append hok
        obtain ⟨fv, rfl, hfv⟩ := u32ListOk_mem hokfb fb (by simp)
        subst hlab
        simp only [writeList_append, writeList, Writable.writeOrThrow,
          List.append_nil, List.append_assoc]
        simp [Instruction.readOrThrow, readUint8, hs,
          LEB128.U32_read_write hn,
          readCount_writeList labels _ (u32ListOk_read hoklab),
          LEB128.U32_read_write hfv]
    · simp at hp
  | selectT =>
    rw [hs] at hp
    simp only [] at hp
    split at hp
    · next n rest' =>
      simp only [Bool.and_eq_true, decide_eq_true_eq] at hp
      obtain ⟨⟨hn, hlen⟩, hok⟩ := hp
      subst hlen
      simp [Instruction.readOrThrow, readUint8, hs, writeList,
        Writable.writeOrThrow, List.append_assoc,
        LEB128.U32_read_write hn,
        readCount_writeList rest' _ (u32ListOk_read hok)]
    · simp at hp
  | tryTable =>
    rw [hs] at hp
    simp only [] at hp
    split at hp
    · next bt n ws =>
      simp only [Bool.and_eq_true, decide_eq_true_eq] at hp
      obtain ⟨⟨⟨hbl, hbu⟩, hn⟩, hcat⟩ := hp
      simp [Instruction.readOrThrow, readUint8, hs, writeList,
        Writable.writeOrThrow, List.append_assoc,
        LEB128.I33_read_write hbl hbu, LEB128.U32_read_write hn,
        readCatches_write n ws hcat rest]
    · simp at hp
  | i32Const =>
    rw [hs] at hp
    simp only [] at hp
    split at hp
    · next v =>
      simp only [Bool.and_eq_true, decide_eq_true_eq] at hp
      simp [Instruction.readOrThrow, readUint8, hs, writeList,
        Writable.writeOrThrow, LEB128.I32_read_write hp.1 hp.2]
    · simp at hp
  | i64Const =>
    rw [hs] at hp
    simp only [] at hp
    split at hp
    · next v =>
      simp only [Bool.and_eq_true, decide_eq_true_eq] at hp
      simp [Instruction.readOrThrow, readUint8, hs, writeList,
        Writable.writeOrThrow, LEB128.I64_read_write hp.1 hp.2]
    · simp at hp
  | f32Const =>
    rw [hs] at hp
    simp only [] at hp
    split at hp
    · next bits =>
      simp only [decide_eq_true_eq] at hp
      simp [Instruction.readOrThrow, readUint8, hs, writeList,
        Writable.writeOrThrow, F32_read_write hp]
    · simp at hp
  | f64Const =>
    rw [hs] at hp
    simp only [] at hp
    split at hp
    · next bits =>
      simp only [decide_eq_true_eq] at hp
      simp [Instruction.readOrThrow, readUint8, hs, writeList,
        Writable.writeOrThrow, F64_read_write hp]
    · simp at hp
  | fcSub =>
    rw [hs] at hp
    simp only [] at hp
    split at hp
    · next sub ws =>
      split at hp
      · next k hk =>
        simp only [Bool.and_eq_true, decide_eq_true_eq] at hp
        obtain ⟨hlen, hok⟩ := hp
        subst hlen
        simp [Instruction.readOrThrow, readUint8, hs, writeList,
          Writable.writeOrThrow, List.append_assoc,
          LEB128.U32_read_write (fcArity_bound hk), hk,
          readCount_writeList ws _ (u32ListOk_read hok)]
      · simp at hp
    · simp at hp
  | unknownOp =>
    rw [hs] at hp
    simp at hp

/-! ## Sections: data model

One structure per section class of the source; `Section` is the union type.
Byte arrays (`Uint8Array`) are `List Nat`. -/

/-- `class UnknownSection { kind: number, data: Uint8Array }`. -/
structure UnknownSection where
  kind : Nat
  data : List Nat
deriving DecidableEq

/-- `class CustomSection { name: Uint8Array, data: Uint8Array }` (kind 0). -/
structure CustomSection where
  name : List Nat
  data : List Nat
deriving DecidableEq

namespace TypeSection

/-- `class FuncType { params: number[], results: number[] }` (kind 0x60). -/
structure FuncType where
  params : List Nat
  results : List Nat
deriving DecidableEq

/-- `class StructType { fields: [number, boolean][] }` (kind 0x5E). -/
structure StructType where
  fields : List (Nat × Bool)
deriving DecidableEq

/-- `class ArrayType { valtype: number, mutable: boolean }` (kind 0x5F). -/
structure ArrayType where
  valtype : Nat
  mutable : Bool
deriving DecidableEq

/-- `type TypeBody = FuncType | StructType | ArrayType`. -/
inductive TypeBody
  | funcType (b : FuncType)
  | structType (b : StructType)
  | arrayType (b : ArrayType)
deriving DecidableEq

/-- `interface TypeDescriptor { prefix: number, subtypes: number[], body: TypeBody }`
(the source's field `prefix` is `pfx` here — `prefix` is reserved in Lean). -/
structure TypeDescriptor where
  pfx : Nat
  subtypes : List Nat
  body : TypeBody
deriving DecidableEq

end TypeSection

/-- `class TypeSection { descriptors: TypeDescriptor[] }` (kind 0x01). -/
structure TypeSection where
  descriptors : List TypeSection.TypeDescriptor
deriving DecidableEq

namespace ImportSection

/-- `class FunctionImport { typeidx: number }` (body kind 0x00). -/
structure FunctionImport where
  typeidx : Nat
deriving DecidableEq

/-- `class TableImport { reftype, flag, min: number, max: Nullable<number> }`
(body kind 0x01). -/
structure TableImport where
  reftype : Nat
  flag : Nat
  min : Nat
  max : Option Nat
deriving DecidableEq

/-- `class MemoryImport { flag, min: number, max: Nullable<number> }`
(body kind 0x02). -/
structure MemoryImport where
  flag : Nat
  min : Nat
  max : Option Nat
deriving DecidableEq

/-- `class GlobalImport { valtype, mutable: number }` (body kind 0x03). -/
structure GlobalImport where
  valtype : Nat
  mutable : Nat
deriving DecidableEq

/-- `type ImportBody = FunctionImport | TableImport | MemoryImport | GlobalImport`. -/
inductive ImportBody
  | functionImport (b : FunctionImport)
  | tableImport (b : TableImport)
  | memoryImport (b : MemoryImport)
  | globalImport (b : GlobalImport)
deriving DecidableEq

/-- `interface ImportDescriptor { from, name: Uint8Array, body: ImportBody }`
(the source's field `from` is `from_` here — `from` is reserved in Lean). -/
structure ImportDescriptor where
  from_ : List Nat
  name : List Nat
  body : ImportBody
deriving DecidableEq

end ImportSection

/-- `class ImportSection { descriptors: ImportDescriptor[] }` (kind 0x02). -/
structure ImportSection where
  descriptors : List ImportSection.ImportDescriptor
deriving DecidableEq

/-- `class FunctionSection { typeidxs: number[] }` (kind 0x03). -/
structure FunctionSection where
  typeidxs : List Nat
deriving DecidableEq

namespace TableSection

/-- `interface TableDescriptor { reftype, flag, min: number, max: Nullable<number> }`. -/
structure TableDescriptor where
  reftype : Nat
  flag : Nat
  min : Nat
  max : Option Nat
deriving DecidableEq

end TableSection

/-- `class TableSection { descriptors: TableDescriptor[] }` (kind 0x04). -/
structure TableSection where
  descriptors : List TableSection.TableDescriptor
deriving DecidableEq

namespace MemorySection

/-- `interface MemoryDescriptor { flag, min: number, max: Nullable<number> }`. -/
structure MemoryDescriptor where
  flag : Nat
  min : Nat
  max : Option Nat
deriving DecidableEq

end MemorySection

/-- `class MemorySection { descriptors: MemoryDescriptor[] }` (kind 0x05). -/
structure MemorySection where
  descriptors : List MemorySection.MemoryDescriptor
deriving DecidableEq

namespace GlobalSection

/-- `interface GlobalDescriptor { valtype, mutable: number, instructions: Instruction[] }`. -/
structure GlobalDescriptor where
  valtype : Nat
  mutable : Nat
  instructions : List Instruction
deriving DecidableEq

end GlobalSection

/-- `class GlobalSection { descriptors: GlobalDescriptor[] }` (kind 0x06). -/
structure GlobalSection where
  descriptors : List GlobalSection.GlobalDescriptor
deriving DecidableEq

namespace ExportSection

/-- `interface ExportDescriptor { name: Uint8Array, kind: number, xidx: number }`. -/
structure ExportDescriptor where
  name : List Nat
  kind : Nat
  xidx : Nat
deriving DecidableEq

end ExportSection

/-- `class ExportSection { descriptors: ExportDescriptor[] }` (kind 0x07). -/
structure ExportSection where
  descriptors : List ExportSection.ExportDescriptor
deriving DecidableEq

/-- `class StartSection { funcidx: number }` (kind 0x08). -/
structure StartSection where
  funcidx : Nat
deriving DecidableEq

namespace ElementSection

/-- `type ElementSegment`: the flag-discriminated sum of the eight segment
layouts (flags 0–7). -/
inductive ElementSegment
  | flag0 (instructions : List Instruction) (funcidxs : List Nat)
  | flag1 (reftype : Nat) (elements : List (List Instruction))
  | flag2 (tableidx : Nat) (instructions : List Instruction) (reftype : Nat)
      (elements : List (List Instruction))
  | flag3 (reftype : Nat) (elements : List (List Instruction))
  | flag4 (instructions : List Instruction) (funcidxs : List Nat)
  | flag5 (reftype : Nat) (funcidxs : List Nat)
  | flag6 (tableidx : Nat) (instructions : List Instruction) (reftype : Nat)
      (funcidxs : List Nat)
  | flag7 (reftype : Nat) (funcidxs : List Nat)
deriving DecidableEq

end ElementSection

/-- `class ElementSection { segments: ElementSegment[] }` (kind 0x09). -/
structure ElementSection where
  segments : List ElementSection.ElementSegment
deriving DecidableEq

namespace CodeSection

/-- `class Local { count: number, valtype: number }`. -/
structure Local where
  count : Nat
  valtype : Nat
deriving DecidableEq

/-- `class FunctionBody { locals: Local[], instructions: Instruction[] }`. -/
structure FunctionBody where
  locals : List Local
  instructions : List Instruction
deriving DecidableEq

end CodeSection

/-- `class CodeSection { bodies: FunctionBody[] }` (kind 0x0A). -/
structure CodeSection where
  bodies : List CodeSection.FunctionBody
deriving DecidableEq

namespace DataSection

/-- `type DataSegment`: the flag-discriminated sum of the three segment
layouts (flags 0–2). -/
inductive DataSegment
  | flag0 (instructions : List Instruction) (data : List Nat)
  | flag1 (data : List Nat)
  | flag2 (memidx : Nat) (instructions : List Instruction) (data : List Nat)
deriving DecidableEq

end DataSection

/-- `class DataSection { segments: DataSegment[] }` (kind 0x0B). -/
structure DataSection where
  segments : List DataSection.DataSegment
deriving DecidableEq

/-- `class DataCountSection { count: number }` (kind 0x0C). -/
structure DataCountSection where
  count : Nat
deriving DecidableEq

/-- `class TagSection { tags: [number, number][] }` (kind 0x0D);
each tag is `(attribute, typeidx)`. -/
structure TagSection where
  tags : List (Nat × Nat)
deriving DecidableEq

/-- `type Section`: the union of the section classes. -/
inductive Section
  | unknown (s : UnknownSection)
  | custom (s : CustomSection)
  | typeSec (s : TypeSection)
  | importSec (s : ImportSection)
  | functionSec (s : FunctionSection)
  | tableSec (s : TableSection)
  | memorySec (s : MemorySection)
  | globalSec (s : GlobalSection)
  | exportSec (s : ExportSection)
  | startSec (s : StartSection)
  | elementSec (s : ElementSection)
  | codeSec (s : CodeSection)
  | dataSec (s : DataSection)
  | dataCountSec (s : DataCountSection)
  | tagSec (s : TagSection)
deriving DecidableEq

/-- `class Head { version: number }`. -/
structure Head where
  version : Nat
deriving DecidableEq

/-- `class Body { sections: Section[] }`. -/
structure Body where
  sections : List Section
deriving DecidableEq

/-- `class Module { head: Head, body: Body }`. -/
structure Module where
  head : Head
  body : Body
deriving DecidableEq

/-! ## Sections: `sizeOrThrow` / `writeOrThrow` -/

/-- `UnknownSection.kind` is an instance field, not a constant. -/
def UnknownSection.sizeOrThrow (s : UnknownSection) : Nat := s.data.length

def UnknownSection.writeOrThrow (s : UnknownSection) : List Nat := s.data

def CustomSection.kindVal : Nat := 0

def CustomSection.sizeOrThrow (s : CustomSection) : Nat :=
  LEB128.U32.sizeOrThrow s.name.length + s.name.length + s.data.length

def CustomSection.writeOrThrow (s : CustomSection) : List Nat :=
  LEB128.U32.writeOrThrow s.name.length ++ s.name ++ s.data

def TypeSection.kindVal : Nat := 0x01

def TypeSection.FuncType.kindVal : Nat := 0x60

def TypeSection.StructType.kindVal : Nat := 0x5E

def TypeSection.ArrayType.kindVal : Nat := 0x5F

def TypeSection.FuncType.sizeOrThrow (b : TypeSection.FuncType) : Nat :=
  LEB128.U32.sizeOrThrow b.params.length + b.params.length
    + LEB128.U32.sizeOrThrow b.results.length + b.results.length

def TypeSection.FuncType.writeOrThrow (b : TypeSection.FuncType) : List Nat :=
  LEB128.U32.writeOrThrow b.params.length ++ writeList writeUint8 b.params
    ++ LEB128.U32.writeOrThrow b.results.length ++ writeList writeUint8 b.results

def TypeSection.StructType.sizeOrThrow (b : TypeSection.StructType) : Nat :=
  LEB128.U32.sizeOrThrow b.fields.length + sizeList (fun _ => 1 + 1) b.fields

def TypeSection.StructType.writeOrThrow (b : TypeSection.StructType) : List Nat :=
  LEB128.U32.writeOrThrow b.fields.length
    ++ writeList (fun f => writeUint8 f.1 ++ writeUint8 (if f.2 then 1 else 0))
      b.fields

def TypeSection.ArrayType.sizeOrThrow (_ : TypeSection.ArrayType) : Nat := 1 + 1

def TypeSection.ArrayType.writeOrThrow (b : TypeSection.ArrayType) : List Nat :=
  writeUint8 b.valtype ++ writeUint8 (if b.mutable then 1 else 0)

def TypeSection.TypeBody.kind : TypeSection.TypeBody → Nat
  | .funcType _ => TypeSection.FuncType.kindVal
  | .structType _ => TypeSection.StructType.kindVal
  | .arrayType _ => TypeSection.ArrayType.kindVal

def TypeSection.TypeBody.sizeOrThrow : TypeSection.TypeBody → Nat
  | .funcType b => b.sizeOrThrow
  | .structType b => b.sizeOrThrow
  | .arrayType b => b.sizeOrThrow

def TypeSection.TypeBody.writeOrThrow : TypeSection.TypeBody → List Nat
  | .funcType b => b.writeOrThrow
  | .structType b => b.writeOrThrow
  | .arrayType b => b.writeOrThrow

/-- `TypeSection.sizeOrThrow`: for prefix `0x60` only the body; otherwise the
optional `0x4E`/`0x4D` subtype block, a kind byte, then the body (the
`0x4E`/`0x4D` branch falls through in the source). -/
def TypeSection.sizeOrThrow (s : TypeSection) : Nat :=
  LEB128.U32.sizeOrThrow s.descriptors.length
    + sizeList (fun d =>
        1 + (if d.pfx = TypeSection.FuncType.kindVal then d.body.sizeOrThrow
          else
            (if d.pfx = 0x4E ∨ d.pfx = 0x4D then
              LEB128.U32.sizeOrThrow d.subtypes.length
                + sizeList LEB128.U32.sizeOrThrow d.subtypes
            else 0)
            + 1 + d.body.sizeOrThrow)) s.descriptors

def TypeSection.writeOrThrow (s : TypeSection) : List Nat :=
  LEB128.U32.writeOrThrow s.descriptors.length
    ++ writeList (fun d =>
        writeUint8 d.pfx
          ++ (if d.pfx = TypeSection.FuncType.kindVal then d.body.writeOrThrow
            else
              (if d.pfx = 0x4E ∨ d.pfx = 0x4D then
                LEB128.U32.writeOrThrow d.subtypes.length
                  ++ writeList LEB128.U32.writeOrThrow d.subtypes
              else [])
              ++ writeUint8 d.body.kind ++ d.body.writeOrThrow)) s.descriptors

def ImportSection.kindVal : Nat := 0x02

def ImportSection.FunctionImport.kindVal : Nat := 0x00

def ImportSection.TableImport.kindVal : Nat := 0x01

def ImportSection.MemoryImport.kindVal : Nat := 0x02

def ImportSection.GlobalImport.kindVal : Nat := 0x03

def ImportSection.FunctionImport.sizeOrThrow
    (b : ImportSection.FunctionImport) : Nat :=
  LEB128.U32.sizeOrThrow b.typeidx

def ImportSection.FunctionImport.writeOrThrow
    (b : ImportSection.FunctionImport) : List Nat :=
  LEB128.U32.writeOrThrow b.typeidx

def ImportSection.TableImport.sizeOrThrow
    (b : ImportSection.TableImport) : Nat :=
  1 + 1 + LEB128.U32.sizeOrThrow b.min
    + (match b.max with
      | some m => LEB128.U32.sizeOrThrow m
      | none => 0)

def ImportSection.TableImport.writeOrThrow
    (b : ImportSection.TableImport) : List Nat :=
  writeUint8 b.reftype ++ writeUint8 b.flag ++ LEB128.U32.writeOrThrow b.min
    ++ (match b.max with
      | some m => LEB128.U32.writeOrThrow m
      | none => [])

def ImportSection.MemoryImport.sizeOrThrow
    (b : ImportSection.MemoryImport) : Nat :=
  1 + LEB128.U32.sizeOrThrow b.min
    + (match b.max with
      | some m => LEB128.U32.sizeOrThrow m
      | none => 0)

def ImportSection.MemoryImport.writeOrThrow
    (b : ImportSection.MemoryImport) : List Nat :=
  writeUint8 b.flag ++ LEB128.U32.writeOrThrow b.min
    ++ (match b.max with
      | some m => LEB128.U32.writeOrThrow m
      | none => [])

def ImportSection.GlobalImport.sizeOrThrow
    (_ : ImportSection.GlobalImport) : Nat := 1 + 1

def ImportSection.GlobalImport.writeOrThrow
    (b : ImportSection.GlobalImport) : List Nat :=
  writeUint8 b.valtype ++ writeUint8 b.mutable

def ImportSection.ImportBody.kind : ImportSection.ImportBody → Nat
  | .functionImport _ => ImportSection.FunctionImport.kindVal
  | .tableImport _ => ImportSection.TableImport.kindVal
  | .memoryImport _ => ImportSection.MemoryImport.kindVal
  | .globalImport _ => ImportSection.GlobalImport.kindVal

def ImportSection.ImportBody.sizeOrThrow : ImportSection.ImportBody → Nat
  | .functionImport b => b.sizeOrThrow
  | .tableImport b => b.sizeOrThrow
  | .memoryImport b => b.sizeOrThrow
  | .globalImport b => b.sizeOrThrow

def ImportSection.ImportBody.writeOrThrow : ImportSection.ImportBody → List Nat
  | .functionImport b => b.writeOrThrow
  | .tableImport b => b.writeOrThrow
  | .memoryImport b => b.writeOrThrow
  | .globalImport b => b.writeOrThrow

def ImportSection.sizeOrThrow (s : ImportSection) : Nat :=
  LEB128.U32.sizeOrThrow s.descriptors.length
    + sizeList (fun d =>
        LEB128.U32.sizeOrThrow d.from_.length + d.from_.length
          + (LEB128.U32.sizeOrThrow d.name.length + d.name.length)
          + 1 + d.body.sizeOrThrow) s.descriptors

def ImportSection.writeOrThrow (s : ImportSection) : List Nat :=
  LEB128.U32.writeOrThrow s.descriptors.length
    ++ writeList (fun d =>
        LEB128.U32.writeOrThrow d.from_.length ++ d.from_
          ++ LEB128.U32.writeOrThrow d.name.length ++ d.name
          ++ writeUint8 d.body.kind ++ d.body.writeOrThrow) s.descriptors

def FunctionSection.kindVal : Nat := 0x03

def FunctionSection.sizeOrThrow (s : FunctionSection) : Nat :=
  LEB128.U32.sizeOrThrow s.typeidxs.length
    + sizeList LEB128.U32.sizeOrThrow s.typeidxs

def FunctionSection.writeOrThrow (s : FunctionSection) : List Nat :=
  LEB128.U32.writeOrThrow s.typeidxs.length
    ++ writeList LEB128.U32.writeOrThrow s.typeidxs

def TableSection.kindVal : Nat := 0x04

def TableSection.sizeOrThrow (s : TableSection) : Nat :=
  LEB128.U32.sizeOrThrow s.descriptors.length
    + sizeList (fun d =>
        1 + 1 + LEB128.U32.sizeOrThrow d.min
          + (match d.max with
            | some m => LEB128.U32.sizeOrThrow m
            | none => 0)) s.descriptors

def TableSection.writeOrThrow (s : TableSection) : List Nat :=
  LEB128.U32.writeOrThrow s.descriptors.length
    ++ writeList (fun d =>
        writeUint8 d.reftype ++ writeUint8 d.flag
          ++ LEB128.U32.writeOrThrow d.min
          ++ (match d.max with
            | some m => LEB128.U32.writeOrThrow m
            | none => [])) s.descriptors

def MemorySection.kindVal : Nat := 0x05

def MemorySection.sizeOrThrow (s : MemorySection) : Nat :=
  LEB128.U32.sizeOrThrow s.descriptors.length
    + sizeList (fun d =>
        1 + LEB128.U32.sizeOrThrow d.min
          + (match d.max with
            | some m => LEB128.U32.sizeOrThrow m
            | none => 0)) s.descriptors

def MemorySection.writeOrThrow (s : MemorySection) : List Nat :=
  LEB128.U32.writeOrThrow s.descriptors.length
    ++ writeList (fun d =>
        writeUint8 d.flag ++ LEB128.U32.writeOrThrow d.min
          ++ (match d.max with
            | some m => LEB128.U32.writeOrThrow m
            | none => [])) s.descriptors

def GlobalSection.kindVal : Nat := 0x06

def GlobalSection.sizeOrThrow (s : GlobalSection) : Nat :=
  LEB128.U32.sizeOrThrow s.descriptors.length
    + sizeList (fun d =>
        1 + 1 + sizeList Instruction.sizeOrThrow d.instructions) s.descriptors

def GlobalSection.writeOrThrow (s : GlobalSection) : List Nat :=
  LEB128.U32.writeOrThrow s.descriptors.length
    ++ writeList (fun d =>
        writeUint8 d.valtype ++ writeUint8 d.mutable
          ++ writeList Instruction.writeOrThrow d.instructions) s.descriptors

def ExportSection.kindVal : Nat := 0x07

def ExportSection.sizeOrThrow (s : ExportSection) : Nat :=
  LEB128.U32.sizeOrThrow s.descriptors.length
    + sizeList (fun d =>
        LEB128.U32.sizeOrThrow d.name.length + d.name.length + 1
          + LEB128.U32.sizeOrThrow d.xidx) s.descriptors

def ExportSection.writeOrThrow (s : ExportSection) : List Nat :=
  LEB128.U32.writeOrThrow s.descriptors.length
    ++ writeList (fun d =>
        LEB128.U32.writeOrThrow d.name.length ++ d.name ++ writeUint8 d.kind
          ++ LEB128.U32.writeOrThrow d.xidx) s.descriptors

def StartSection.kindVal : Nat := 0x08

def StartSection.sizeOrThrow (s : StartSection) : Nat :=
  LEB128.U32.sizeOrThrow s.funcidx

def StartSection.writeOrThrow (s : StartSection) : List Nat :=
  LEB128.U32.writeOrThrow s.funcidx

def ElementSection.kindVal : Nat := 0x09

def ElementSection.ElementSegment.flag : ElementSection.ElementSegment → Nat
  | .flag0 _ _ => 0
  | .flag1 _ _ => 1
  | .flag2 _ _ _ _ => 2
  | .flag3 _ _ => 3
  | .flag4 _ _ => 4
  | .flag5 _ _ => 5
  | .flag6 _ _ _ _ => 6
  | .flag7 _ _ => 7

def ElementSection.ElementSegment.sizeOrThrow :
    ElementSection.ElementSegment → Nat
  | .flag0 instructions funcidxs =>
    sizeList Instruction.sizeOrThrow instructions
      + LEB128.U32.sizeOrThrow funcidxs.length
      + sizeList LEB128.U32.sizeOrThrow funcidxs
  | .flag1 _ elements =>
    1 + LEB128.U32.sizeOrThrow elements.length
      + sizeList (sizeList Instruction.sizeOrThrow) elements
  | .flag2 tableidx instructions _ elements =>
    LEB128.U32.sizeOrThrow tableidx
      + sizeList Instruction.sizeOrThrow instructions
      + 1 + LEB128.U32.sizeOrThrow elements.length
      + sizeList (sizeList Instruction.sizeOrThrow) elements
  | .flag3 _ elements =>
    1 + LEB128.U32.sizeOrThrow elements.length
      + sizeList (sizeList Instruction.sizeOrThrow) elements
  | .flag4 instructions funcidxs =>
    sizeList Instruction.sizeOrThrow instructions
      + LEB128.U32.sizeOrThrow funcidxs.length
      + sizeList LEB128.U32.sizeOrThrow funcidxs
  | .flag5 _ funcidxs =>
    1 + LEB128.U32.sizeOrThrow funcidxs.length
      + sizeList LEB128.U32.sizeOrThrow funcidxs
  | .flag6 tableidx instructions _ funcidxs =>
    LEB128.U32.sizeOrThrow tableidx
      + sizeList Instruction.sizeOrThrow instructions
      + 1 + LEB128.U32.sizeOrThrow funcidxs.length
      + sizeList LEB128.U32.sizeOrThrow funcidxs
  | .flag7 _ funcidxs =>
    1 + LEB128.U32.sizeOrThrow funcidxs.length
      + sizeList LEB128.U32.sizeOrThrow funcidxs

def ElementSection.ElementSegment.writeOrThrow :
    ElementSection.ElementSegment → List Nat
  | .flag0 instructions funcidxs =>
    writeList Instruction.writeOrThrow instructions
      ++ LEB128.U32.writeOrThrow funcidxs.length
      ++ writeList LEB128.U32.writeOrThrow funcidxs
  | .flag1 reftype elements =>
    writeUint8 reftype ++ LEB128.U32.writeOrThrow elements.length
      ++ writeList (writeList Instruction.writeOrThrow) elements
  | .flag2 tableidx instructions reftype elements =>
    LEB128.U32.writeOrThrow tableidx
      ++ writeList Instruction.writeOrThrow instructions
      ++ writeUint8 reftype ++ LEB128.U32.writeOrThrow elements.length
      ++ writeList (writeList Instruction.writeOrThrow) elements
  | .flag3 reftype elements =>
    writeUint8 reftype ++ LEB128.U32.writeOrThrow elements.length
      ++ writeList (writeList Instruction.writeOrThrow) elements
  | .flag4 instructions funcidxs =>
    writeList Instruction.writeOrThrow instructions
      ++ LEB128.U32.writeOrThrow funcidxs.length
      ++ writeList LEB128.U32.writeOrThrow funcidxs
  | .flag5 reftype funcidxs =>
    writeUint8 reftype ++ LEB128.U32.writeOrThrow funcidxs.length
      ++ writeList LEB128.U32.writeOrThrow funcidxs
  | .flag6 tableidx instructions reftype funcidxs =>
    LEB128.U32.writeOrThrow tableidx
      ++ writeList Instruction.writeOrThrow instructions
      ++ writeUint8 reftype ++ LEB128.U32.writeOrThrow funcidxs.length
      ++ writeList LEB128.U32.writeOrThrow funcidxs
  | .flag7 reftype funcidxs =>
    writeUint8 reftype ++ LEB128.U32.writeOrThrow funcidxs.length
      ++ writeList LEB128.U32.writeOrThrow funcidxs

/-- `ElementSection.sizeOrThrow`: `1` per segment is the flag byte. -/
def ElementSection.sizeOrThrow (s : ElementSection) : Nat :=
  LEB128.U32.sizeOrThrow s.segments.length
    + sizeList (fun seg => 1 + seg.sizeOrThrow) s.segments

def ElementSection.writeOrThrow (s : ElementSection) : List Nat :=
  LEB128.U32.writeOrThrow s.segments.length
    ++ writeList (fun seg => writeUint8 seg.flag ++ seg.writeOrThrow) s.segments

def CodeSection.kindVal : Nat := 0x0A

def CodeSection.Local.sizeOrThrow (l : CodeSection.Local) : Nat :=
  LEB128.U32.sizeOrThrow l.count + 1

def CodeSection.Local.writeOrThrow (l : CodeSection.Local) : List Nat :=
  LEB128.U32.writeOrThrow l.count ++ writeUint8 l.valtype

/-- The function body's inner payload size (`subsize` in the source),
computed identically by `sizeOrThrow` and `writeOrThrow`. -/
def CodeSection.FunctionBody.subsize (b : CodeSection.FunctionBody) : Nat :=
  LEB128.U32.sizeOrThrow b.locals.length
    + sizeList CodeSection.Local.sizeOrThrow b.locals
    + sizeList Instruction.sizeOrThrow b.instructions

def CodeSection.FunctionBody.sizeOrThrow (b : CodeSection.FunctionBody) : Nat :=
  LEB128.U32.sizeOrThrow b.subsize + b.subsize

def CodeSection.FunctionBody.writeOrThrow
    (b : CodeSection.FunctionBody) : List Nat :=
  LEB128.U32.writeOrThrow b.subsize
    ++ LEB128.U32.writeOrThrow b.locals.length
    ++ writeList CodeSection.Local.writeOrThrow b.locals
    ++ writeList Instruction.writeOrThrow b.instructions

def CodeSection.sizeOrThrow (s : CodeSection) : Nat :=
  LEB128.U32.sizeOrThrow s.bodies.length
    + sizeList CodeSection.FunctionBody.sizeOrThrow s.bodies

def CodeSection.writeOrThrow (s : CodeSection) : List Nat :=
  LEB128.U32.writeOrThrow s.bodies.length
    ++ writeList CodeSection.FunctionBody.writeOrThrow s.bodies

def DataSection.kindVal : Nat := 0x0B

def DataSection.DataSegment.flag : DataSection.DataSegment → Nat
  | .flag0 _ _ => 0
  | .flag1 _ => 1
  | .flag2 _ _ _ => 2

def DataSection.DataSegment.sizeOrThrow : DataSection.DataSegment → Nat
  | .flag0 instructions data =>
    sizeList Instruction.sizeOrThrow instructions
      + LEB128.U32.sizeOrThrow data.length + data.length
  | .flag1 data => LEB128.U32.sizeOrThrow data.length + data.length
  | .flag2 memidx instructions data =>
    LEB128.U32.sizeOrThrow memidx
      + sizeList Instruction.sizeOrThrow instructions
      + LEB128.U32.sizeOrThrow data.length + data.length

def DataSection.DataSegment.writeOrThrow : DataSection.DataSegment → List Nat
  | .flag0 instructions data =>
    writeList Instruction.writeOrThrow instructions
      ++ LEB128.U32.writeOrThrow data.length ++ data
  | .flag1 data => LEB128.U32.writeOrThrow data.length ++ data
  | .flag2 memidx instructions data =>
    LEB128.U32.writeOrThrow memidx
      ++ writeList Instruction.writeOrThrow instructions
      ++ LEB128.U32.writeOrThrow data.length ++ data

def DataSection.sizeOrThrow (s : DataSection) : Nat :=
  LEB128.U32.sizeOrThrow s.segments.length
    + sizeList (fun seg => 1 + seg.sizeOrThrow) s.segments

def DataSection.writeOrThrow (s : DataSection) : List Nat :=
  LEB128.U32.writeOrThrow s.segments.length
    ++ writeList (fun seg => writeUint8 seg.flag ++ seg.writeOrThrow) s.segments

def DataCountSection.kindVal : Nat := 0x0C

def DataCountSection.sizeOrThrow (s : DataCountSection) : Nat :=
  LEB128.U32.sizeOrThrow s.count

def DataCountSection.writeOrThrow (s : DataCountSection) : List Nat :=
  LEB128.U32.writeOrThrow s.count

def TagSection.kindVal : Nat := 0x0D

def TagSection.sizeOrThrow (s : TagSection) : Nat :=
  LEB128.U32.sizeOrThrow s.tags.length
    + sizeList (fun t => 1 + LEB128.U32.sizeOrThrow t.2) s.tags

def TagSection.writeOrThrow (s : TagSection) : List Nat :=
  LEB128.U32.writeOrThrow s.tags.length
    ++ writeList (fun t => writeUint8 t.1 ++ LEB128.U32.writeOrThrow t.2) s.tags

/-- `section.kind`: the per-class constant, or the retained byte for an
unknown section. -/
def Section.kind : Section → Nat
  | .unknown s => s.kind
  | .custom _ => CustomSection.kindVal
  | .typeSec _ => TypeSection.kindVal
  | .importSec _ => ImportSection.kindVal
  | .functionSec _ => FunctionSection.kindVal
  | .tableSec _ => TableSection.kindVal
  | .memorySec _ => MemorySection.kindVal
  | .globalSec _ => GlobalSection.kindVal
  | .exportSec _ => ExportSection.kindVal
  | .startSec _ => StartSection.kindVal
  | .elementSec _ => ElementSection.kindVal
  | .codeSec _ => CodeSection.kindVal
  | .dataSec _ => DataSection.kindVal
  | .dataCountSec _ => DataCountSection.kindVal
  | .tagSec _ => TagSection.kindVal

def Section.sizeOrThrow : Section → Nat
  | .unknown s => s.sizeOrThrow
  | .custom s => s.sizeOrThrow
  | .typeSec s => s.sizeOrThrow
  | .importSec s => s.sizeOrThrow
  | .functionSec s => s.sizeOrThrow
  | .tableSec s => s.sizeOrThrow
  | .memorySec s => s.sizeOrThrow
  | .globalSec s => s.sizeOrThrow
  | .exportSec s => s.sizeOrThrow
  | .startSec s => s.sizeOrThrow
  | .elementSec s => s.sizeOrThrow
  | .codeSec s => s.sizeOrThrow
  | .dataSec s => s.sizeOrThrow
  | .dataCountSec s => s.sizeOrThrow
  | .tagSec s => s.sizeOrThrow

def Section.writeOrThrow : Section → List Nat
  | .unknown s => s.writeOrThrow
  | .custom s => s.writeOrThrow
  | .typeSec s => s.writeOrThrow
  | .importSec s => s.writeOrThrow
  | .functionSec s => s.writeOrThrow
  | .tableSec s => s.writeOrThrow
  | .memorySec s => s.writeOrThrow
  | .globalSec s => s.writeOrThrow
  | .exportSec s => s.writeOrThrow
  | .startSec s => s.writeOrThrow
  | .elementSec s => s.writeOrThrow
  | .codeSec s => s.writeOrThrow
  | .dataSec s => s.writeOrThrow
  | .dataCountSec s => s.writeOrThrow
  | .tagSec s => s.writeOrThrow

/-- `Head.sizeOrThrow()` is `4 + 4`. -/
def Head.sizeOrThrow (_ : Head) : Nat := 4 + 4

/-- `Head.writeOrThrow`: the magic `1836278016` (= `0x6D736100`) and the
*current* `version` field, both little-endian. -/
def Head.writeOrThrow (h : Head) : List Nat :=
  writeUint32LE 1836278016 ++ writeUint32LE h.version

/-- `Body.sizeOrThrow`: per section `1` (kind byte) + the `U32` size prefix +
the payload size. -/
def Body.sizeOrThrow (b : Body) : Nat :=
  sizeList (fun s => 1 + LEB128.U32.sizeOrThrow s.sizeOrThrow + s.sizeOrThrow)
    b.sections

def Body.writeOrThrow (b : Body) : List Nat :=
  writeList (fun s => writeUint8 s.kind
    ++ LEB128.U32.writeOrThrow s.sizeOrThrow ++ s.writeOrThrow) b.sections

def Module.sizeOrThrow (m : Module) : Nat :=
  m.head.sizeOrThrow + m.body.sizeOrThrow

def Module.writeOrThrow (m : Module) : List Nat :=
  m.head.writeOrThrow ++ m.body.writeOrThrow

/-! ## Sections: `readOrThrow`

The source reads each sequence with an inline counted `for` loop
(`readCount` here) and each constant expression with an inline
`while (true) { ... if (instruction.opcode === 0x0b) break }` loop
(`constExprReadOrThrow` here, the loop text is identical at every site). -/

/-- The constant-expression loop: read single instructions, keeping each,
until one with opcode `0x0B` (`end`) is returned; that instruction is
included. -/
def constExprReadOrThrow (bs : List Nat) :
    Except ReadErr (List Instruction × List Nat) :=
  match h : Instruction.readOrThrow bs with
  | .error e => .error e
  | .ok (instruction, bs') =>
    if instruction.opcode = 0x0b then .ok ([instruction], bs')
    else
      match constExprReadOrThrow bs' with
      | .error e => .error e
      | .ok (instructions, bs'') => .ok (instruction :: instructions, bs'')
termination_by bs.length
decreasing_by exact Instruction_read_length h

/-- Modelled from the spec (§4.5): `Readable.readFromBytesOrThrow` of the
external binary library — run a reader on an isolated byte slice; over-reads
fail inside the reader, under-consumption fails afterwards. -/
def readFromBytesOrThrow (read1 : List Nat → Except ReadErr (α × List Nat))
    (data : List Nat) : Except ReadErr α :=
  match read1 data with
  | .error e => .error e
  | .ok (x, rest) => if rest = [] then .ok x else .error .leftoverBytes

def CustomSection.readOrThrow (bs : List Nat) :
    Except ReadErr (CustomSection × List Nat) :=
  match LEB128.U32.readOrThrow bs with
  | .error e => .error e
  | .ok (size, bs) =>
    match readBytes size bs with
    | .error e => .error e
    | .ok (name, bs) =>
      match readBytes bs.length bs with
      | .error e => .error e
      | .ok (data, bs) => .ok (⟨name, data⟩, bs)

def TypeSection.FuncType.readOrThrow (bs : List Nat) :
    Except ReadErr (TypeSection.FuncType × List Nat) :=
  match LEB128.U32.readOrThrow bs with
  | .error e => .error e
  | .ok (pcount, bs) =>
    match readCount readUint8 pcount bs with
    | .error e => .error e
    | .ok (params, bs) =>
      match LEB128.U32.readOrThrow bs with
      | .error e => .error e
      | .ok (rcount, bs) =>
        match readCount readUint8 rcount bs with
        | .error e => .error e
        | .ok (results, bs) => .ok (⟨params, results⟩, bs)

/-- One `[valtype, mutable]` field of a struct type. -/
def TypeSection.StructType.readField (bs : List Nat) :
    Except ReadErr ((Nat × Bool) × List Nat) :=
  match readUint8 bs with
  | .error e => .error e
  | .ok (valtype, bs) =>
    match readUint8 bs with
    | .error e => .error e
    | .ok (m, bs) => .ok ((valtype, m = 1), bs)

def TypeSection.StructType.readOrThrow (bs : List Nat) :
    Except ReadErr (TypeSection.StructType × List Nat) :=
  match LEB128.U32.readOrThrow bs with
  | .error e => .error e
  | .ok (count, bs) =>
    match readCount TypeSection.StructType.readField count bs with
    | .error e => .error e
    | .ok (fields, bs) => .ok (⟨fields⟩, bs)

def TypeSection.ArrayType.readOrThrow (bs : List Nat) :
    Except ReadErr (TypeSection.ArrayType × List Nat) :=
  match readUint8 bs with
  | .error e => .error e
  | .ok (valtype, bs) =>
    match readUint8 bs with
    | .error e => .error e
    | .ok (m, bs) => .ok (⟨valtype, m = 1⟩, bs)

/-- One iteration of the `TypeSection.readOrThrow` loop: prefix byte, the
`0x60` shortcut, the optional `0x4E`/`0x4D` subtype list, the body-kind
dispatch (unknown kinds throw). -/
def TypeSection.readDescriptor (bs : List Nat) :
    Except ReadErr (TypeSection.TypeDescriptor × List Nat) :=
  match readUint8 bs with
  | .error e => .error e
  | .ok (pfx, bs) =>
    if pfx = TypeSection.FuncType.kindVal then
      match TypeSection.FuncType.readOrThrow bs with
      | .error e => .error e
      | .ok (body, bs) => .ok (⟨pfx, [], .funcType body⟩, bs)
    else
      match
        ((if pfx = 0x4E ∨ pfx = 0x4D then
          match LEB128.U32.readOrThrow bs with
          | .error e => .error e
          | .ok (subcount, bs) => readCount LEB128.U32.readOrThrow subcount bs
        else .ok ([], bs)) : Except ReadErr (List Nat × List Nat)) with
      | .error e => .error e
      | .ok (subtypes, bs) =>
        match readUint8 bs with
        | .error e => .error e
        | .ok (kind, bs) =>
          if kind = TypeSection.FuncType.kindVal then
            match TypeSection.FuncType.readOrThrow bs with
            | .error e => .error e
            | .ok (body, bs) => .ok (⟨pfx, subtypes, .funcType body⟩, bs)
          else if kind = TypeSection.StructType.kindVal then
            match TypeSection.StructType.readOrThrow bs with
            | .error e => .error e
            | .ok (body, bs) => .ok (⟨pfx, subtypes, .structType body⟩, bs)
          else if kind = TypeSection.ArrayType.kindVal then
            match TypeSection.ArrayType.readOrThrow bs with
            | .error e => .error e
            | .ok (body, bs) => .ok (⟨pfx, subtypes, .arrayType body⟩, bs)
          else .error .unknownTypeKind

def TypeSection.readOrThrow (bs : List Nat) :
    Except ReadErr (TypeSection × List Nat) :=
  match LEB128.U32.readOrThrow bs with
  | .error e => .error e
  | .ok (count, bs) =>
    match readCount TypeSection.readDescriptor count bs with
    | .error e => .error e
    | .ok (types, bs) => .ok (⟨types⟩, bs)

def ImportSection.FunctionImport.readOrThrow (bs : List Nat) :
    Except ReadErr (ImportSection.FunctionImport × List Nat) :=
  match LEB128.U32.readOrThrow bs with
  | .error e => .error e
  | .ok (typeidx, bs) => .ok (⟨typeidx⟩, bs)

def ImportSection.TableImport.readOrThrow (bs : List Nat) :
    Except ReadErr (ImportSection.TableImport × List Nat) :=
  match readUint8 bs with
  | .error e => .error e
  | .ok (reftype, bs) =>
    match readUint8 bs with
    | .error e => .error e
    | .ok (flag, bs) =>
      match LEB128.U32.readOrThrow bs with
      | .error e => .error e
      | .ok (min, bs) =>
        if flag &&& 0x01 ≠ 0 then
          match LEB128.U32.readOrThrow bs with
          | .error e => .error e
          | .ok (max, bs) => .ok (⟨reftype, flag, min, some max⟩, bs)
        else .ok (⟨reftype, flag, min, none⟩, bs)

def ImportSection.MemoryImport.readOrThrow (bs : List Nat) :
    Except ReadErr (ImportSection.MemoryImport × List Nat) :=
  match readUint8 bs with
  | .error e => .error e
  | .ok (flag, bs) =>
    match LEB128.U32.readOrThrow bs with
    | .error e => .error e
    | .ok (min, bs) =>
      if flag &&& 0x01 ≠ 0 then
        match LEB128.U32.readOrThrow bs with
        | .error e => .error e
        | .ok (max, bs) => .ok (⟨flag, min, some max⟩, bs)
      else .ok (⟨flag, min, none⟩, bs)

def ImportSection.GlobalImport.readOrThrow (bs : List Nat) :
    Except ReadErr (ImportSection.GlobalImport × List Nat) :=
  match readUint8 bs with
  | .error e => .error e
  | .ok (valtype, bs) =>
    match readUint8 bs with
    | .error e => .error e
    | .ok (m, bs) => .ok (⟨valtype, m⟩, bs)

/-- One iteration of the `ImportSection.readOrThrow` loop. -/
def ImportSection.readDescriptor (bs : List Nat) :
    Except ReadErr (ImportSection.ImportDescriptor × List Nat) :=
  match LEB128.U32.readOrThrow bs with
  | .error e => .error e
  | .ok (fromLen, bs) =>
    match readBytes fromLen bs with
    | .error e => .error e
    | .ok (from_, bs) =>
      match LEB128.U32.readOrThrow bs with
      | .error e => .error e
      | .ok (nameLen, bs) =>
        match readBytes nameLen bs with
        | .error e => .error e
        | .ok (name, bs) =>
          match readUint8 bs with
          | .error e => .error e
          | .ok (kind, bs) =>
            if kind = 0x00 then
              match ImportSection.FunctionImport.readOrThrow bs with
              | .error e => .error e
              | .ok (body, bs) => .ok (⟨from_, name, .functionImport body⟩, bs)
            else if kind = 0x01 then
              match ImportSection.TableImport.readOrThrow bs with
              | .error e => .error e
              | .ok (body, bs) => .ok (⟨from_, name, .tableImport body⟩, bs)
            else if kind = 0x02 then
              match ImportSection.MemoryImport.readOrThrow bs with
              | .error e => .error e
              | .ok (body, bs) => .ok (⟨from_, name, .memoryImport body⟩, bs)
            else if kind = 0x03 then
              match ImportSection.GlobalImport.readOrThrow bs with
              | .error e => .error e
              | .ok (body, bs) => .ok (⟨from_, name, .globalImport body⟩, bs)
            else .error .unknownImportKind

def ImportSection.readOrThrow (bs : List Nat) :
    Except ReadErr (ImportSection × List Nat) :=
  match LEB128.U32.readOrThrow bs with
  | .error e => .error e
  | .ok (count, bs) =>
    match readCount ImportSection.readDescriptor count bs with
    | .error e => .error e
    | .ok (descriptors, bs) => .ok (⟨descriptors⟩, bs)

/-- `LEB128.U32.readOrThrow(cursor).value` — the `U32` read unwrapped to its
numeric value, as the counted loops store it. -/
def readU32Value (bs : List Nat) : Except ReadErr (Nat × List Nat) :=
  LEB128.U32.readOrThrow bs

def FunctionSection.readOrThrow (bs : List Nat) :
    Except ReadErr (FunctionSection × List Nat) :=
  match LEB128.U32.readOrThrow bs with
  | .error e => .error e
  | .ok (count, bs) =>
    match readCount readU32Value count bs with
    | .error e => .error e
    | .ok (typeidxs, bs) => .ok (⟨typeidxs⟩, bs)

/-- One iteration of the `TableSection.readOrThrow` loop. -/
def TableSection.readDescriptor (bs : List Nat) :
    Except ReadErr (TableSection.TableDescriptor × List Nat) :=
  match readUint8 bs with
  | .error e => .error e
  | .ok (reftype, bs) =>
    match readUint8 bs with
    | .error e => .error e
    | .ok (flag, bs) =>
      match LEB128.U32.readOrThrow bs with
      | .error e => .error e
      | .ok (min, bs) =>
        if flag &&& 0x01 ≠ 0 then
          match LEB128.U32.readOrThrow bs with
          | .error e => .error e
          | .ok (max, bs) => .ok (⟨reftype, flag, min, some max⟩, bs)
        else .ok (⟨reftype, flag, min, none⟩, bs)

def TableSection.readOrThrow (bs : List Nat) :
    Except ReadErr (TableSection × List Nat) :=
  match LEB128.U32.readOrThrow bs with
  | .error e => .error e
  | .ok (count, bs) =>
    match readCount TableSection.readDescriptor count bs with
    | .error e => .error e
    | .ok (descriptors, bs) => .ok (⟨descriptors⟩, bs)

/-- One iteration of the `MemorySection.readOrThrow` loop. -/
def MemorySection.readDescriptor (bs : List Nat) :
    Except ReadErr (MemorySection.MemoryDescriptor × List Nat) :=
  match readUint8 bs with
  | .error e => .error e
  | .ok (flag, bs) =>
    match LEB128.U32.readOrThrow bs with
    | .error e => .error e
    | .ok (min, bs) =>
      if flag &&& 0x01 ≠ 0 then
        match LEB128.U32.readOrThrow bs with
        | .error e => .error e
        | .ok (max, bs) => .ok (⟨flag, min, some max⟩, bs)
      else .ok (⟨flag, min, none⟩, bs)

def MemorySection.readOrThrow (bs : List Nat) :
    Except ReadErr (MemorySection × List Nat) :=
  match LEB128.U32.readOrThrow bs with
  | .error e => .error e
  | .ok (count, bs) =>
    match readCount MemorySection.readDescriptor count bs with
    | .error e => .error e
    | .ok (descriptors, bs) => .ok (⟨descriptors⟩, bs)

/-- One iteration of the `GlobalSection.readOrThrow` loop: `valtype`,
`mutable`, then the constant-expression instruction loop. -/
def GlobalSection.readDescriptor (bs : List Nat) :
    Except ReadErr (GlobalSection.GlobalDescriptor × List Nat) :=
  match readUint8 bs with
  | .error e => .error e
  | .ok (valtype, bs) =>
    match readUint8 bs with
    | .error e => .error e
    | .ok (m, bs) =>
      match constExprReadOrThrow bs with
      | .error e => .error e
      | .ok (instructions, bs) => .ok (⟨valtype, m, instructions⟩, bs)

def GlobalSection.readOrThrow (bs : List Nat) :
    Except ReadErr (GlobalSection × List Nat) :=
  match LEB128.U32.readOrThrow bs with
  | .error e => .error e
  | .ok (count, bs) =>
    match readCount GlobalSection.readDescriptor count bs with
    | .error e => .error e
    | .ok (descriptors, bs) => .ok (⟨descriptors⟩, bs)

/-- One iteration of the `ExportSection.readOrThrow` loop. -/
def ExportSection.readDescriptor (bs : List Nat) :
    Except ReadErr (ExportSection.ExportDescriptor × List Nat) :=
  match LEB128.U32.readOrThrow bs with
  | .error e => .error e
  | .ok (nameLen, bs) =>
    match readBytes nameLen bs with
    | .error e => .error e
    | .ok (name, bs) =>
      match readUint8 bs with
      | .error e => .error e
      | .ok (kind, bs) =>
        match LEB128.U32.readOrThrow bs with
        | .error e => .error e
        | .ok (xidx, bs) => .ok (⟨name, kind, xidx⟩, bs)

def ExportSection.readOrThrow (bs : List Nat) :
    Except ReadErr (ExportSection × List Nat) :=
  match LEB128.U32.readOrThrow bs with
  | .error e => .error e
  | .ok (count, bs) =>
    match readCount ExportSection.readDescriptor count bs with
    | .error e => .error e
    | .ok (descriptors, bs) => .ok (⟨descriptors⟩, bs)

def StartSection.readOrThrow (bs : List Nat) :
    Except ReadErr (StartSection × List Nat) :=
  match LEB128.U32.readOrThrow bs with
  | .error e => .error e
  | .ok (funcidx, bs) => .ok (⟨funcidx⟩, bs)

/-- One iteration of the `ElementSection.readOrThrow` loop: flag dispatch
over the eight layouts; other flags throw. -/
def ElementSection.readSegment (bs : List Nat) :
    Except ReadErr (ElementSection.ElementSegment × List Nat) :=
  match readUint8 bs with
  | .error e => .error e
  | .ok (flag, bs) =>
    if flag = 0 then
      match constExprReadOrThrow bs with
      | .error e => .error e
      | .ok (instructions, bs) =>
        match LEB128.U32.readOrThrow bs with
        | .error e => .error e
        | .ok (count, bs) =>
          match readCount readU32Value count bs with
          | .error e => .error e
          | .ok (funcidxs, bs) => .ok (.flag0 instructions funcidxs, bs)
    else if flag = 1 then
      match readUint8 bs with
      | .error e => .error e
      | .ok (reftype, bs) =>
        match LEB128.U32.readOrThrow bs with
        | .error e => .error e
        | .ok (count, bs) =>
          match readCount constExprReadOrThrow count bs with
          | .error e => .error e
          | .ok (elements, bs) => .ok (.flag1 reftype elements, bs)
    else if flag = 2 then
      match LEB128.U32.readOrThrow bs with
      | .error e => .error e
      | .ok (tableidx, bs) =>
        match constExprReadOrThrow bs with
        | .error e => .error e
        | .ok (instructions, bs) =>
          match readUint8 bs with
          | .error e => .error e
          | .ok (reftype, bs) =>
            match LEB128.U32.readOrThrow bs with
            | .error e => .error e
            | .ok (count, bs) =>
              match readCount constExprReadOrThrow count bs with
              | .error e => .error e
              | .ok (elements, bs) =>
                .ok (.flag2 tableidx instructions reftype elements, bs)
    else if flag = 3 then
      match readUint8 bs with
      | .error e => .error e
      | .ok (reftype, bs) =>
        match LEB128.U32.readOrThrow bs with
        | .error e => .error e
        | .ok (count, bs) =>
          match readCount constExprReadOrThrow count bs with
          | .error e => .error e
          | .ok (elements, bs) => .ok (.flag3 reftype elements, bs)
    else if flag = 4 then
      match constExprReadOrThrow bs with
      | .error e => .error e
      | .ok (instructions, bs) =>
        match LEB128.U32.readOrThrow bs with
        | .error e => .error e
        | .ok (count, bs) =>
          match readCount readU32Value count bs with
          | .error e => .error e
          | .ok (funcidxs, bs) => .ok (.flag4 instructions funcidxs, bs)
    else if flag = 5 then
      match readUint8 bs with
      | .error e => .error e
      | .ok (reftype, bs) =>
        match LEB128.U32.readOrThrow bs with
        | .error e => .error e
        | .ok (count, bs) =>
          match readCount readU32Value count bs with
          | .error e => .error e
          | .ok (funcidxs, bs) => .ok (.flag5 reftype funcidxs, bs)
    else if flag = 6 then
      match LEB128.U32.readOrThrow bs with
      | .error e => .error e
      | .ok (tableidx, bs) =>
        match constExprReadOrThrow bs with
        | .error e => .error e
        | .ok (instructions, bs) =>
          match readUint8 bs with
          | .error e => .error e
          | .ok (reftype, bs) =>
            match LEB128.U32.readOrThrow bs with
            | .error e => .error e
            | .ok (count, bs) =>
              match readCount readU32Value count bs with
              | .error e => .error e
              | .ok (funcidxs, bs) =>
                .ok (.flag6 tableidx instructions reftype funcidxs, bs)
    else if flag = 7 then
      match readUint8 bs with
      | .error e => .error e
      | .ok (reftype, bs) =>
        match LEB128.U32.readOrThrow bs with
        | .error e => .error e
        | .ok (count, bs) =>
          match readCount readU32Value count bs with
          | .error e => .error e
          | .ok (funcidxs, bs) => .ok (.flag7 reftype funcidxs, bs)
    else .error .unknownElementFlag

def ElementSection.readOrThrow (bs : List Nat) :
    Except ReadErr (ElementSection × List Nat) :=
  match LEB128.U32.readOrThrow bs with
  | .error e => .error e
  | .ok (count, bs) =>
    match readCount ElementSection.readSegment count bs with
    | .error e => .error e
    | .ok (segments, bs) => .ok (⟨segments⟩, bs)

def CodeSection.Local.readOrThrow (bs : List Nat) :
    Except ReadErr (CodeSection.Local × List Nat) :=
  match LEB128.U32.readOrThrow bs with
  | .error e => .error e
  | .ok (count, bs) =>
    match readUint8 bs with
    | .error e => .error e
    | .ok (valtype, bs) => .ok (⟨count, valtype⟩, bs)

/-- `Locals.readOrThrow`: a counted list of `Local`s. -/
def CodeSection.Locals.readOrThrow (bs : List Nat) :
    Except ReadErr (List CodeSection.Local × List Nat) :=
  match LEB128.U32.readOrThrow bs with
  | .error e => .error e
  | .ok (count, bs) => readCount CodeSection.Local.readOrThrow count bs

/-- The `while (subcursor.remaining > 0)` instruction loop of
`FunctionBody.readOrThrow`: read instructions until the sub-cursor is
exhausted. -/
def readInstrsToEndOrThrow (bs : List Nat) :
    Except ReadErr (List Instruction) :=
  if bs.isEmpty then .ok []
  else
    match h : Instruction.readOrThrow bs with
    | .error e => .error e
    | .ok (i, bs') =>
      match readInstrsToEndOrThrow bs' with
      | .error e => .error e
      | .ok is => .ok (i :: is)
termination_by bs.length
decreasing_by exact Instruction_read_length h

/-- `FunctionBody.readOrThrow`: a size-prefixed frame, isolated in a
sub-cursor; locals, then instructions to the end of the frame. -/
def CodeSection.FunctionBody.readOrThrow (bs : List Nat) :
    Except ReadErr (CodeSection.FunctionBody × List Nat) :=
  match LEB128.U32.readOrThrow bs with
  | .error e => .error e
  | .ok (size, bs) =>
    match readBytes size bs with
    | .error e => .error e
    | .ok (data, bs) =>
      match CodeSection.Locals.readOrThrow data with
      | .error e => .error e
      | .ok (locals, data) =>
        match readInstrsToEndOrThrow data with
        | .error e => .error e
        | .ok (instructions) => .ok (⟨locals, instructions⟩, bs)

def CodeSection.readOrThrow (bs : List Nat) :
    Except ReadErr (CodeSection × List Nat) :=
  match LEB128.U32.readOrThrow bs with
  | .error e => .error e
  | .ok (count, bs) =>
    match readCount CodeSection.FunctionBody.readOrThrow count bs with
    | .error e => .error e
    | .ok (bodies, bs) => .ok (⟨bodies⟩, bs)

/-- One iteration of the `DataSection.readOrThrow` loop: flag dispatch over
the three layouts; other flags throw. -/
def DataSection.readSegment (bs : List Nat) :
    Except ReadErr (DataSection.DataSegment × List Nat) :=
  match readUint8 bs with
  | .error e => .error e
  | .ok (flag, bs) =>
    if flag = 0 then
      match constExprReadOrThrow bs with
      | .error e => .error e
      | .ok (instructions, bs) =>
        match LEB128.U32.readOrThrow bs with
        | .error e => .error e
        | .ok (len, bs) =>
          match readBytes len bs with
          | .error e => .error e
          | .ok (data, bs) => .ok (.flag0 instructions data, bs)
    else if flag = 1 then
      match LEB128.U32.readOrThrow bs with
      | .error e => .error e
      | .ok (len, bs) =>
        match readBytes len bs with
        | .error e => .error e
        | .ok (data, bs) => .ok (.flag1 data, bs)
    else if flag = 2 then
      match LEB128.U32.readOrThrow bs with
      | .error e => .error e
      | .ok (memidx, bs) =>
        match constExprReadOrThrow bs with
        | .error e => .error e
        | .ok (instructions, bs) =>
          match LEB128.U32.readOrThrow bs with
          | .error e => .error e
          | .ok (len, bs) =>
            match readBytes len bs with
            | .error e => .error e
            | .ok (data, bs) => .ok (.flag2 memidx instructions data, bs)
    else .error .unknownDataFlag

def DataSection.readOrThrow (bs : List Nat) :
    Except ReadErr (DataSection × List Nat) :=
  match LEB128.U32.readOrThrow bs with
  | .error e => .error e
  | .ok (count, bs) =>
    match readCount DataSection.readSegment count bs with
    | .error e => .error e
    | .ok (segments, bs) => .ok (⟨segments⟩, bs)

def DataCountSection.readOrThrow (bs : List Nat) :
    Except ReadErr (DataCountSection × List Nat) :=
  match LEB128.U32.readOrThrow bs with
  | .error e => .error e
  | .ok (count, bs) => .ok (⟨count⟩, bs)

/-- One iteration of the `TagSection.readOrThrow` loop. -/
def TagSection.readTag (bs : List Nat) :
    Except ReadErr ((Nat × Nat) × List Nat) :=
  match readUint8 bs with
  | .error e => .error e
  | .ok (attr, bs) =>
    match LEB128.U32.readOrThrow bs with
    | .error e => .error e
    | .ok (typeidx, bs) => .ok ((attr, typeidx), bs)

def TagSection.readOrThrow (bs : List Nat) :
    Except ReadErr (TagSection × List Nat) :=
  match LEB128.U32.readOrThrow bs with
  | .error e => .error e
  | .ok (count, bs) =>
    match readCount TagSection.readTag count bs with
    | .error e => .error e
    | .ok (tags, bs) => .ok (⟨tags⟩, bs)

/-- The kind dispatch of the `Body.readOrThrow` loop: the `if` chain over
the section classes' static kinds, in source order; unmatched kinds retain
the payload as an `UnknownSection`. -/
def sectionReadDispatch (kind : Nat) (data : List Nat) :
    Except ReadErr Section :=
  if kind = CustomSection.kindVal then
    (readFromBytesOrThrow CustomSection.readOrThrow data).map .custom
  else if kind = TypeSection.kindVal then
    (readFromBytesOrThrow TypeSection.readOrThrow data).map .typeSec
  else if kind = ImportSection.kindVal then
    (readFromBytesOrThrow ImportSection.readOrThrow data).map .importSec
  else if kind = FunctionSection.kindVal then
    (readFromBytesOrThrow FunctionSection.readOrThrow data).map .functionSec
  else if kind = TableSection.kindVal then
    (readFromBytesOrThrow TableSection.readOrThrow data).map .tableSec
  else if kind = MemorySection.kindVal then
    (readFromBytesOrThrow MemorySection.readOrThrow data).map .memorySec
  else if kind = GlobalSection.kindVal then
    (readFromBytesOrThrow GlobalSection.readOrThrow data).map .globalSec
  else if kind = ExportSection.kindVal then
    (readFromBytesOrThrow ExportSection.readOrThrow data).map .exportSec
  else if kind = StartSection.kindVal then
    (readFromBytesOrThrow StartSection.readOrThrow data).map .startSec
  else if kind = ElementSection.kindVal then
    (readFromBytesOrThrow ElementSection.readOrThrow data).map .elementSec
  else if kind = CodeSection.kindVal then
    (readFromBytesOrThrow CodeSection.readOrThrow data).map .codeSec
  else if kind = DataSection.kindVal then
    (readFromBytesOrThrow DataSection.readOrThrow data).map .dataSec
  else if kind = DataCountSection.kindVal then
    (readFromBytesOrThrow DataCountSection.readOrThrow data).map .dataCountSec
  else if kind = TagSection.kindVal then
    (readFromBytesOrThrow TagSection.readOrThrow data).map .tagSec
  else .ok (.unknown ⟨kind, data⟩)

/-- The `while (cursor.remaining > 0)` loop of `Body.readOrThrow`: read a
`(kind, size, payload)` frame, decode the payload, repeat. -/
def Body.readSectionsOrThrow (bs : List Nat) :
    Except ReadErr (List Section) :=
  if bs.isEmpty then .ok []
  else
    match h1 : readUint8 bs with
    | .error e => .error e
    | .ok (kind, bs1) =>
      match h2 : LEB128.U32.readOrThrow bs1 with
      | .error e => .error e
      | .ok (size, bs2) =>
        match h3 : readBytes size bs2 with
        | .error e => .error e
        | .ok (data, bs3) =>
          match sectionReadDispatch kind data with
          | .error e => .error e
          | .ok s =>
            match Body.readSectionsOrThrow bs3 with
            | .error e => .error e
            | .ok sections => .ok (s :: sections)
termination_by bs.length
decreasing_by
  have l1 := readUint8_length h1
  have l2 := LEB128.U32_read_length h2
  have l3 := (readBytes_length h3).1
  omega

def Body.readOrThrow (bs : List Nat) : Except ReadErr Body :=
  match Body.readSectionsOrThrow bs with
  | .error e => .error e
  | .ok sections => .ok ⟨sections⟩

/-- `Head.readOrThrow`: magic then version, each checked. -/
def Head.readOrThrow (bs : List Nat) : Except ReadErr (Head × List Nat) :=
  match readUint32LE bs with
  | .error e => .error e
  | .ok (magic, bs) =>
    if magic ≠ 1836278016 then .error .invalidMagic
    else
      match readUint32LE bs with
      | .error e => .error e
      | .ok (version, bs) =>
        if version ≠ 1 then .error .unsupportedVersion
        else .ok (⟨version⟩, bs)

/-- `Module.readOrThrow`: head, then the body loop consuming the rest of the
input. -/
def Module.readOrThrow (bs : List Nat) : Except ReadErr Module :=
  match Head.readOrThrow bs with
  | .error e => .error e
  | .ok (head, bs) =>
    match Body.readOrThrow bs with
    | .error e => .error e
    | .ok body => .ok ⟨head, body⟩

/-! ## Size agreement: `sizeOrThrow` = length of `writeOrThrow` -/

theorem LEB128_U32_size_eq_length (v : Nat) :
    LEB128.U32.sizeOrThrow v = (LEB128.U32.writeOrThrow v).length :=
  LEB128.unsignedSize_eq_length v

theorem writeUint8_length (v : Nat) : (writeUint8 v).length = 1 := rfl

theorem writeList_writeUint8_length (xs : List Nat) :
    (writeList writeUint8 xs).length = xs.length := by
  induction xs with
  | nil => rfl
  | cons x xs ih => simp [writeList, ih, writeUint8]

theorem writeList_congr {f g : α → List Nat} (xs : List α)
    (h : ∀ x ∈ xs, f x = g x) : writeList f xs = writeList g xs := by
  induction xs with
  | nil => rfl
  | cons x xs ih =>
    rw [writeList, writeList, h x (List.mem_cons_self _ _),
      ih fun y hy => h y (List.mem_cons_of_mem _ hy)]

theorem u32ListSize_eq_length (xs : List Nat) :
    sizeList LEB128.U32.sizeOrThrow xs
      = (writeList LEB128.U32.writeOrThrow xs).length :=
  sizeList_eq_length _ fun x _ => LEB128_U32_size_eq_length x

theorem instrListSize_eq_length (xs : List Instruction) :
    sizeList Instruction.sizeOrThrow xs
      = (writeList Instruction.writeOrThrow xs).length :=
  sizeList_eq_length _ fun i _ => Instruction_size_eq_length i

theorem constExprListSize_eq_length (xs : List (List Instruction)) :
    sizeList (sizeList Instruction.sizeOrThrow) xs
      = (writeList (writeList Instruction.writeOrThrow) xs).length :=
  sizeList_eq_length _ fun l _ => instrListSize_eq_length l

theorem UnknownSection_size_eq_length (s : UnknownSection) :
    s.sizeOrThrow = s.writeOrThrow.length := rfl

theorem CustomSection_size_eq_length (s : CustomSection) :
    s.sizeOrThrow = s.writeOrThrow.length := by
  simp [CustomSection.sizeOrThrow, CustomSection.writeOrThrow,
    LEB128_U32_size_eq_length]
  omega

theorem TypeSection_FuncType_size_eq_length (b : TypeSection.FuncType) :
    b.sizeOrThrow = b.writeOrThrow.length := by
  simp [TypeSection.FuncType.sizeOrThrow, TypeSection.FuncType.writeOrThrow,
    LEB128_U32_size_eq_length, writeList_writeUint8_length]
  omega

theorem TypeSection_StructType_size_eq_length (b : TypeSection.StructType) :
    b.sizeOrThrow = b.writeOrThrow.length := by
  rw [TypeSection.StructType.sizeOrThrow, TypeSection.StructType.writeOrThrow,
    List.length_append, LEB128_U32_size_eq_length]
  congr 1
  exact sizeList_eq_length _ fun f _ => by simp [writeUint8]

theorem TypeSection_ArrayType_size_eq_length (b : TypeSection.ArrayType) :
    b.sizeOrThrow = b.writeOrThrow.length := rfl

theorem TypeSection_TypeBody_size_eq_length (b : TypeSection.TypeBody) :
    b.sizeOrThrow = b.writeOrThrow.length := by
  cases b with
  | funcType b => exact TypeSection_FuncType_size_eq_length b
  | structType b => exact TypeSection_StructType_size_eq_length b
  | arrayType b => exact TypeSection_ArrayType_size_eq_length b

theorem TypeSection_size_eq_length (s : TypeSection) :
    s.sizeOrThrow = s.writeOrThrow.length := by
  rw [TypeSection.sizeOrThrow, TypeSection.writeOrThrow,
    List.length_append, LEB128_U32_size_eq_length]
  congr 1
  refine sizeList_eq_length _ fun d _ => ?_
  by_cases h1 : d.pfx = TypeSection.FuncType.kindVal
  · simp [h1, TypeSection_TypeBody_size_eq_length, writeUint8]
    omega
  · by_cases h2 : d.pfx = 0x4E ∨ d.pfx = 0x4D
    · simp [h1, h2, LEB128_U32_size_eq_length, u32ListSize_eq_length,
        TypeSection_TypeBody_size_eq_length, writeUint8]
      omega
    · simp [h1, h2, TypeSection_TypeBody_size_eq_length, writeUint8]
      omega

theorem ImportSection_ImportBody_size_eq_length
    (b : ImportSection.ImportBody) :
    b.sizeOrThrow = b.writeOrThrow.length := by
  cases b with
  | functionImport b =>
    simp [ImportSection.ImportBody.sizeOrThrow,
      ImportSection.ImportBody.writeOrThrow,
      ImportSection.FunctionImport.sizeOrThrow,
      ImportSection.FunctionImport.writeOrThrow, LEB128_U32_size_eq_length]
  | tableImport b =>
    cases hm : b.max with
    | none =>
      simp [ImportSection.ImportBody.sizeOrThrow,
        ImportSection.ImportBody.writeOrThrow,
        ImportSection.TableImport.sizeOrThrow,
        ImportSection.TableImport.writeOrThrow, hm,
        LEB128_U32_size_eq_length, writeUint8]
      omega
    | some m =>
      simp [ImportSection.ImportBody.sizeOrThrow,
        ImportSection.ImportBody.writeOrThrow,
        ImportSection.TableImport.sizeOrThrow,
        ImportSection.TableImport.writeOrThrow, hm,
        LEB128_U32_size_eq_length, writeUint8]
      omega
  | memoryImport b =>
    cases hm : b.max with
    | none =>
      simp [ImportSection.ImportBody.sizeOrThrow,
        ImportSection.ImportBody.writeOrThrow,
        ImportSection.MemoryImport.sizeOrThrow,
        ImportSection.MemoryImport.writeOrThrow, hm,
        LEB128_U32_size_eq_length, writeUint8]
      omega
    | some m =>
      simp [ImportSection.ImportBody.sizeOrThrow,
        ImportSection.ImportBody.writeOrThrow,
        ImportSection.MemoryImport.sizeOrThrow,
        ImportSection.MemoryImport.writeOrThrow, hm,
        LEB128_U32_size_eq_length, writeUint8]
      omega
  | globalImport b => rfl

theorem ImportSection_size_eq_length (s : ImportSection) :
    s.sizeOrThrow = s.writeOrThrow.length := by
  rw [ImportSection.sizeOrThrow, ImportSection.writeOrThrow,
    List.length_append, LEB128_U32_size_eq_length]
  congr 1
  refine sizeList_eq_length _ fun d _ => ?_
  simp [LEB128_U32_size_eq_length, ImportSection_ImportBody_size_eq_length,
    writeUint8]
  omega

theorem FunctionSection_size_eq_length (s : FunctionSection) :
    s.sizeOrThrow = s.writeOrThrow.length := by
  simp [FunctionSection.sizeOrThrow, FunctionSection.writeOrThrow,
    LEB128_U32_size_eq_length, u32ListSize_eq_length]

theorem TableSection_size_eq_length (s : TableSection) :
    s.sizeOrThrow = s.writeOrThrow.length := by
  rw [TableSection.sizeOrThrow, TableSection.writeOrThrow,
    List.length_append, LEB128_U32_size_eq_length]
  congr 1
  refine sizeList_eq_length _ fun d _ => ?_
  cases hm : d.max with
  | none =>
    simp [hm, LEB128_U32_size_eq_length, writeUint8]
    omega
  | some m =>
    simp [hm, LEB128_U32_size_eq_length, writeUint8]
    omega

theorem MemorySection_size_eq_length (s : MemorySection) :
    s.sizeOrThrow = s.writeOrThrow.length := by
  rw [MemorySection.sizeOrThrow, MemorySection.writeOrThrow,
    List.length_append, LEB128_U32_size_eq_length]
  congr 1
  refine sizeList_eq_length _ fun d _ => ?_
  cases hm : d.max with
  | none =>
    simp [hm, LEB128_U32_size_eq_length, writeUint8]
    omega
  | some m =>
    simp [hm, LEB128_U32_size_eq_length, writeUint8]
    omega

theorem GlobalSection_size_eq_length (s : GlobalSection) :
    s.sizeOrThrow = s.writeOrThrow.length := by
  rw [GlobalSection.sizeOrThrow, GlobalSection.writeOrThrow,
    List.length_append, LEB128_U32_size_eq_length]
  congr 1
  refine sizeList_eq_length _ fun d _ => ?_
  simp [instrListSize_eq_length, writeUint8]
  omega

theorem ExportSection_size_eq_length (s : ExportSection) :
    s.sizeOrThrow = s.writeOrThrow.length := by
  rw [ExportSection.sizeOrThrow, ExportSection.writeOrThrow,
    List.length_append, LEB128_U32_size_eq_length]
  congr 1
  refine sizeList_eq_length _ fun d _ => ?_
  simp [LEB128_U32_size_eq_length, writeUint8]
  omega

theorem StartSection_size_eq_length (s : StartSection) :
    s.sizeOrThrow = s.writeOrThrow.length :=
  LEB128_U32_size_eq_length s.funcidx

theorem ElementSection_ElementSegment_size_eq_length
    (seg : ElementSection.ElementSegment) :
    seg.sizeOrThrow = seg.writeOrThrow.length := by
  cases seg with
  | flag0 instructions funcidxs =>
    simp [ElementSection.ElementSegment.sizeOrThrow,
      ElementSection.ElementSegment.writeOrThrow,
      instrListSize_eq_length, u32ListSize_eq_length, LEB128_U32_size_eq_length]
    omega
  | flag1 reftype elements =>
    simp [ElementSection.ElementSegment.sizeOrThrow,
      ElementSection.ElementSegment.writeOrThrow,
      constExprListSize_eq_length, LEB128_U32_size_eq_length, writeUint8]
    omega
  | flag2 tableidx instructions reftype elements =>
    simp [ElementSection.ElementSegment.sizeOrThrow,
      ElementSection.ElementSegment.writeOrThrow, instrListSize_eq_length,
      constExprListSize_eq_length, LEB128_U32_size_eq_length, writeUint8]
    omega
  | flag3 reftype elements =>
    simp [ElementSection.ElementSegment.sizeOrThrow,
      ElementSection.ElementSegment.writeOrThrow,
      constExprListSize_eq_length, LEB128_U32_size_eq_length, writeUint8]
    omega
  | flag4 instructions funcidxs =>
    simp [ElementSection.ElementSegment.sizeOrThrow,
      ElementSection.ElementSegment.writeOrThrow,
      instrListSize_eq_length, u32ListSize_eq_length, LEB128_U32_size_eq_length]
    omega
  | flag5 reftype funcidxs =>
    simp [ElementSection.ElementSegment.sizeOrThrow,
      ElementSection.ElementSegment.writeOrThrow,
      u32ListSize_eq_length, LEB128_U32_size_eq_length, writeUint8]
    omega
  | flag6 tableidx instructions reftype funcidxs =>
    simp [ElementSection.ElementSegment.sizeOrThrow,
      ElementSection.ElementSegment.writeOrThrow, instrListSize_eq_length,
      u32ListSize_eq_length, LEB128_U32_size_eq_length, writeUint8]
    omega
  | flag7 reftype funcidxs =>
    simp [ElementSection.ElementSegment.sizeOrThrow,
      ElementSection.ElementSegment.writeOrThrow,
      u32ListSize_eq_length, LEB128_U32_size_eq_length, writeUint8]
    omega

theorem ElementSection_size_eq_length (s : ElementSection) :
    s.sizeOrThrow = s.writeOrThrow.length := by
  rw [ElementSection.sizeOrThrow, ElementSection.writeOrThrow,
    List.length_append, LEB128_U32_size_eq_length]
  congr 1
  refine sizeList_eq_length _ fun seg _ => ?_
  simp [ElementSection_ElementSegment_size_eq_length seg, writeUint8]
  omega

theorem CodeSection_Local_size_eq_length (l : CodeSection.Local) :
    l.sizeOrThrow = l.writeOrThrow.length := by
  simp [CodeSection.Local.sizeOrThrow, CodeSection.Local.writeOrThrow,
    LEB128_U32_size_eq_length, writeUint8]

theorem localListSize_eq_length (xs : List CodeSection.Local) :
    sizeList CodeSection.Local.sizeOrThrow xs
      = (writeList CodeSection.Local.writeOrThrow xs).length :=
  sizeList_eq_length _ fun l _ => CodeSection_Local_size_eq_length l

theorem CodeSection_FunctionBody_size_eq_length
    (b : CodeSection.FunctionBody) :
    b.sizeOrThrow = b.writeOrThrow.length := by
  rw [CodeSection.FunctionBody.sizeOrThrow, CodeSection.FunctionBody.writeOrThrow]
  simp only [List.length_append]
  rw [LEB128_U32_size_eq_length b.subsize]
  have : b.subsize = (LEB128.U32.writeOrThrow b.locals.length).length
      + (writeList CodeSection.Local.writeOrThrow b.locals).length
      + (writeList Instruction.writeOrThrow b.instructions).length := by
    rw [CodeSection.FunctionBody.subsize, LEB128_U32_size_eq_length,
      localListSize_eq_length, instrListSize_eq_length]
  omega

theorem CodeSection_size_eq_length (s : CodeSection) :
    s.sizeOrThrow = s.writeOrThrow.length := by
  rw [CodeSection.sizeOrThrow, CodeSection.writeOrThrow,
    List.length_append, LEB128_U32_size_eq_length]
  congr 1
  exact sizeList_eq_length _ fun b _ => CodeSection_FunctionBody_size_eq_length b

theorem DataSection_DataSegment_size_eq_length
    (seg : DataSection.DataSegment) :
    seg.sizeOrThrow = seg.writeOrThrow.length := by
  cases seg with
  | flag0 instructions data =>
    simp [DataSection.DataSegment.sizeOrThrow,
      DataSection.DataSegment.writeOrThrow,
      instrListSize_eq_length, LEB128_U32_size_eq_length]
    omega
  | flag1 data =>
    simp [DataSection.DataSegment.sizeOrThrow,
      DataSection.DataSegment.writeOrThrow, LEB128_U32_size_eq_length]
  | flag2 memidx instructions data =>
    simp [DataSection.DataSegment.sizeOrThrow,
      DataSection.DataSegment.writeOrThrow,
      instrListSize_eq_length, LEB128_U32_size_eq_length]
    omega

theorem DataSection_size_eq_length (s : DataSection) :
    s.sizeOrThrow = s.writeOrThrow.length := by
  rw [DataSection.sizeOrThrow, DataSection.writeOrThrow,
    List.length_append, LEB128_U32_size_eq_length]
  congr 1
  refine sizeList_eq_length _ fun seg _ => ?_
  simp [DataSection_DataSegment_size_eq_length seg, writeUint8]
  omega

theorem DataCountSection_size_eq_length (s : DataCountSection) :
    s.sizeOrThrow = s.writeOrThrow.length :=
  LEB128_U32_size_eq_length s.count

theorem TagSection_size_eq_length (s : TagSection) :
    s.sizeOrThrow = s.writeOrThrow.length := by
  rw [TagSection.sizeOrThrow, TagSection.writeOrThrow,
    List.length_append, LEB128_U32_size_eq_length]
  congr 1
  refine sizeList_eq_length _ fun t _ => ?_
  simp [LEB128_U32_size_eq_length, writeUint8]
  omega

theorem Section_size_eq_length (s : Section) :
    s.sizeOrThrow = s.writeOrThrow.length := by
  cases s with
  | unknown s => exact UnknownSection_size_eq_length s
  | custom s => exact CustomSection_size_eq_length s
  | typeSec s => exact TypeSection_size_eq_length s
  | importSec s => exact ImportSection_size_eq_length s
  | functionSec s => exact FunctionSection_size_eq_length s
  | tableSec s => exact TableSection_size_eq_length s
  | memorySec s => exact MemorySection_size_eq_length s
  | globalSec s => exact GlobalSection_size_eq_length s
  | exportSec s => exact ExportSection_size_eq_length s
  | startSec s => exact StartSection_size_eq_length s
  | elementSec s => exact ElementSection_size_eq_length s
  | codeSec s => exact CodeSection_size_eq_length s
  | dataSec s => exact DataSection_size_eq_length s
  | dataCountSec s => exact DataCountSection_size_eq_length s
  | tagSec s => exact TagSection_size_eq_length s

theorem Body_size_eq_length (b : Body) :
    b.sizeOrThrow = b.writeOrThrow.length := by
  rw [Body.sizeOrThrow, Body.writeOrThrow]
  refine sizeList_eq_length _ fun s _ => ?_
  simp [LEB128_U32_size_eq_length, Section_size_eq_length, writeUint8]
  omega

theorem Head_size_eq_length (h : Head) :
    h.sizeOrThrow = h.writeOrThrow.length := rfl

theorem Module_size_eq_length (m : Module) :
    m.sizeOrThrow = m.writeOrThrow.length := by
  rw [Module.sizeOrThrow, Module.writeOrThrow, List.length_append,
    Head_size_eq_length, Body_size_eq_length]

/-! ## The `Body` frame loop: evaluation rules -/

theorem Body.readSectionsOrThrow_nil : Body.readSectionsOrThrow [] = .ok [] := by
  rw [Body.readSectionsOrThrow]
  rfl

theorem Body.readSectionsOrThrow_step {bs bs1 bs2 bs3 data : List Nat}
    {kind size : Nat} {s : Section} {sections : List Section}
    (hne : bs ≠ [])
    (h1 : readUint8 bs = .ok (kind, bs1))
    (h2 : LEB128.U32.readOrThrow bs1 = .ok (size, bs2))
    (h3 : readBytes size bs2 = .ok (data, bs3))
    (h4 : sectionReadDispatch kind data = .ok s)
    (h5 : Body.readSectionsOrThrow bs3 = .ok sections) :
    Body.readSectionsOrThrow bs = .ok (s :: sections) := by
  rw [Body.readSectionsOrThrow, if_neg (by simp [hne]), h1]
  simp only []
  rw [h2]
  simp only []
  rw [h3]
  simp only []
  rw [h4]
  simp only []
  rw [h5]

/-! ## Claims C3 and C6 -/

/-- C3: for every module, section and instruction, `sizeOrThrow` equals the
length of the byte list `writeOrThrow` produces, and the `U32` size prefix
`Body.writeOrThrow` emits for each section is exactly the length of that
section's payload bytes. -/
theorem size_equals_write_length :
    (∀ m : Module, m.sizeOrThrow = m.writeOrThrow.length)
    ∧ (∀ s : Section, s.sizeOrThrow = s.writeOrThrow.length)
    ∧ (∀ i : Instruction, i.sizeOrThrow = i.writeOrThrow.length)
    ∧ ∀ b : Body, b.writeOrThrow
        = writeList (fun s => writeUint8 s.kind
            ++ LEB128.U32.writeOrThrow s.writeOrThrow.length
            ++ s.writeOrThrow) b.sections := by
  refine ⟨Module_size_eq_length, Section_size_eq_length,
    Instruction_size_eq_length, fun b => ?_⟩
  rw [Body.writeOrThrow]
  exact writeList_congr _ fun s _ => by rw [Section_size_eq_length]

/-- C6: the 11-byte module `00 61 73 6D 01 00 00 00 08 01 03` decodes to a
module with exactly one section, a start section with `funcidx = 3`; the
same module with `funcidx` set to `0` encodes to
`00 61 73 6D 01 00 00 00 08 01 00`. -/
theorem start_section_decode_mutate_encode :
    Module.readOrThrow [0x00, 0x61, 0x73, 0x6D, 0x01, 0x00, 0x00, 0x00,
        0x08, 0x01, 0x03]
      = .ok ⟨⟨1⟩, ⟨[.startSec ⟨3⟩]⟩⟩
    ∧ Module.writeOrThrow ⟨⟨1⟩, ⟨[.startSec ⟨0⟩]⟩⟩
      = [0x00, 0x61, 0x73, 0x6D, 0x01, 0x00, 0x00, 0x00, 0x08, 0x01, 0x00] := by
  constructor
  · have h1 : readUint8 [0x08, 0x01, 0x03] = .ok (8, [0x01, 0x03]) := by decide
    have h2 : LEB128.U32.readOrThrow [0x01, 0x03] = .ok (1, [0x03]) := by
      decide
    have h3 : readBytes 1 [0x03] = .ok ([0x03], []) := by decide
    have h4 : sectionReadDispatch 8 [0x03] = .ok (.startSec ⟨3⟩) := by decide
    have hsec : Body.readSectionsOrThrow [0x08, 0x01, 0x03]
        = .ok [.startSec ⟨3⟩] :=
      Body.readSectionsOrThrow_step (by decide) h1 h2 h3 h4
        Body.readSectionsOrThrow_nil
    have hh : Head.readOrThrow [0x00, 0x61, 0x73, 0x6D, 0x01, 0x00, 0x00, 0x00,
        0x08, 0x01, 0x03] = .ok (⟨1⟩, [0x08, 0x01, 0x03]) := by decide
    have hb : Body.readOrThrow [0x08, 0x01, 0x03] = .ok ⟨[.startSec ⟨3⟩]⟩ := by
      simp only [Body.readOrThrow, hsec]
    simp only [Module.readOrThrow, hh, hb]
  · have e0 : LEB128.unsignedWrite 0 = [0] := by
      rw [LEB128.unsignedWrite, dif_neg (by decide)]
      decide
    have e1 : LEB128.unsignedWrite 1 = [1] := by
      rw [LEB128.unsignedWrite, dif_neg (by decide)]
      decide
    have es : LEB128.unsignedSize 0 = 1 := by
      rw [LEB128.unsignedSize, dif_neg (by decide)]
    simp [Module.writeOrThrow, Head.writeOrThrow, Body.writeOrThrow, writeList,
      Section.kind, Section.sizeOrThrow, Section.writeOrThrow,
      StartSection.sizeOrThrow, StartSection.writeOrThrow, StartSection.kindVal,
      LEB128.U32.sizeOrThrow, LEB128.U32.writeOrThrow, e0, e1, es,
      writeUint8, writeUint32LE]

/-! ## Constant-expression lists -/

/-- A list as produced by the constant-expression loop: nonempty, the last
instruction is `end` (`0x0B`), and no earlier instruction is `end`. -/
def EndTerminated (is : List Instruction) : Prop :=
  is ≠ [] ∧ ∃ init lastI, is = init ++ [lastI] ∧ lastI.opcode = 0x0b
    ∧ ∀ i ∈ init, i.opcode ≠ 0x0b

/-- Evaluation rule: a single `end` instruction finishes the loop. -/
theorem constExprRead_end {bs rest : List Nat} {i : Instruction}
    (h : Instruction.readOrThrow bs = .ok (i, rest)) (hop : i.opcode = 0x0b) :
    constExprReadOrThrow bs = .ok ([i], rest) := by
  rw [constExprReadOrThrow, h]
  simp only []
  rw [if_pos hop]

/-- Evaluation rule: a non-`end` instruction is prepended. -/
theorem constExprRead_cons {bs rest rest2 : List Nat} {i : Instruction}
    {is : List Instruction}
    (h : Instruction.readOrThrow bs = .ok (i, rest)) (hop : i.opcode ≠ 0x0b)
    (h2 : constExprReadOrThrow rest = .ok (is, rest2)) :
    constExprReadOrThrow bs = .ok (i :: is, rest2) := by
  rw [constExprReadOrThrow, h]
  simp only []
  rw [if_neg hop, h2]

theorem constExprRead_shape_aux :
    ∀ (n : Nat) (bs : List Nat), bs.length ≤ n →
      ∀ (is : List Instruction) (rest : List Nat),
        constExprReadOrThrow bs = .ok (is, rest) → EndTerminated is := by
  intro n
  induction n with
  | zero =>
    intro bs hlen is rest h
    rw [constExprReadOrThrow] at h
    split at h
    · exact absurd h (by simp)
    · next i bs' heq =>
      have := Instruction_read_length heq
      omega
  | succ n ih =>
    intro bs hlen is rest h
    rw [constExprReadOrThrow] at h
    split at h
    · exact absurd h (by simp)
    · next i bs' heq =>
      split at h
      · next hop =>
        simp only [Except.ok.injEq, Prod.mk.injEq] at h
        obtain ⟨rfl, rfl⟩ := h
        exact ⟨by simp, [], i, rfl, hop, by simp⟩
      · next hop =>
        split at h
        · exact absurd h (by simp)
        · next is' rest' heq2 =>
          simp only [Except.ok.injEq, Prod.mk.injEq] at h
          obtain ⟨rfl, rfl⟩ := h
          have hlt := Instruction_read_length heq
          obtain ⟨-, init, lastI, hsplit, hlast, hinit⟩ :=
            ih bs' (by omega) is' rest' heq2
          refine ⟨by simp, i :: init, lastI, by rw [hsplit]; rfl, hlast, ?_⟩
          intro j hj
          rcases List.mem_cons.mp hj with rfl | hj
          · exact hop
          · exact hinit j hj

/-- Every successful run of the constant-expression loop yields an
end-terminated list. -/
theorem constExprRead_shape (bs : List Nat) (is : List Instruction)
    (rest : List Nat) (h : constExprReadOrThrow bs = .ok (is, rest)) :
    EndTerminated is :=
  constExprRead_shape_aux bs.length bs le_rfl is rest h

/-- The constant-expression lists contained in an element segment: the offset
expression (flags 0, 2, 4, 6) and each element's init expression
(flags 1, 2, 3). -/
def ElementSection.ElementSegment.constExprs :
    ElementSection.ElementSegment → List (List Instruction)
  | .flag0 instructions _ => [instructions]
  | .flag1 _ elements => elements
  | .flag2 _ instructions _ elements => instructions :: elements
  | .flag3 _ elements => elements
  | .flag4 instructions _ => [instructions]
  | .flag5 _ _ => []
  | .flag6 _ instructions _ _ => [instructions]
  | .flag7 _ _ => []

/-- The constant-expression lists contained in a data segment: the offset
expression (flags 0, 2). -/
def DataSection.DataSegment.constExprs :
    DataSection.DataSegment → List (List Instruction)
  | .flag0 instructions _ => [instructions]
  | .flag1 _ => []
  | .flag2 _ instructions _ => [instructions]

theorem GlobalSection.readDescriptor_constExpr {bs : List Nat}
    {d : GlobalSection.GlobalDescriptor} {rest : List Nat}
    (h : GlobalSection.readDescriptor bs = .ok (d, rest)) :
    EndTerminated d.instructions := by
  rw [GlobalSection.readDescriptor] at h
  split at h
  · exact absurd h (by simp)
  · next valtype bs1 heq1 =>
    split at h
    · exact absurd h (by simp)
    · next m bs2 heq2 =>
      split at h
      · exact absurd h (by simp)
      · next instructions bs3 heq3 =>
        simp only [Except.ok.injEq, Prod.mk.injEq] at h
        obtain ⟨rfl, rfl⟩ := h
        exact constExprRead_shape _ _ _ heq3

theorem elements_constExpr {count : Nat} {bs : List Nat}
    {elements : List (List Instruction)} {rest : List Nat}
    (h : readCount constExprReadOrThrow count bs = .ok (elements, rest)) :
    ∀ l ∈ elements, EndTerminated l :=
  readCount_forall (fun bs x r hr => constExprRead_shape bs x r hr)
    count bs elements rest h

theorem ElementSection_readSegment_constExpr {bs : List Nat}
    {seg : ElementSection.ElementSegment} {rest : List Nat}
    (h : ElementSection.readSegment bs = .ok (seg, rest)) :
    ∀ l ∈ seg.constExprs, EndTerminated l := by
  rw [ElementSection.readSegment] at h
  split at h
  · exact absurd h (by simp)
  · next flag bs0 heq0 =>
    split_ifs at h with f0 f1 f2 f3 f4 f5 f6 f7
    · -- flag 0
      split at h
      · exact absurd h (by simp)
      · next instructions bs1 heqC =>
        split at h
        · exact absurd h (by simp)
        · next count bs2 heq2 =>
          split at h
          · exact absurd h (by simp)
          · next funcidxs bs3 heq3 =>
            simp only [Except.ok.injEq, Prod.mk.injEq] at h
            obtain ⟨rfl, rfl⟩ := h
            simp only [ElementSection.ElementSegment.constExprs,
              List.mem_singleton]
            rintro l rfl
            exact constExprRead_shape _ _ _ heqC
    · -- flag 1
      split at h
      · exact absurd h (by simp)
      · next reftype bs1 heq1 =>
        split at h
        · exact absurd h (by simp)
        · next count bs2 heq2 =>
          split at h
          · exact absurd h (by simp)
          · next elements bs3 heq3 =>
            simp only [Except.ok.injEq, Prod.mk.injEq] at h
            obtain ⟨rfl, rfl⟩ := h
            simpa only [ElementSection.ElementSegment.constExprs]
              using elements_constExpr heq3
    · -- flag 2
      split at h
      · exact absurd h (by simp)
      · next tableidx bs1 heq1 =>
        split at h
        · exact absurd h (by simp)
        · next instructions bs2 heqC =>
          split at h
          · exact absurd h (by simp)
          · next reftype bs3 heq3 =>
            split at h
            · exact absurd h (by simp)
            · next count bs4 heq4 =>
              split at h
              · exact absurd h (by simp)
              · next elements bs5 heq5 =>
                simp only [Except.ok.injEq, Prod.mk.injEq] at h
                obtain ⟨rfl, rfl⟩ := h
                simp only [ElementSection.ElementSegment.constExprs,
                  List.mem_cons]
                rintro l (rfl | hl)
                · exact constExprRead_shape _ _ _ heqC
                · exact elements_constExpr heq5 l hl
    · -- flag 3
      split at h
      · exact absurd h (by simp)
      · next reftype bs1 heq1 =>
        split at h
        · exact absurd h (by simp)
        · next count bs2 heq2 =>
          split at h
          · exact absurd h (by simp)
          · next elements bs3 heq3 =>
            simp only [Except.ok.injEq, Prod.mk.injEq] at h
            obtain ⟨rfl, rfl⟩ := h
            simpa only [ElementSection.ElementSegment.constExprs]
              using elements_constExpr heq3
    · -- flag 4
      split at h
      · exact absurd h (by simp)
      · next instructions bs1 heqC =>
        split at h
        · exact absurd h (by simp)
        · next count bs2 heq2 =>
          split at h
          · exact absurd h (by simp)
          · next funcidxs bs3 heq3 =>
            simp only [Except.ok.injEq, Prod.mk.injEq] at h
            obtain ⟨rfl, rfl⟩ := h
            simp only [ElementSection.ElementSegment.constExprs,
              List.mem_singleton]
            rintro l rfl
            exact constExprRead_shape _ _ _ heqC
    · -- flag 5
      split at h
      · exact absurd h (by simp)
      · next reftype bs1 heq1 =>
        split at h
        · exact absurd h (by simp)
        · next count bs2 heq2 =>
          split at h
          · exact absurd h (by simp)
          · next funcidxs bs3 heq3 =>
            simp only [Except.ok.injEq, Prod.mk.injEq] at h
            obtain ⟨rfl, rfl⟩ := h
            simp [ElementSection.ElementSegment.constExprs]
    · -- flag 6
      split at h
      · exact absurd h (by simp)
      · next tableidx bs1 heq1 =>
        split at h
        · exact absurd h (by simp)
        · next instructions bs2 heqC =>
          split at h
          · exact absurd h (by simp)
          · next reftype bs3 heq3 =>
            split at h
            · exact absurd h (by simp)
            · next count bs4 heq4 =>
              split at h
              · exact absurd h (by simp)
              · next funcidxs bs5 heq5 =>
                simp only [Except.ok.injEq, Prod.mk.injEq] at h
                obtain ⟨rfl, rfl⟩ := h
                simp only [ElementSection.ElementSegment.constExprs,
                  List.mem_singleton]
                rintro l rfl
                exact constExprRead_shape _ _ _ heqC
    · -- flag 7
      split at h
      · exact absurd h (by simp)
      · next reftype bs1 heq1 =>
        split at h
        · exact absurd h (by simp)
        · next count bs2 heq2 =>
          split at h
          · exact absurd h (by simp)
          · next funcidxs bs3 heq3 =>
            simp only [Except.ok.injEq, Prod.mk.injEq] at h
            obtain ⟨rfl, rfl⟩ := h
            simp [ElementSection.ElementSegment.constExprs]

theorem DataSection_readSegment_constExpr {bs : List Nat}
    {seg : DataSection.DataSegment} {rest : List Nat}
    (h : DataSection.readSegment bs = .ok (seg, rest)) :
    ∀ l ∈ seg.constExprs, EndTerminated l := by
  rw [DataSection.readSegment] at h
  split at h
  · exact absurd h (by simp)
  · next flag bs0 heq0 =>
    split_ifs at h with f0 f1 f2
    · -- flag 0
      split at h
      · exact absurd h (by simp)
      · next instructions bs1 heqC =>
        split at h
        · exact absurd h (by simp)
        · next len bs2 heq2 =>
          split at h
          · exact absurd h (by simp)
          · next data bs3 heq3 =>
            simp only [Except.ok.injEq, Prod.mk.injEq] at h
            obtain ⟨rfl, rfl⟩ := h
            simp only [DataSection.DataSegment.constExprs,
              List.mem_singleton]
            rintro l rfl
            exact constExprRead_shape _ _ _ heqC
    · -- flag 1
      split at h
      · exact absurd h (by simp)
      · next len bs1 heq1 =>
        split at h
        · exact absurd h (by simp)
        · next data bs2 heq2 =>
          simp only [Except.ok.injEq, Prod.mk.injEq] at h
          obtain ⟨rfl, rfl⟩ := h
          simp [DataSection.DataSegment.constExprs]
    · -- flag 2
      split at h
      · exact absurd h (by simp)
      · next memidx bs1 heq1 =>
        split at h
        · exact absurd h (by simp)
        · next instructions bs2 heqC =>
          split at h
          · exact absurd h (by simp)
          · next len bs3 heq3 =>
            split at h
            · exact absurd h (by simp)
            · next data bs4 heq4 =>
              simp only [Except.ok.injEq, Prod.mk.injEq] at h
              obtain ⟨rfl, rfl⟩ := h
              simp only [DataSection.DataSegment.constExprs,
                List.mem_singleton]
              rintro l rfl
              exact constExprRead_shape _ _ _ heqC

/-- C7: the constant-expression loop shared by the global, element and data
section readers reads single instructions until an `end` (`0x0B`), so every
decoded constant-expression list — a global's init, an element segment's
offset and element inits, a data segment's offset — is nonempty, ends with
opcode `0x0B`, and contains no earlier `0x0B`. -/
theorem const_expr_lists_end_terminated :
    (∀ (bs : List Nat) (is : List Instruction) (rest : List Nat),
        constExprReadOrThrow bs = .ok (is, rest) → EndTerminated is)
    ∧ (∀ (bs : List Nat) (d : GlobalSection.GlobalDescriptor) (rest : List Nat),
        GlobalSection.readDescriptor bs = .ok (d, rest) →
          EndTerminated d.instructions)
    ∧ (∀ (bs : List Nat) (seg : ElementSection.ElementSegment)
          (rest : List Nat),
        ElementSection.readSegment bs = .ok (seg, rest) →
          ∀ l ∈ seg.constExprs, EndTerminated l)
    ∧ (∀ (bs : List Nat) (seg : DataSection.DataSegment) (rest : List Nat),
        DataSection.readSegment bs = .ok (seg, rest) →
          ∀ l ∈ seg.constExprs, EndTerminated l) :=
  ⟨constExprRead_shape,
    fun _ _ _ h => GlobalSection.readDescriptor_constExpr h,
    fun _ _ _ h => ElementSection_readSegment_constExpr h,
    fun _ _ _ h => DataSection_readSegment_constExpr h⟩

/-- Witness for C7 at a concrete input: `i32.const 7; end`. -/
theorem const_expr_lists_end_terminated_witness :
    constExprReadOrThrow [0x41, 0x07, 0x0b]
      = .ok ([⟨0x41, [.i32 7]⟩, ⟨0x0b, []⟩], [])
    ∧ EndTerminated [⟨0x41, [.i32 7]⟩, ⟨0x0b, []⟩] := by
  have h1 : Instruction.readOrThrow [0x41, 0x07, 0x0b]
      = .ok (⟨0x41, [.i32 7]⟩, [0x0b]) := by decide
  have h2 : Instruction.readOrThrow [0x0b] = .ok (⟨0x0b, []⟩, []) := by decide
  have hc : constExprReadOrThrow [0x41, 0x07, 0x0b]
      = .ok ([⟨0x41, [.i32 7]⟩, ⟨0x0b, []⟩], []) :=
    constExprRead_cons h1 (by decide) (constExprRead_end h2 rfl)
  exact ⟨hc, const_expr_lists_end_terminated.1 _ _ _ hc⟩

/-! ## Claim C8 -/

/-- C8: a section frame whose kind byte is none of the fourteen known kinds
(`0x00`–`0x0D`) decodes to an `UnknownSection` keeping the kind byte and the
payload verbatim, and writing it back emits the same kind byte, the payload
length as `U32` size prefix, and the identical payload. -/
theorem unknown_sections_roundtrip (kind : Nat) (data rest : List Nat)
    (sections : List Section)
    (h1 : 0x0D < kind) (h2 : kind < 256) (h3 : data.length < 2 ^ 32)
    (h5 : Body.readSectionsOrThrow rest = .ok sections) :
    Body.readSectionsOrThrow
        (writeUint8 kind ++ LEB128.U32.writeOrThrow data.length ++ data ++ rest)
      = .ok (.unknown ⟨kind, data⟩ :: sections)
    ∧ writeUint8 (Section.kind (.unknown ⟨kind, data⟩))
        ++ LEB128.U32.writeOrThrow (Section.sizeOrThrow (.unknown ⟨kind, data⟩))
        ++ Section.writeOrThrow (.unknown ⟨kind, data⟩)
      = writeUint8 kind ++ LEB128.U32.writeOrThrow data.length ++ data := by
  have hd : sectionReadDispatch kind data = .ok (.unknown ⟨kind, data⟩) := by
    rw [sectionReadDispatch]
    rw [if_neg (by rw [CustomSection.kindVal]; omega),
      if_neg (by rw [TypeSection.kindVal]; omega),
      if_neg (by rw [ImportSection.kindVal]; omega),
      if_neg (by rw [FunctionSection.kindVal]; omega),
      if_neg (by rw [TableSection.kindVal]; omega),
      if_neg (by rw [MemorySection.kindVal]; omega),
      if_neg (by rw [GlobalSection.kindVal]; omega),
      if_neg (by rw [ExportSection.kindVal]; omega),
      if_neg (by rw [StartSection.kindVal]; omega),
      if_neg (by rw [ElementSection.kindVal]; omega),
      if_neg (by rw [CodeSection.kindVal]; omega),
      if_neg (by rw [DataSection.kindVal]; omega),
      if_neg (by rw [DataCountSection.kindVal]; omega),
      if_neg (by rw [TagSection.kindVal]; omega)]
  have hmod : kind % 256 = kind := Nat.mod_eq_of_lt h2
  have hrw : writeUint8 kind ++ LEB128.U32.writeOrThrow data.length
        ++ data ++ rest
      = kind :: (LEB128.U32.writeOrThrow data.length ++ (data ++ rest)) := by
    simp [writeUint8, hmod]
  refine ⟨?_, ?_⟩
  · rw [hrw]
    exact Body.readSectionsOrThrow_step (by simp) rfl
      (LEB128.U32_read_write h3 (data ++ rest)) (readBytes_append data rest)
      hd h5
  · simp [Section.kind, Section.sizeOrThrow, Section.writeOrThrow,
      UnknownSection.sizeOrThrow, UnknownSection.writeOrThrow]

/-- Witness for C8 at `kind = 0x0E`, payload `[7, 9]`. -/
theorem unknown_sections_roundtrip_witness :
    Body.readSectionsOrThrow
        (writeUint8 0x0E ++ LEB128.U32.writeOrThrow 2 ++ [7, 9] ++ [])
      = .ok [.unknown ⟨0x0E, [7, 9]⟩]
    ∧ writeUint8 (Section.kind (.unknown ⟨0x0E, [7, 9]⟩))
        ++ LEB128.U32.writeOrThrow (Section.sizeOrThrow (.unknown ⟨0x0E, [7, 9]⟩))
        ++ Section.writeOrThrow (.unknown ⟨0x0E, [7, 9]⟩)
      = writeUint8 0x0E ++ LEB128.U32.writeOrThrow 2 ++ [7, 9] :=
  unknown_sections_roundtrip 0x0E [7, 9] [] [] (by decide) (by decide)
    (by decide) Body.readSectionsOrThrow_nil

/-! ## Well-formedness

A constructed value round-trips through write/read when its integer fields
fit the widths the writers emit (`Uint8Array` stores truncate mod 256, the
`U32` writer is exact only below `2^32`), optional maxima agree with their
flag bit, constant expressions are end-terminated, and unknown section kinds
avoid the fourteen dispatched kinds. -/

def byteOk (v : Nat) : Bool := decide (v < 256)

def u32Ok (v : Nat) : Bool := decide (v < 2 ^ 32)

def lenOk (xs : List α) : Bool := decide (xs.length < 2 ^ 32)

/-- A limits maximum agrees with bit 0 of its flag byte. -/
def maxOk (flag : Nat) : Option Nat → Bool
  | some m => decide (flag &&& 1 ≠ 0) && u32Ok m
  | none => decide (flag &&& 1 = 0)

/-- A writable constant-expression list: instructions valid, exactly the
last one an `end` (`0x0B`). -/
def constExprOk : List Instruction → Bool
  | [] => false
  | [i] => decide (i.opcode = 0x0b) && instrOk i
  | i :: rest => decide (i.opcode ≠ 0x0b) && instrOk i && constExprOk rest

def UnknownSection.wf (s : UnknownSection) : Bool :=
  decide (0x0D < s.kind) && byteOk s.kind

def CustomSection.wf (s : CustomSection) : Bool := lenOk s.name

def TypeSection.FuncType.wf (b : TypeSection.FuncType) : Bool :=
  lenOk b.params && b.params.all byteOk
    && lenOk b.results && b.results.all byteOk

def TypeSection.StructType.wf (b : TypeSection.StructType) : Bool :=
  lenOk b.fields && b.fields.all fun f => byteOk f.1

def TypeSection.ArrayType.wf (b : TypeSection.ArrayType) : Bool :=
  byteOk b.valtype

def TypeSection.TypeBody.wf : TypeSection.TypeBody → Bool
  | .funcType b => b.wf
  | .structType b => b.wf
  | .arrayType b => b.wf

def TypeSection.TypeDescriptor.wf (d : TypeSection.TypeDescriptor) : Bool :=
  byteOk d.pfx && d.body.wf
    && (if d.pfx = TypeSection.FuncType.kindVal then
          (match d.body with | .funcType _ => true | _ => false)
            && decide (d.subtypes = [])
        else if d.pfx = 0x4E ∨ d.pfx = 0x4D then
          lenOk d.subtypes && d.subtypes.all u32Ok
        else decide (d.subtypes = []))

def TypeSection.wf (s : TypeSection) : Bool :=
  lenOk s.descriptors && s.descriptors.all TypeSection.TypeDescriptor.wf

def ImportSection.FunctionImport.wf (b : ImportSection.FunctionImport) : Bool :=
  u32Ok b.typeidx

def ImportSection.TableImport.wf (b : ImportSection.TableImport) : Bool :=
  byteOk b.reftype && byteOk b.flag && u32Ok b.min && maxOk b.flag b.max

def ImportSection.MemoryImport.wf (b : ImportSection.MemoryImport) : Bool :=
  byteOk b.flag && u32Ok b.min && maxOk b.flag b.max

def ImportSection.GlobalImport.wf (b : ImportSection.GlobalImport) : Bool :=
  byteOk b.valtype && byteOk b.mutable

def ImportSection.ImportBody.wf : ImportSection.ImportBody → Bool
  | .functionImport b => b.wf
  | .tableImport b => b.wf
  | .memoryImport b => b.wf
  | .globalImport b => b.wf

def ImportSection.ImportDescriptor.wf
    (d : ImportSection.ImportDescriptor) : Bool :=
  lenOk d.from_ && lenOk d.name && d.body.wf

def ImportSection.wf (s : ImportSection) : Bool :=
  lenOk s.descriptors && s.descriptors.all ImportSection.ImportDescriptor.wf

def FunctionSection.wf (s : FunctionSection) : Bool :=
  lenOk s.typeidxs && s.typeidxs.all u32Ok

def TableSection.TableDescriptor.wf (d : TableSection.TableDescriptor) : Bool :=
  byteOk d.reftype && byteOk d.flag && u32Ok d.min && maxOk d.flag d.max

def TableSection.wf (s : TableSection) : Bool :=
  lenOk s.descriptors && s.descriptors.all TableSection.TableDescriptor.wf

def MemorySection.MemoryDescriptor.wf
    (d : MemorySection.MemoryDescriptor) : Bool :=
  byteOk d.flag && u32Ok d.min && maxOk d.flag d.max

def MemorySection.wf (s : MemorySection) : Bool :=
  lenOk s.descriptors && s.descriptors.all MemorySection.MemoryDescriptor.wf

def GlobalSection.GlobalDescriptor.wf
    (d : GlobalSection.GlobalDescriptor) : Bool :=
  byteOk d.valtype && byteOk d.mutable && constExprOk d.instructions

def GlobalSection.wf (s : GlobalSection) : Bool :=
  lenOk s.descriptors && s.descriptors.all GlobalSection.GlobalDescriptor.wf

def ExportSection.ExportDescriptor.wf
    (d : ExportSection.ExportDescriptor) : Bool :=
  lenOk d.name && byteOk d.kind && u32Ok d.xidx

def ExportSection.wf (s : ExportSection) : Bool :=
  lenOk s.descriptors && s.descriptors.all ExportSection.ExportDescriptor.wf

def StartSection.wf (s : StartSection) : Bool := u32Ok s.funcidx

def ElementSection.ElementSegment.wf : ElementSection.ElementSegment → Bool
  | .flag0 instructions funcidxs =>
    constExprOk instructions && lenOk funcidxs && funcidxs.all u32Ok
  | .flag1 reftype elements =>
    byteOk reftype && lenOk elements && elements.all constExprOk
  | .flag2 tableidx instructions reftype elements =>
    u32Ok tableidx && constExprOk instructions && byteOk reftype
      && lenOk elements && elements.all constExprOk
  | .flag3 reftype elements =>
    byteOk reftype && lenOk elements && elements.all constExprOk
  | .flag4 instructions funcidxs =>
    constExprOk instructions && lenOk funcidxs && funcidxs.all u32Ok
  | .flag5 reftype funcidxs =>
    byteOk reftype && lenOk funcidxs && funcidxs.all u32Ok
  | .flag6 tableidx instructions reftype funcidxs =>
    u32Ok tableidx && constExprOk instructions && byteOk reftype
      && lenOk funcidxs && funcidxs.all u32Ok
  | .flag7 reftype funcidxs =>
    byteOk reftype && lenOk funcidxs && funcidxs.all u32Ok

def ElementSection.wf (s : ElementSection) : Bool :=
  lenOk s.segments && s.segments.all ElementSection.ElementSegment.wf

def CodeSection.Local.wf (l : CodeSection.Local) : Bool :=
  u32Ok l.count && byteOk l.valtype

def CodeSection.FunctionBody.wf (b : CodeSection.FunctionBody) : Bool :=
  u32Ok b.subsize && lenOk b.locals && b.locals.all CodeSection.Local.wf
    && b.instructions.all instrOk

def CodeSection.wf (s : CodeSection) : Bool :=
  lenOk s.bodies && s.bodies.all CodeSection.FunctionBody.wf

def DataSection.DataSegment.wf : DataSection.DataSegment → Bool
  | .flag0 instructions data => constExprOk instructions && lenOk data
  | .flag1 data => lenOk data
  | .flag2 memidx instructions data =>
    u32Ok memidx && constExprOk instructions && lenOk data

def DataSection.wf (s : DataSection) : Bool :=
  lenOk s.segments && s.segments.all DataSection.DataSegment.wf

def DataCountSection.wf (s : DataCountSection) : Bool := u32Ok s.count

def TagSection.wf (s : TagSection) : Bool :=
  lenOk s.tags && s.tags.all fun t => byteOk t.1 && u32Ok t.2

def Section.wf : Section → Bool
  | .unknown s => s.wf
  | .custom s => s.wf
  | .typeSec s => s.wf
  | .importSec s => s.wf
  | .functionSec s => s.wf
  | .tableSec s => s.wf
  | .memorySec s => s.wf
  | .globalSec s => s.wf
  | .exportSec s => s.wf
  | .startSec s => s.wf
  | .elementSec s => s.wf
  | .codeSec s => s.wf
  | .dataSec s => s.wf
  | .dataCountSec s => s.wf
  | .tagSec s => s.wf

def Body.wf (b : Body) : Bool :=
  b.sections.all fun s => Section.wf s && u32Ok s.sizeOrThrow

def Module.wf (m : Module) : Bool :=
  decide (m.head.version = 1) && Body.wf m.body

/-! ## Round trips of the primitive readers -/

theorem readUint8_write {v : Nat} (h : v < 256) (r : List Nat) :
    readUint8 (writeUint8 v ++ r) = .ok (v, r) := by
  simp [writeUint8, readUint8, Nat.mod_eq_of_lt h]

theorem readUint32LE_write {v : Nat} (h : v < 2 ^ 32) (r : List Nat) :
    readUint32LE (writeUint32LE v ++ r) = .ok (v, r) := by
  have e : writeUint32LE v ++ r = v % 256 :: (v / 256 % 256)
      :: (v / 65536 % 256) :: (v / 16777216 % 256) :: r := rfl
  rw [e]
  simp only [readUint32LE, Except.ok.injEq, Prod.mk.injEq, and_true]
  omega

theorem readU32Value_write {v : Nat} (h : v < 2 ^ 32) (r : List Nat) :
    readU32Value (LEB128.U32.writeOrThrow v ++ r) = .ok (v, r) :=
  LEB128.U32_read_write h r

/-- A written constant expression reads back as itself. -/
theorem constExprRead_writeList {is : List Instruction}
    (h : constExprOk is = true) (r : List Nat) :
    constExprReadOrThrow (writeList Instruction.writeOrThrow is ++ r)
      = .ok (is, r) := by
  induction is generalizing r with
  | nil => simp [constExprOk] at h
  | cons i rest ih =>
    cases rest with
    | nil =>
      simp only [constExprOk, Bool.and_eq_true, decide_eq_true_eq] at h
      obtain ⟨hop, hok⟩ := h
      simp only [writeList, List.append_nil]
      exact constExprRead_end (Instruction_read_write i hok r) hop
    | cons j rest' =>
      simp only [constExprOk, Bool.and_eq_true, decide_eq_true_eq] at h
      obtain ⟨⟨hop, hok⟩, hrest⟩ := h
      rw [writeList, List.append_assoc]
      exact constExprRead_cons (Instruction_read_write i hok _) hop (ih hrest r)

/-- A written instruction sequence reads back in full from an exact slice. -/
theorem readInstrsToEnd_writeList {is : List Instruction}
    (h : ∀ i ∈ is, instrOk i = true) :
    readInstrsToEndOrThrow (writeList Instruction.writeOrThrow is)
      = .ok is := by
  induction is with
  | nil =>
    rw [writeList, readInstrsToEndOrThrow]
    rfl
  | cons i rest ih =>
    rw [writeList, readInstrsToEndOrThrow,
      if_neg (by simp [Instruction.writeOrThrow, writeUint8]),
      Instruction_read_write i (h i (List.mem_cons_self _ _))]
    simp only []
    rw [ih fun j hj => h j (List.mem_cons_of_mem _ hj)]

/-! ## Round trips of the section readers -/

theorem readBytes_exact (xs : List Nat) :
    readBytes xs.length xs = .ok (xs, []) := by
  simpa using readBytes_append xs []

theorem CustomSection_read_write {s : CustomSection} (h : s.wf = true) :
    CustomSection.readOrThrow (CustomSection.writeOrThrow s) = .ok (s, []) := by
  simp only [CustomSection.wf, lenOk, decide_eq_true_eq] at h
  rw [CustomSection.writeOrThrow]
  simp only [List.append_assoc]
  rw [CustomSection.readOrThrow, LEB128.U32_read_write h]
  simp only []
  rw [readBytes_append]
  simp only []
  rw [readBytes_exact]

theorem StartSection_read_write {s : StartSection} (h : s.wf = true)
    (r : List Nat) :
    StartSection.readOrThrow (StartSection.writeOrThrow s ++ r) = .ok (s, r) := by
  simp only [StartSection.wf, u32Ok, decide_eq_true_eq] at h
  rw [StartSection.writeOrThrow, StartSection.readOrThrow,
    LEB128.U32_read_write h]

theorem DataCountSection_read_write {s : DataCountSection} (h : s.wf = true)
    (r : List Nat) :
    DataCountSection.readOrThrow (DataCountSection.writeOrThrow s ++ r)
      = .ok (s, r) := by
  simp only [DataCountSection.wf, u32Ok, decide_eq_true_eq] at h
  rw [DataCountSection.writeOrThrow, DataCountSection.readOrThrow,
    LEB128.U32_read_write h]

theorem FunctionSection_read_write {s : FunctionSection} (h : s.wf = true)
    (r : List Nat) :
    FunctionSection.readOrThrow (FunctionSection.writeOrThrow s ++ r)
      = .ok (s, r) := by
  simp only [FunctionSection.wf, Bool.and_eq_true, lenOk, u32Ok,
    decide_eq_true_eq, List.all_eq_true] at h
  obtain ⟨hlen, hall⟩ := h
  rw [FunctionSection.writeOrThrow]
  simp only [List.append_assoc]
  rw [FunctionSection.readOrThrow, LEB128.U32_read_write hlen]
  simp only []
  rw [readCount_writeList s.typeidxs r
    fun x hx r' => readU32Value_write (hall x hx) r']

theorem TagSection.readTag_write {t : Nat × Nat}
    (h1 : t.1 < 256) (h2 : t.2 < 2 ^ 32) (r : List Nat) :
    TagSection.readTag (writeUint8 t.1 ++ LEB128.U32.writeOrThrow t.2 ++ r)
      = .ok (t, r) := by
  simp only [List.append_assoc]
  rw [TagSection.readTag, readUint8_write h1]
  simp only []
  rw [LEB128.U32_read_write h2]

theorem TagSection_read_write {s : TagSection} (h : s.wf = true)
    (r : List Nat) :
    TagSection.readOrThrow (TagSection.writeOrThrow s ++ r) = .ok (s, r) := by
  simp only [TagSection.wf, Bool.and_eq_true, lenOk, byteOk, u32Ok,
    decide_eq_true_eq, List.all_eq_true] at h
  obtain ⟨hlen, hall⟩ := h
  rw [TagSection.writeOrThrow]
  simp only [List.append_assoc]
  rw [TagSection.readOrThrow, LEB128.U32_read_write hlen]
  simp only []
  rw [readCount_writeList s.tags r fun t ht r' =>
    TagSection.readTag_write (hall t ht).1 (hall t ht).2 r']

theorem TypeSection_FuncType_read_write {b : TypeSection.FuncType}
    (h : b.wf = true) (r : List Nat) :
    TypeSection.FuncType.readOrThrow (b.writeOrThrow ++ r) = .ok (b, r) := by
  simp only [TypeSection.FuncType.wf, Bool.and_eq_true, lenOk, byteOk,
    decide_eq_true_eq, List.all_eq_true] at h
  obtain ⟨⟨⟨hp, hpa⟩, hq⟩, hqa⟩ := h
  rw [TypeSection.FuncType.writeOrThrow]
  simp only [List.append_assoc]
  rw [TypeSection.FuncType.readOrThrow, LEB128.U32_read_write hp]
  simp only []
  rw [readCount_writeList b.params _
    fun x hx r' => readUint8_write (hpa x hx) r']
  simp only []
  rw [LEB128.U32_read_write hq]
  simp only []
  rw [readCount_writeList b.results r
    fun x hx r' => readUint8_write (hqa x hx) r']

theorem TypeSection.StructType.readField_write {f : Nat × Bool}
    (h : f.1 < 256) (r : List Nat) :
    TypeSection.StructType.readField
        (writeUint8 f.1 ++ writeUint8 (if f.2 then 1 else 0) ++ r)
      = .ok (f, r) := by
  obtain ⟨v, m⟩ := f
  simp only [List.append_assoc]
  rw [TypeSection.StructType.readField, readUint8_write h]
  simp only []
  rw [readUint8_write (show (if m then 1 else 0) < 256 by cases m <;> decide)]
  cases m <;> rfl

theorem TypeSection_StructType_read_write {b : TypeSection.StructType}
    (h : b.wf = true) (r : List Nat) :
    TypeSection.StructType.readOrThrow (b.writeOrThrow ++ r) = .ok (b, r) := by
  simp only [TypeSection.StructType.wf, Bool.and_eq_true, lenOk, byteOk,
    decide_eq_true_eq, List.all_eq_true] at h
  obtain ⟨hlen, hall⟩ := h
  rw [TypeSection.StructType.writeOrThrow]
  simp only [List.append_assoc]
  rw [TypeSection.StructType.readOrThrow, LEB128.U32_read_write hlen]
  simp only []
  rw [readCount_writeList b.fields r
    fun f hf r' => TypeSection.StructType.readField_write (hall f hf) r']

theorem TypeSection_ArrayType_read_write {b : TypeSection.ArrayType}
    (h : b.wf = true) (r : List Nat) :
    TypeSection.ArrayType.readOrThrow (b.writeOrThrow ++ r) = .ok (b, r) := by
  obtain ⟨v, m⟩ := b
  simp only [TypeSection.ArrayType.wf, byteOk, decide_eq_true_eq] at h
  rw [TypeSection.ArrayType.writeOrThrow]
  simp only [List.append_assoc]
  rw [TypeSection.ArrayType.readOrThrow, readUint8_write h]
  simp only []
  rw [readUint8_write (show (if m then 1 else 0) < 256 by cases m <;> decide)]
  cases m <;> rfl

theorem TypeSection_readDescriptor_write {d : TypeSection.TypeDescriptor}
    (h : d.wf = true) (r : List Nat) :
    TypeSection.readDescriptor
        ((writeUint8 d.pfx
          ++ (if d.pfx = TypeSection.FuncType.kindVal then d.body.writeOrThrow
            else
              (if d.pfx = 0x4E ∨ d.pfx = 0x4D then
                LEB128.U32.writeOrThrow d.subtypes.length
                  ++ writeList LEB128.U32.writeOrThrow d.subtypes
              else [])
              ++ writeUint8 d.body.kind ++ d.body.writeOrThrow)) ++ r)
      = .ok (d, r) := by
  obtain ⟨pfx, subtypes, body⟩ := d
  simp only [TypeSection.TypeDescriptor.wf, Bool.and_eq_true, byteOk,
    decide_eq_true_eq] at h
  obtain ⟨⟨hpfx, hbody⟩, hcond⟩ := h
  simp only [TypeSection.TypeBody.wf] at hbody
  by_cases h60 : pfx = TypeSection.FuncType.kindVal
  · rw [if_pos h60] at hcond
    simp only [if_pos h60, Bool.and_eq_true, decide_eq_true_eq] at hcond ⊢
    obtain ⟨hfun, hsub⟩ := hcond
    cases body with
    | funcType fb =>
      subst hsub
      simp only [TypeSection.TypeBody.writeOrThrow, List.append_assoc]
      rw [TypeSection.readDescriptor, readUint8_write hpfx]
      simp only []
      rw [if_pos h60, TypeSection_FuncType_read_write hbody]
    | structType sb => simp at hfun
    | arrayType ab => simp at hfun
  · rw [if_neg h60] at hcond
    simp only [if_neg h60]
    by_cases h4e : pfx = 0x4E ∨ pfx = 0x4D
    · rw [if_pos h4e] at hcond
      simp only [if_pos h4e, Bool.and_eq_true, lenOk, u32Ok, decide_eq_true_eq,
        List.all_eq_true] at hcond
      obtain ⟨hslen, hsall⟩ := hcond
      cases body with
      | funcType fb =>
        simp only [TypeSection.TypeBody.writeOrThrow,
          TypeSection.TypeBody.kind, List.append_assoc]
        rw [TypeSection.readDescriptor, readUint8_write hpfx]
        simp only []
        simp only [if_neg h60, if_pos h4e, List.append_assoc]
        rw [LEB128.U32_read_write hslen]
        simp only []
        rw [readCount_writeList subtypes _
          fun x hx r' => LEB128.U32_read_write (hsall x hx) r']
        simp only []
        rw [readUint8_write (show TypeSection.FuncType.kindVal < 256
          by decide)]
        simp only []
        rw [if_pos True.intro, TypeSection_FuncType_read_write hbody]
      | structType sb =>
        simp only [TypeSection.TypeBody.writeOrThrow,
          TypeSection.TypeBody.kind, List.append_assoc]
        rw [TypeSection.readDescriptor, readUint8_write hpfx]
        simp only []
        simp only [if_neg h60, if_pos h4e, List.append_assoc]
        rw [LEB128.U32_read_write hslen]
        simp only []
        rw [readCount_writeList subtypes _
          fun x hx r' => LEB128.U32_read_write (hsall x hx) r']
        simp only []
        rw [readUint8_write (show TypeSection.StructType.kindVal < 256
          by decide)]
        simp only []
        rw [if_neg (by decide), if_pos True.intro,
          TypeSection_StructType_read_write hbody]
      | arrayType ab =>
        simp only [TypeSection.TypeBody.writeOrThrow,
          TypeSection.TypeBody.kind, List.append_assoc]
        rw [TypeSection.readDescriptor, readUint8_write hpfx]
        simp only []
        simp only [if_neg h60, if_pos h4e, List.append_assoc]
        rw [LEB128.U32_read_write hslen]
        simp only []
        rw [readCount_writeList subtypes _
          fun x hx r' => LEB128.U32_read_write (hsall x hx) r']
        simp only []
        rw [readUint8_write (show TypeSection.ArrayType.kindVal < 256
          by decide)]
        simp only []
        rw [if_neg (by decide), if_neg (by decide), if_pos True.intro,
          TypeSection_ArrayType_read_write hbody]
    · rw [if_neg h4e] at hcond
      simp only [decide_eq_true_eq] at hcond
      subst hcond
      simp only [if_neg h4e, List.nil_append]
      cases body with
      | funcType fb =>
        simp only [TypeSection.TypeBody.writeOrThrow,
          TypeSection.TypeBody.kind, List.append_assoc]
        rw [TypeSection.readDescriptor, readUint8_write hpfx]
        simp only []
        simp only [if_neg h60, if_neg h4e]
        rw [readUint8_write (show TypeSection.FuncType.kindVal < 256
          by decide)]
        simp only []
        rw [if_pos True.intro, TypeSection_FuncType_read_write hbody]
      | structType sb =>
        simp only [TypeSection.TypeBody.writeOrThrow,
          TypeSection.TypeBody.kind, List.append_assoc]
        rw [TypeSection.readDescriptor, readUint8_write hpfx]
        simp only []
        simp only [if_neg h60, if_neg h4e]
        rw [readUint8_write (show TypeSection.StructType.kindVal < 256
          by decide)]
        simp only []
        rw [if_neg (by decide), if_pos True.intro,
          TypeSection_StructType_read_write hbody]
      | arrayType ab =>
        simp only [TypeSection.TypeBody.writeOrThrow,
          TypeSection.TypeBody.kind, List.append_assoc]
        rw [TypeSection.readDescriptor, readUint8_write hpfx]
        simp only []
        simp only [if_neg h60, if_neg h4e]
        rw [readUint8_write (show TypeSection.ArrayType.kindVal < 256
          by decide)]
        simp only []
        rw [if_neg (by decide), if_neg (by decide), if_pos True.intro,
          TypeSection_ArrayType_read_write hbody]

theorem TypeSection_read_write {s : TypeSection} (h : s.wf = true)
    (r : List Nat) :
    TypeSection.readOrThrow (TypeSection.writeOrThrow s ++ r) = .ok (s, r) := by
  simp only [TypeSection.wf, Bool.and_eq_true, lenOk, decide_eq_true_eq,
    List.all_eq_true] at h
  obtain ⟨hlen, hall⟩ := h
  rw [TypeSection.writeOrThrow, List.append_assoc, TypeSection.readOrThrow,
    LEB128.U32_read_write hlen]
  simp only []
  rw [readCount_writeList s.descriptors r
    fun d hd r' => TypeSection_readDescriptor_write (hall d hd) r']

theorem ImportSection_FunctionImport_read_write {b : ImportSection.FunctionImport}
    (h : b.wf = true) (r : List Nat) :
    ImportSection.FunctionImport.readOrThrow (b.writeOrThrow ++ r)
      = .ok (b, r) := by
  simp only [ImportSection.FunctionImport.wf, u32Ok, decide_eq_true_eq] at h
  rw [ImportSection.FunctionImport.writeOrThrow,
    ImportSection.FunctionImport.readOrThrow, LEB128.U32_read_write h]

theorem ImportSection_TableImport_read_write {b : ImportSection.TableImport}
    (h : b.wf = true) (r : List Nat) :
    ImportSection.TableImport.readOrThrow (b.writeOrThrow ++ r)
      = .ok (b, r) := by
  obtain ⟨reftype, flag, min, max⟩ := b
  simp only [ImportSection.TableImport.wf, Bool.and_eq_true, byteOk, u32Ok,
    decide_eq_true_eq] at h
  obtain ⟨⟨⟨h1, h2⟩, h3⟩, h4⟩ := h
  cases max with
  | some m =>
    simp only [maxOk, Bool.and_eq_true, u32Ok, decide_eq_true_eq] at h4
    obtain ⟨hbit, hm⟩ := h4
    rw [ImportSection.TableImport.writeOrThrow]
    simp only [List.append_assoc]
    rw [ImportSection.TableImport.readOrThrow, readUint8_write h1]
    simp only []
    rw [readUint8_write h2]
    simp only []
    rw [LEB128.U32_read_write h3]
    simp only []
    rw [if_pos hbit, LEB128.U32_read_write hm]
  | none =>
    simp only [maxOk, decide_eq_true_eq] at h4
    rw [ImportSection.TableImport.writeOrThrow]
    simp only [List.append_nil, List.append_assoc]
    rw [ImportSection.TableImport.readOrThrow, readUint8_write h1]
    simp only []
    rw [readUint8_write h2]
    simp only []
    rw [LEB128.U32_read_write h3]
    simp only []
    rw [if_neg fun hh => hh h4]

theorem ImportSection_MemoryImport_read_write {b : ImportSection.MemoryImport}
    (h : b.wf = true) (r : List Nat) :
    ImportSection.MemoryImport.readOrThrow (b.writeOrThrow ++ r)
      = .ok (b, r) := by
  obtain ⟨flag, min, max⟩ := b
  simp only [ImportSection.MemoryImport.wf, Bool.and_eq_true, byteOk, u32Ok,
    decide_eq_true_eq] at h
  obtain ⟨⟨h1, h2⟩, h3⟩ := h
  cases max with
  | some m =>
    simp only [maxOk, Bool.and_eq_true, u32Ok, decide_eq_true_eq] at h3
    obtain ⟨hbit, hm⟩ := h3
    rw [ImportSection.MemoryImport.writeOrThrow]
    simp only [List.append_assoc]
    rw [ImportSection.MemoryImport.readOrThrow, readUint8_write h1]
    simp only []
    rw [LEB128.U32_read_write h2]
    simp only []
    rw [if_pos hbit, LEB128.U32_read_write hm]
  | none =>
    simp only [maxOk, decide_eq_true_eq] at h3
    rw [ImportSection.MemoryImport.writeOrThrow]
    simp only [List.append_nil, List.append_assoc]
    rw [ImportSection.MemoryImport.readOrThrow, readUint8_write h1]
    simp only []
    rw [LEB128.U32_read_write h2]
    simp only []
    rw [if_neg fun hh => hh h3]

theorem ImportSection_GlobalImport_read_write {b : ImportSection.GlobalImport}
    (h : b.wf = true) (r : List Nat) :
    ImportSection.GlobalImport.readOrThrow (b.writeOrThrow ++ r)
      = .ok (b, r) := by
  simp only [ImportSection.GlobalImport.wf, Bool.and_eq_true, byteOk,
    decide_eq_true_eq] at h
  obtain ⟨h1, h2⟩ := h
  rw [ImportSection.GlobalImport.writeOrThrow]
  simp only [List.append_assoc]
  rw [ImportSection.GlobalImport.readOrThrow, readUint8_write h1]
  simp only []
  rw [readUint8_write h2]

theorem ImportSection_readDescriptor_write {d : ImportSection.ImportDescriptor}
    (h : d.wf = true) (r : List Nat) :
    ImportSection.readDescriptor
        ((LEB128.U32.writeOrThrow d.from_.length ++ d.from_
          ++ LEB128.U32.writeOrThrow d.name.length ++ d.name
          ++ writeUint8 d.body.kind ++ d.body.writeOrThrow) ++ r)
      = .ok (d, r) := by
  obtain ⟨from_, name, body⟩ := d
  simp only [ImportSection.ImportDescriptor.wf, Bool.and_eq_true, lenOk,
    decide_eq_true_eq] at h
  obtain ⟨⟨hf, hn⟩, hb⟩ := h
  cases body with
  | functionImport b =>
    simp only [ImportSection.ImportBody.writeOrThrow,
      ImportSection.ImportBody.kind, ImportSection.FunctionImport.kindVal,
      List.append_assoc]
    rw [ImportSection.readDescriptor, LEB128.U32_read_write hf]
    simp only []
    rw [readBytes_append]
    simp only []
    rw [LEB128.U32_read_write hn]
    simp only []
    rw [readBytes_append]
    simp only []
    rw [readUint8_write (show (0x00 : Nat) < 256 by decide)]
    simp only []
    rw [if_pos True.intro, ImportSection_FunctionImport_read_write hb]
  | tableImport b =>
    simp only [ImportSection.ImportBody.writeOrThrow,
      ImportSection.ImportBody.kind, ImportSection.TableImport.kindVal,
      List.append_assoc]
    rw [ImportSection.readDescriptor, LEB128.U32_read_write hf]
    simp only []
    rw [readBytes_append]
    simp only []
    rw [LEB128.U32_read_write hn]
    simp only []
    rw [readBytes_append]
    simp only []
    rw [readUint8_write (show (0x01 : Nat) < 256 by decide)]
    simp only []
    rw [if_neg (by decide), if_pos True.intro,
      ImportSection_TableImport_read_write hb]
  | memoryImport b =>
    simp only [ImportSection.ImportBody.writeOrThrow,
      ImportSection.ImportBody.kind, ImportSection.MemoryImport.kindVal,
      List.append_assoc]
    rw [ImportSection.readDescriptor, LEB128.U32_read_write hf]
    simp only []
    rw [readBytes_append]
    simp only []
    rw [LEB128.U32_read_write hn]
    simp only []
    rw [readBytes_append]
    simp only []
    rw [readUint8_write (show (0x02 : Nat) < 256 by decide)]
    simp only []
    rw [if_neg (by decide), if_neg (by decide), if_pos True.intro,
      ImportSection_MemoryImport_read_write hb]
  | globalImport b =>
    simp only [ImportSection.ImportBody.writeOrThrow,
      ImportSection.ImportBody.kind, ImportSection.GlobalImport.kindVal,
      List.append_assoc]
    rw [ImportSection.readDescriptor, LEB128.U32_read_write hf]
    simp only []
    rw [readBytes_append]
    simp only []
    rw [LEB128.U32_read_write hn]
    simp only []
    rw [readBytes_append]
    simp only []
    rw [readUint8_write (show (0x03 : Nat) < 256 by decide)]
    simp only []
    rw [if_neg (by decide), if_neg (by decide), if_neg (by decide),
      if_pos True.intro, ImportSection_GlobalImport_read_write hb]

theorem ImportSection_read_write {s : ImportSection} (h : s.wf = true)
    (r : List Nat) :
    ImportSection.readOrThrow (ImportSection.writeOrThrow s ++ r)
      = .ok (s, r) := by
  simp only [ImportSection.wf, Bool.and_eq_true, lenOk, decide_eq_true_eq,
    List.all_eq_true] at h
  obtain ⟨hlen, hall⟩ := h
  rw [ImportSection.writeOrThrow, List.append_assoc, ImportSection.readOrThrow,
    LEB128.U32_read_write hlen]
  simp only []
  rw [readCount_writeList s.descriptors r
    fun d hd r' => ImportSection_readDescriptor_write (hall d hd) r']

theorem TableSection_readDescriptor_write {d : TableSection.TableDescriptor}
    (h : d.wf = true) (r : List Nat) :
    TableSection.readDescriptor
        ((writeUint8 d.reftype ++ writeUint8 d.flag
          ++ LEB128.U32.writeOrThrow d.min
          ++ (match d.max with
            | some m => LEB128.U32.writeOrThrow m
            | none => [])) ++ r)
      = .ok (d, r) := by
  obtain ⟨reftype, flag, min, max⟩ := d
  simp only [TableSection.TableDescriptor.wf, Bool.and_eq_true, byteOk, u32Ok,
    decide_eq_true_eq] at h
  obtain ⟨⟨⟨h1, h2⟩, h3⟩, h4⟩ := h
  cases max with
  | some m =>
    simp only [maxOk, Bool.and_eq_true, u32Ok, decide_eq_true_eq] at h4
    obtain ⟨hbit, hm⟩ := h4
    simp only [List.append_assoc]
    rw [TableSection.readDescriptor, readUint8_write h1]
    simp only []
    rw [readUint8_write h2]
    simp only []
    rw [LEB128.U32_read_write h3]
    simp only []
    rw [if_pos hbit, LEB128.U32_read_write hm]
  | none =>
    simp only [maxOk, decide_eq_true_eq] at h4
    simp only [List.append_nil, List.append_assoc]
    rw [TableSection.readDescriptor, readUint8_write h1]
    simp only []
    rw [readUint8_write h2]
    simp only []
    rw [LEB128.U32_read_write h3]
    simp only []
    rw [if_neg fun hh => hh h4]

theorem TableSection_read_write {s : TableSection} (h : s.wf = true)
    (r : List Nat) :
    TableSection.readOrThrow (TableSection.writeOrThrow s ++ r) = .ok (s, r) := by
  simp only [TableSection.wf, Bool.and_eq_true, lenOk, decide_eq_true_eq,
    List.all_eq_true] at h
  obtain ⟨hlen, hall⟩ := h
  rw [TableSection.writeOrThrow, List.append_assoc, TableSection.readOrThrow,
    LEB128.U32_read_write hlen]
  simp only []
  rw [readCount_writeList s.descriptors r
    fun d hd r' => TableSection_readDescriptor_write (hall d hd) r']

theorem MemorySection_readDescriptor_write {d : MemorySection.MemoryDescriptor}
    (h : d.wf = true) (r : List Nat) :
    MemorySection.readDescriptor
        ((writeUint8 d.flag ++ LEB128.U32.writeOrThrow d.min
          ++ (match d.max with
            | some m => LEB128.U32.writeOrThrow m
            | none => [])) ++ r)
      = .ok (d, r) := by
  obtain ⟨flag, min, max⟩ := d
  simp only [MemorySection.MemoryDescriptor.wf, Bool.and_eq_true, byteOk,
    u32Ok, decide_eq_true_eq] at h
  obtain ⟨⟨h1, h2⟩, h3⟩ := h
  cases max with
  | some m =>
    simp only [maxOk, Bool.and_eq_true, u32Ok, decide_eq_true_eq] at h3
    obtain ⟨hbit, hm⟩ := h3
    simp only [List.append_assoc]
    rw [MemorySection.readDescriptor, readUint8_write h1]
    simp only []
    rw [LEB128.U32_read_write h2]
    simp only []
    rw [if_pos hbit, LEB128.U32_read_write hm]
  | none =>
    simp only [maxOk, decide_eq_true_eq] at h3
    simp only [List.append_nil, List.append_assoc]
    rw [MemorySection.readDescriptor, readUint8_write h1]
    simp only []
    rw [LEB128.U32_read_write h2]
    simp only []
    rw [if_neg fun hh => hh h3]

theorem MemorySection_read_write {s : MemorySection} (h : s.wf = true)
    (r : List Nat) :
    MemorySection.readOrThrow (MemorySection.writeOrThrow s ++ r)
      = .ok (s, r) := by
  simp only [MemorySection.wf, Bool.and_eq_true, lenOk, decide_eq_true_eq,
    List.all_eq_true] at h
  obtain ⟨hlen, hall⟩ := h
  rw [MemorySection.writeOrThrow, List.append_assoc, MemorySection.readOrThrow,
    LEB128.U32_read_write hlen]
  simp only []
  rw [readCount_writeList s.descriptors r
    fun d hd r' => MemorySection_readDescriptor_write (hall d hd) r']

theorem GlobalSection_readDescriptor_write {d : GlobalSection.GlobalDescriptor}
    (h : d.wf = true) (r : List Nat) :
    GlobalSection.readDescriptor
        ((writeUint8 d.valtype ++ writeUint8 d.mutable
          ++ writeList Instruction.writeOrThrow d.instructions) ++ r)
      = .ok (d, r) := by
  obtain ⟨valtype, mutable, instructions⟩ := d
  simp only [GlobalSection.GlobalDescriptor.wf, Bool.and_eq_true, byteOk,
    decide_eq_true_eq] at h
  obtain ⟨⟨h1, h2⟩, h3⟩ := h
  simp only [List.append_assoc]
  rw [GlobalSection.readDescriptor, readUint8_write h1]
  simp only []
  rw [readUint8_write h2]
  simp only []
  rw [constExprRead_writeList h3]

theorem GlobalSection_read_write {s : GlobalSection} (h : s.wf = true)
    (r : List Nat) :
    GlobalSection.readOrThrow (GlobalSection.writeOrThrow s ++ r)
      = .ok (s, r) := by
  simp only [GlobalSection.wf, Bool.and_eq_true, lenOk, decide_eq_true_eq,
    List.all_eq_true] at h
  obtain ⟨hlen, hall⟩ := h
  rw [GlobalSection.writeOrThrow, List.append_assoc, GlobalSection.readOrThrow,
    LEB128.U32_read_write hlen]
  simp only []
  rw [readCount_writeList s.descriptors r
    fun d hd r' => GlobalSection_readDescriptor_write (hall d hd) r']

theorem ExportSection_readDescriptor_write {d : ExportSection.ExportDescriptor}
    (h : d.wf = true) (r : List Nat) :
    ExportSection.readDescriptor
        ((LEB128.U32.writeOrThrow d.name.length ++ d.name ++ writeUint8 d.kind
          ++ LEB128.U32.writeOrThrow d.xidx) ++ r)
      = .ok (d, r) := by
  obtain ⟨name, kind, xidx⟩ := d
  simp only [ExportSection.ExportDescriptor.wf, Bool.and_eq_true, lenOk,
    byteOk, u32Ok, decide_eq_true_eq] at h
  obtain ⟨⟨h1, h2⟩, h3⟩ := h
  simp only [List.append_assoc]
  rw [ExportSection.readDescriptor, LEB128.U32_read_write h1]
  simp only []
  rw [readBytes_append]
  simp only []
  rw [readUint8_write h2]
  simp only []
  rw [LEB128.U32_read_write h3]

theorem ExportSection_read_write {s : ExportSection} (h : s.wf = true)
    (r : List Nat) :
    ExportSection.readOrThrow (ExportSection.writeOrThrow s ++ r)
      = .ok (s, r) := by
  simp only [ExportSection.wf, Bool.and_eq_true, lenOk, decide_eq_true_eq,
    List.all_eq_true] at h
  obtain ⟨hlen, hall⟩ := h
  rw [ExportSection.writeOrThrow, List.append_assoc, ExportSection.readOrThrow,
    LEB128.U32_read_write hlen]
  simp only []
  rw [readCount_writeList s.descriptors r
    fun d hd r' => ExportSection_readDescriptor_write (hall d hd) r']

theorem ElementSection_readSegment_write {seg : ElementSection.ElementSegment}
    (h : seg.wf = true) (r : List Nat) :
    ElementSection.readSegment ((writeUint8 seg.flag ++ seg.writeOrThrow) ++ r)
      = .ok (seg, r) := by
  cases seg with
  | flag0 instructions funcidxs =>
    simp only [ElementSection.ElementSegment.wf, Bool.and_eq_true, lenOk,
      u32Ok, decide_eq_true_eq, List.all_eq_true] at h
    obtain ⟨⟨hc, hlen⟩, hall⟩ := h
    simp only [ElementSection.ElementSegment.flag,
      ElementSection.ElementSegment.writeOrThrow, List.append_assoc]
    rw [ElementSection.readSegment,
      readUint8_write (show (0 : Nat) < 256 by decide)]
    simp only []
    rw [if_pos True.intro, constExprRead_writeList hc]
    simp only []
    rw [LEB128.U32_read_write hlen]
    simp only []
    rw [readCount_writeList funcidxs r
      fun x hx r' => readU32Value_write (hall x hx) r']
  | flag1 reftype elements =>
    simp only [ElementSection.ElementSegment.wf, Bool.and_eq_true, lenOk,
      byteOk, decide_eq_true_eq, List.all_eq_true] at h
    obtain ⟨⟨hrt, hlen⟩, hall⟩ := h
    simp only [ElementSection.ElementSegment.flag,
      ElementSection.ElementSegment.writeOrThrow, List.append_assoc]
    rw [ElementSection.readSegment,
      readUint8_write (show (1 : Nat) < 256 by decide)]
    simp only []
    rw [if_neg (by decide), if_pos True.intro, readUint8_write hrt]
    simp only []
    rw [LEB128.U32_read_write hlen]
    simp only []
    rw [readCount_writeList elements r
      fun l hl r' => constExprRead_writeList (hall l hl) r']
  | flag2 tableidx instructions reftype elements =>
    simp only [ElementSection.ElementSegment.wf, Bool.and_eq_true, lenOk,
      byteOk, u32Ok, decide_eq_true_eq, List.all_eq_true] at h
    obtain ⟨⟨⟨⟨ht, hc⟩, hrt⟩, hlen⟩, hall⟩ := h
    simp only [ElementSection.ElementSegment.flag,
      ElementSection.ElementSegment.writeOrThrow, List.append_assoc]
    rw [ElementSection.readSegment,
      readUint8_write (show (2 : Nat) < 256 by decide)]
    simp only []
    rw [if_neg (by decide), if_neg (by decide), if_pos True.intro,
      LEB128.U32_read_write ht]
    simp only []
    rw [constExprRead_writeList hc]
    simp only []
    rw [readUint8_write hrt]
    simp only []
    rw [LEB128.U32_read_write hlen]
    simp only []
    rw [readCount_writeList elements r
      fun l hl r' => constExprRead_writeList (hall l hl) r']
  | flag3 reftype elements =>
    simp only [ElementSection.ElementSegment.wf, Bool.and_eq_true, lenOk,
      byteOk, decide_eq_true_eq, List.all_eq_true] at h
    obtain ⟨⟨hrt, hlen⟩, hall⟩ := h
    simp only [ElementSection.ElementSegment.flag,
      ElementSection.ElementSegment.writeOrThrow, List.append_assoc]
    rw [ElementSection.readSegment,
      readUint8_write (show (3 : Nat) < 256 by decide)]
    simp only []
    rw [if_neg (by decide), if_neg (by decide), if_neg (by decide),
      if_pos True.intro, readUint8_write hrt]
    simp only []
    rw [LEB128.U32_read_write hlen]
    simp only []
    rw [readCount_writeList elements r
      fun l hl r' => constExprRead_writeList (hall l hl) r']
  | flag4 instructions funcidxs =>
    simp only [ElementSection.ElementSegment.wf, Bool.and_eq_true, lenOk,
      u32Ok, decide_eq_true_eq, List.all_eq_true] at h
    obtain ⟨⟨hc, hlen⟩, hall⟩ := h
    simp only [ElementSection.ElementSegment.flag,
      ElementSection.ElementSegment.writeOrThrow, List.append_assoc]
    rw [ElementSection.readSegment,
      readUint8_write (show (4 : Nat) < 256 by decide)]
    simp only []
    rw [if_neg (by decide), if_neg (by decide), if_neg (by decide),
      if_neg (by decide), if_pos True.intro, constExprRead_writeList hc]
    simp only []
    rw [LEB128.U32_read_write hlen]
    simp only []
    rw [readCount_writeList funcidxs r
      fun x hx r' => readU32Value_write (hall x hx) r']
  | flag5 reftype funcidxs =>
    simp only [ElementSection.ElementSegment.wf, Bool.and_eq_true, lenOk,
      byteOk, u32Ok, decide_eq_true_eq, List.all_eq_true] at h
    obtain ⟨⟨hrt, hlen⟩, hall⟩ := h
    simp only [ElementSection.ElementSegment.flag,
      ElementSection.ElementSegment.writeOrThrow, List.append_assoc]
    rw [ElementSection.readSegment,
      readUint8_write (show (5 : Nat) < 256 by decide)]
    simp only []
    rw [if_neg (by decide), if_neg (by decide), if_neg (by decide),
      if_neg (by decide), if_neg (by decide), if_pos True.intro,
      readUint8_write hrt]
    simp only []
    rw [LEB128.U32_read_write hlen]
    simp only []
    rw [readCount_writeList funcidxs r
      fun x hx r' => readU32Value_write (hall x hx) r']
  | flag6 tableidx instructions reftype funcidxs =>
    simp only [ElementSection.ElementSegment.wf, Bool.and_eq_true, lenOk,
      byteOk, u32Ok, decide_eq_true_eq, List.all_eq_true] at h
    obtain ⟨⟨⟨⟨ht, hc⟩, hrt⟩, hlen⟩, hall⟩ := h
    simp only [ElementSection.ElementSegment.flag,
      ElementSection.ElementSegment.writeOrThrow, List.append_assoc]
    rw [ElementSection.readSegment,
      readUint8_write (show (6 : Nat) < 256 by decide)]
    simp only []
    rw [if_neg (by decide), if_neg (by decide), if_neg (by decide),
      if_neg (by decide), if_neg (by decide), if_neg (by decide),
      if_pos True.intro, LEB128.U32_read_write ht]
    simp only []
    rw [constExprRead_writeList hc]
    simp only []
    rw [readUint8_write hrt]
    simp only []
    rw [LEB128.U32_read_write hlen]
    simp only []
    rw [readCount_writeList funcidxs r
      fun x hx r' => readU32Value_write (hall x hx) r']
  | flag7 reftype funcidxs =>
    simp only [ElementSection.ElementSegment.wf, Bool.and_eq_true, lenOk,
      byteOk, u32Ok, decide_eq_true_eq, List.all_eq_true] at h
    obtain ⟨⟨hrt, hlen⟩, hall⟩ := h
    simp only [ElementSection.ElementSegment.flag,
      ElementSection.ElementSegment.writeOrThrow, List.append_assoc]
    rw [ElementSection.readSegment,
      readUint8_write (show (7 : Nat) < 256 by decide)]
    simp only []
    rw [if_neg (by decide), if_neg (by decide), if_neg (by decide),
      if_neg (by decide), if_neg (by decide), if_neg (by decide),
      if_neg (by decide), if_pos True.intro, readUint8_write hrt]
    simp only []
    rw [LEB128.U32_read_write hlen]
    simp only []
    rw [readCount_writeList funcidxs r
      fun x hx r' => readU32Value_write (hall x hx) r']

theorem ElementSection_read_write {s : ElementSection} (h : s.wf = true)
    (r : List Nat) :
    ElementSection.readOrThrow (ElementSection.writeOrThrow s ++ r)
      = .ok (s, r) := by
  simp only [ElementSection.wf, Bool.and_eq_true, lenOk, decide_eq_true_eq,
    List.all_eq_true] at h
  obtain ⟨hlen, hall⟩ := h
  rw [ElementSection.writeOrThrow, List.append_assoc, ElementSection.readOrThrow,
    LEB128.U32_read_write hlen]
  simp only []
  rw [readCount_writeList s.segments r
    fun seg hseg r' => ElementSection_readSegment_write (hall seg hseg) r']

theorem DataSection_readSegment_write {seg : DataSection.DataSegment}
    (h : seg.wf = true) (r : List Nat) :
    DataSection.readSegment ((writeUint8 seg.flag ++ seg.writeOrThrow) ++ r)
      = .ok (seg, r) := by
  cases seg with
  | flag0 instructions data =>
    simp only [DataSection.DataSegment.wf, Bool.and_eq_true, lenOk,
      decide_eq_true_eq] at h
    obtain ⟨hc, hlen⟩ := h
    simp only [DataSection.DataSegment.flag,
      DataSection.DataSegment.writeOrThrow, List.append_assoc]
    rw [DataSection.readSegment,
      readUint8_write (show (0 : Nat) < 256 by decide)]
    simp only []
    rw [if_pos True.intro, constExprRead_writeList hc]
    simp only []
    rw [LEB128.U32_read_write hlen]
    simp only []
    rw [readBytes_append]
  | flag1 data =>
    simp only [DataSection.DataSegment.wf, lenOk, decide_eq_true_eq] at h
    simp only [DataSection.DataSegment.flag,
      DataSection.DataSegment.writeOrThrow, List.append_assoc]
    rw [DataSection.readSegment,
      readUint8_write (show (1 : Nat) < 256 by decide)]
    simp only []
    rw [if_neg (by decide), if_pos True.intro, LEB128.U32_read_write h]
    simp only []
    rw [readBytes_append]
  | flag2 memidx instructions data =>
    simp only [DataSection.DataSegment.wf, Bool.and_eq_true, lenOk, u32Ok,
      decide_eq_true_eq] at h
    obtain ⟨⟨hm, hc⟩, hlen⟩ := h
    simp only [DataSection.DataSegment.flag,
      DataSection.DataSegment.writeOrThrow, List.append_assoc]
    rw [DataSection.readSegment,
      readUint8_write (show (2 : Nat) < 256 by decide)]
    simp only []
    rw [if_neg (by decide), if_neg (by decide), if_pos True.intro,
      LEB128.U32_read_write hm]
    simp only []
    rw [constExprRead_writeList hc]
    simp only []
    rw [LEB128.U32_read_write hlen]
    simp only []
    rw [readBytes_append]

theorem DataSection_read_write {s : DataSection} (h : s.wf = true)
    (r : List Nat) :
    DataSection.readOrThrow (DataSection.writeOrThrow s ++ r) = .ok (s, r) := by
  simp only [DataSection.wf, Bool.and_eq_true, lenOk, decide_eq_true_eq,
    List.all_eq_true] at h
  obtain ⟨hlen, hall⟩ := h
  rw [DataSection.writeOrThrow, List.append_assoc, DataSection.readOrThrow,
    LEB128.U32_read_write hlen]
  simp only []
  rw [readCount_writeList s.segments r
    fun seg hseg r' => DataSection_readSegment_write (hall seg hseg) r']

theorem CodeSection_Local_read_write {l : CodeSection.Local}
    (h : l.wf = true) (r : List Nat) :
    CodeSection.Local.readOrThrow (l.writeOrThrow ++ r) = .ok (l, r) := by
  simp only [CodeSection.Local.wf, Bool.and_eq_true, u32Ok, byteOk,
    decide_eq_true_eq] at h
  obtain ⟨h1, h2⟩ := h
  rw [CodeSection.Local.writeOrThrow]
  simp only [List.append_assoc]
  rw [CodeSection.Local.readOrThrow, LEB128.U32_read_write h1]
  simp only []
  rw [readUint8_write h2]

theorem CodeSection_Locals_read_write {locals : List CodeSection.Local}
    (hlen : locals.length < 2 ^ 32)
    (hall : ∀ l ∈ locals, l.wf = true) (r : List Nat) :
    CodeSection.Locals.readOrThrow
        (LEB128.U32.writeOrThrow locals.length
          ++ (writeList CodeSection.Local.writeOrThrow locals ++ r))
      = .ok (locals, r) := by
  rw [CodeSection.Locals.readOrThrow, LEB128.U32_read_write hlen]
  simp only []
  exact readCount_writeList locals r
    fun l hl r' => CodeSection_Local_read_write (hall l hl) r'

theorem CodeSection_FunctionBody_read_write {b : CodeSection.FunctionBody}
    (h : b.wf = true) (r : List Nat) :
    CodeSection.FunctionBody.readOrThrow (b.writeOrThrow ++ r) = .ok (b, r) := by
  simp only [CodeSection.FunctionBody.wf, Bool.and_eq_true, u32Ok, lenOk,
    decide_eq_true_eq, List.all_eq_true] at h
  obtain ⟨⟨⟨hs, hlen⟩, hloc⟩, hinstr⟩ := h
  have hsubsize : b.subsize = (LEB128.U32.writeOrThrow b.locals.length
      ++ (writeList CodeSection.Local.writeOrThrow b.locals
        ++ writeList Instruction.writeOrThrow b.instructions)).length := by
    rw [CodeSection.FunctionBody.subsize, LEB128_U32_size_eq_length,
      localListSize_eq_length, instrListSize_eq_length]
    simp [List.length_append]
    omega
  have hread : readBytes b.subsize
      ((LEB128.U32.writeOrThrow b.locals.length
        ++ (writeList CodeSection.Local.writeOrThrow b.locals
          ++ writeList Instruction.writeOrThrow b.instructions)) ++ r)
      = .ok (LEB128.U32.writeOrThrow b.locals.length
        ++ (writeList CodeSection.Local.writeOrThrow b.locals
          ++ writeList Instruction.writeOrThrow b.instructions), r) := by
    rw [hsubsize]
    exact readBytes_append _ r
  rw [CodeSection.FunctionBody.writeOrThrow]
  simp only [List.append_assoc]
  rw [CodeSection.FunctionBody.readOrThrow, LEB128.U32_read_write hs]
  simp only []
  rw [show LEB128.U32.writeOrThrow b.locals.length
      ++ (writeList CodeSection.Local.writeOrThrow b.locals
        ++ (writeList Instruction.writeOrThrow b.instructions ++ r))
      = (LEB128.U32.writeOrThrow b.locals.length
        ++ (writeList CodeSection.Local.writeOrThrow b.locals
          ++ writeList Instruction.writeOrThrow b.instructions)) ++ r by
    simp [List.append_assoc]]
  rw [hread]
  simp only []
  rw [CodeSection_Locals_read_write hlen hloc]
  simp only []
  rw [readInstrsToEnd_writeList hinstr]

theorem CodeSection_read_write {s : CodeSection} (h : s.wf = true)
    (r : List Nat) :
    CodeSection.readOrThrow (CodeSection.writeOrThrow s ++ r) = .ok (s, r) := by
  simp only [CodeSection.wf, Bool.and_eq_true, lenOk, decide_eq_true_eq,
    List.all_eq_true] at h
  obtain ⟨hlen, hall⟩ := h
  rw [CodeSection.writeOrThrow, List.append_assoc, CodeSection.readOrThrow,
    LEB128.U32_read_write hlen]
  simp only []
  rw [readCount_writeList s.bodies r
    fun b hb r' => CodeSection_FunctionBody_read_write (hall b hb) r']

/-! ## Round trip of the frame loop and the module -/

theorem readFromBytes_of_exact {read1 : List Nat → Except ReadErr (α × List Nat)}
    {data : List Nat} {x : α} (h : read1 data = .ok (x, [])) :
    readFromBytesOrThrow read1 data = .ok x := by
  rw [readFromBytesOrThrow, h]
  simp only []
  rw [if_pos True.intro]

theorem sectionReadDispatch_unknownKind {kind : Nat} (h : 0x0D < kind)
    (data : List Nat) :
    sectionReadDispatch kind data = .ok (.unknown ⟨kind, data⟩) := by
  rw [sectionReadDispatch]
  rw [if_neg (by rw [CustomSection.kindVal]; omega),
    if_neg (by rw [TypeSection.kindVal]; omega),
    if_neg (by rw [ImportSection.kindVal]; omega),
    if_neg (by rw [FunctionSection.kindVal]; omega),
    if_neg (by rw [TableSection.kindVal]; omega),
    if_neg (by rw [MemorySection.kindVal]; omega),
    if_neg (by rw [GlobalSection.kindVal]; omega),
    if_neg (by rw [ExportSection.kindVal]; omega),
    if_neg (by rw [StartSection.kindVal]; omega),
    if_neg (by rw [ElementSection.kindVal]; omega),
    if_neg (by rw [CodeSection.kindVal]; omega),
    if_neg (by rw [DataSection.kindVal]; omega),
    if_neg (by rw [DataCountSection.kindVal]; omega),
    if_neg (by rw [TagSection.kindVal]; omega)]

theorem Section.kind_lt {s : Section} (h : Section.wf s = true) :
    s.kind < 256 := by
  cases s with
  | unknown u =>
    simp only [Section.wf, UnknownSection.wf, Bool.and_eq_true, byteOk,
      decide_eq_true_eq] at h
    exact h.2
  | custom s => simp [Section.kind, CustomSection.kindVal]
  | typeSec s => simp [Section.kind, TypeSection.kindVal]
  | importSec s => simp [Section.kind, ImportSection.kindVal]
  | functionSec s => simp [Section.kind, FunctionSection.kindVal]
  | tableSec s => simp [Section.kind, TableSection.kindVal]
  | memorySec s => simp [Section.kind, MemorySection.kindVal]
  | globalSec s => simp [Section.kind, GlobalSection.kindVal]
  | exportSec s => simp [Section.kind, ExportSection.kindVal]
  | startSec s => simp [Section.kind, StartSection.kindVal]
  | elementSec s => simp [Section.kind, ElementSection.kindVal]
  | codeSec s => simp [Section.kind, CodeSection.kindVal]
  | dataSec s => simp [Section.kind, DataSection.kindVal]
  | dataCountSec s => simp [Section.kind, DataCountSection.kindVal]
  | tagSec s => simp [Section.kind, TagSection.kindVal]

theorem sectionReadDispatch_write {s : Section} (h : Section.wf s = true) :
    sectionReadDispatch s.kind s.writeOrThrow = .ok s := by
  cases s with
  | unknown u =>
    simp only [Section.wf, UnknownSection.wf, Bool.and_eq_true, byteOk,
      decide_eq_true_eq] at h
    simp only [Section.kind, Section.writeOrThrow, UnknownSection.writeOrThrow]
    exact sectionReadDispatch_unknownKind h.1 u.data
  | custom s =>
    have hx : CustomSection.readOrThrow (CustomSection.writeOrThrow s)
        = .ok (s, []) := CustomSection_read_write h
    simp only [Section.kind, Section.writeOrThrow, sectionReadDispatch]
    rw [if_pos True.intro, readFromBytes_of_exact hx]
    rfl
  | typeSec s =>
    have hx : TypeSection.readOrThrow (TypeSection.writeOrThrow s)
        = .ok (s, []) := by simpa using TypeSection_read_write h []
    simp only [Section.kind, Section.writeOrThrow, sectionReadDispatch]
    rw [if_neg (by decide), if_pos True.intro, readFromBytes_of_exact hx]
    rfl
  | importSec s =>
    have hx : ImportSection.readOrThrow (ImportSection.writeOrThrow s)
        = .ok (s, []) := by simpa using ImportSection_read_write h []
    simp only [Section.kind, Section.writeOrThrow, sectionReadDispatch]
    rw [if_neg (by decide), if_neg (by decide), if_pos True.intro,
      readFromBytes_of_exact hx]
    rfl
  | functionSec s =>
    have hx : FunctionSection.readOrThrow (FunctionSection.writeOrThrow s)
        = .ok (s, []) := by simpa using FunctionSection_read_write h []
    simp only [Section.kind, Section.writeOrThrow, sectionReadDispatch]
    rw [if_neg (by decide), if_neg (by decide), if_neg (by decide),
      if_pos True.intro, readFromBytes_of_exact hx]
    rfl
  | tableSec s =>
    have hx : TableSection.readOrThrow (TableSection.writeOrThrow s)
        = .ok (s, []) := by simpa using TableSection_read_write h []
    simp only [Section.kind, Section.writeOrThrow, sectionReadDispatch]
    rw [if_neg (by decide), if_neg (by decide), if_neg (by decide),
      if_neg (by decide), if_pos True.intro, readFromBytes_of_exact hx]
    rfl
  | memorySec s =>
    have hx : MemorySection.readOrThrow (MemorySection.writeOrThrow s)
        = .ok (s, []) := by simpa using MemorySection_read_write h []
    simp only [Section.kind, Section.writeOrThrow, sectionReadDispatch]
    rw [if_neg (by decide), if_neg (by decide), if_neg (by decide),
      if_neg (by decide), if_neg (by decide), if_pos True.intro,
      readFromBytes_of_exact hx]
    rfl
  | globalSec s =>
    have hx : GlobalSection.readOrThrow (GlobalSection.writeOrThrow s)
        = .ok (s, []) := by simpa using GlobalSection_read_write h []
    simp only [Section.kind, Section.writeOrThrow, sectionReadDispatch]
    rw [if_neg (by decide), if_neg (by decide), if_neg (by decide),
      if_neg (by decide), if_neg (by decide), if_neg (by decide),
      if_pos True.intro, readFromBytes_of_exact hx]
    rfl
  | exportSec s =>
    have hx : ExportSection.readOrThrow (ExportSection.writeOrThrow s)
        = .ok (s, []) := by simpa using ExportSection_read_write h []
    simp only [Section.kind, Section.writeOrThrow, sectionReadDispatch]
    rw [if_neg (by decide), if_neg (by decide), if_neg (by decide),
      if_neg (by decide), if_neg (by decide), if_neg (by decide),
      if_neg (by decide), if_pos True.intro, readFromBytes_of_exact hx]
    rfl
  | startSec s =>
    have hx : StartSection.readOrThrow (StartSection.writeOrThrow s)
        = .ok (s, []) := by simpa using StartSection_read_write h []
    simp only [Section.kind, Section.writeOrThrow, sectionReadDispatch]
    rw [if_neg (by decide), if_neg (by decide), if_neg (by decide),
      if_neg (by decide), if_neg (by decide), if_neg (by decide),
      if_neg (by decide), if_neg (by decide), if_pos True.intro,
      readFromBytes_of_exact hx]
    rfl
  | elementSec s =>
    have hx : ElementSection.readOrThrow (ElementSection.writeOrThrow s)
        = .ok (s, []) := by simpa using ElementSection_read_write h []
    simp only [Section.kind, Section.writeOrThrow, sectionReadDispatch]
    rw [if_neg (by decide), if_neg (by decide), if_neg (by decide),
      if_neg (by decide), if_neg (by decide), if_neg (by decide),
      if_neg (by decide), if_neg (by decide), if_neg (by decide),
      if_pos True.intro, readFromBytes_of_exact hx]
    rfl
  | codeSec s =>
    have hx : CodeSection.readOrThrow (CodeSection.writeOrThrow s)
        = .ok (s, []) := by simpa using CodeSection_read_write h []
    simp only [Section.kind, Section.writeOrThrow, sectionReadDispatch]
    rw [if_neg (by decide), if_neg (by decide), if_neg (by decide),
      if_neg (by decide), if_neg (by decide), if_neg (by decide),
      if_neg (by decide), if_neg (by decide), if_neg (by decide),
      if_neg (by decide), if_pos True.intro, readFromBytes_of_exact hx]
    rfl
  | dataSec s =>
    have hx : DataSection.readOrThrow (DataSection.writeOrThrow s)
        = .ok (s, []) := by simpa using DataSection_read_write h []
    simp only [Section.kind, Section.writeOrThrow, sectionReadDispatch]
    rw [if_neg (by decide), if_neg (by decide), if_neg (by decide),
      if_neg (by decide), if_neg (by decide), if_neg (by decide),
      if_neg (by decide), if_neg (by decide), if_neg (by decide),
      if_neg (by decide), if_neg (by decide), if_pos True.intro,
      readFromBytes_of_exact hx]
    rfl
  | dataCountSec s =>
    have hx : DataCountSection.readOrThrow (DataCountSection.writeOrThrow s)
        = .ok (s, []) := by simpa using DataCountSection_read_write h []
    simp only [Section.kind, Section.writeOrThrow, sectionReadDispatch]
    rw [if_neg (by decide), if_neg (by decide), if_neg (by decide),
      if_neg (by decide), if_neg (by decide), if_neg (by decide),
      if_neg (by decide), if_neg (by decide), if_neg (by decide),
      if_neg (by decide), if_neg (by decide), if_neg (by decide),
      if_pos True.intro, readFromBytes_of_exact hx]
    rfl
  | tagSec s =>
    have hx : TagSection.readOrThrow (TagSection.writeOrThrow s)
        = .ok (s, []) := by simpa using TagSection_read_write h []
    simp only [Section.kind, Section.writeOrThrow, sectionReadDispatch]
    rw [if_neg (by decide), if_neg (by decide), if_neg (by decide),
      if_neg (by decide), if_neg (by decide), if_neg (by decide),
      if_neg (by decide), if_neg (by decide), if_neg (by decide),
      if_neg (by decide), if_neg (by decide), if_neg (by decide),
      if_neg (by decide), if_pos True.intro, readFromBytes_of_exact hx]
    rfl

theorem Body.readSections_writeList (sections : List Section)
    (h : ∀ s ∈ sections, Section.wf s = true ∧ s.sizeOrThrow < 2 ^ 32) :
    Body.readSectionsOrThrow
        (writeList (fun s => writeUint8 s.kind
          ++ LEB128.U32.writeOrThrow s.sizeOrThrow ++ s.writeOrThrow) sections)
      = .ok sections := by
  induction sections with
  | nil =>
    rw [writeList]
    exact Body.readSectionsOrThrow_nil
  | cons s rest ih =>
    obtain ⟨hwf, hsize⟩ := h s (List.mem_cons_self _ _)
    have hk : s.kind < 256 := Section.kind_lt hwf
    rw [writeList]
    set W := writeList (fun s => writeUint8 s.kind
      ++ LEB128.U32.writeOrThrow s.sizeOrThrow ++ s.writeOrThrow) rest with hW
    have e : (writeUint8 s.kind ++ LEB128.U32.writeOrThrow s.sizeOrThrow
        ++ s.writeOrThrow) ++ W
        = writeUint8 s.kind ++ (LEB128.U32.writeOrThrow s.sizeOrThrow
          ++ (s.writeOrThrow ++ W)) := by
      simp [List.append_assoc]
    rw [e]
    have h1 := readUint8_write hk (LEB128.U32.writeOrThrow s.sizeOrThrow
      ++ (s.writeOrThrow ++ W))
    have h2 := LEB128.U32_read_write hsize (s.writeOrThrow ++ W)
    have h3 : readBytes s.sizeOrThrow (s.writeOrThrow ++ W)
        = .ok (s.writeOrThrow, W) := by
      rw [Section_size_eq_length]
      exact readBytes_append _ _
    have h5 : Body.readSectionsOrThrow W = .ok rest :=
      ih fun t ht => h t (List.mem_cons_of_mem _ ht)
    exact Body.readSectionsOrThrow_step (by simp [writeUint8]) h1 h2 h3
      (sectionReadDispatch_write hwf) h5

theorem Body_read_write {b : Body} (h : Body.wf b = true) :
    Body.readOrThrow (Body.writeOrThrow b) = .ok b := by
  simp only [Body.wf, List.all_eq_true, Bool.and_eq_true, u32Ok,
    decide_eq_true_eq] at h
  rw [Body.writeOrThrow, Body.readOrThrow,
    Body.readSections_writeList b.sections fun s hs => h s hs]

theorem Head_read_write {hd : Head} (h : hd.version = 1) (r : List Nat) :
    Head.readOrThrow (Head.writeOrThrow hd ++ r) = .ok (hd, r) := by
  obtain ⟨version⟩ := hd
  simp only at h
  subst h
  rw [Head.writeOrThrow]
  simp only [List.append_assoc]
  rw [Head.readOrThrow, readUint32LE_write (by decide)]
  simp only []
  rw [if_neg (by decide)]
  rw [readUint32LE_write (by decide)]
  simp only []
  rw [if_neg (by decide)]

theorem Module_read_write {m : Module} (h : Module.wf m = true) :
    Module.readOrThrow (Module.writeOrThrow m) = .ok m := by
  simp only [Module.wf, Bool.and_eq_true, decide_eq_true_eq] at h
  obtain ⟨hv, hb⟩ := h
  rw [Module.writeOrThrow, Module.readOrThrow, Head_read_write hv]
  simp only []
  rw [Body_read_write hb]

/-! ## Claim C2 -/

/-- C2 (amended): for every well-formed module value — `version = 1`, integer
fields within the written widths, limits maxima matching their flag bit,
constant expressions end-terminated, instruction parameters matching their
opcodes, unknown section kinds outside `0x00`–`0x0D`, section payloads below
`2^32` bytes — encoding with `Module.writeOrThrow` and decoding with
`Module.readOrThrow` returns the same module.  The encoder reads only the
current field values, never cached source bytes.  Mutating `Head.version`,
however, falls outside this set: the re-decode then fails (see the
counterexample). -/
theorem module_write_read_roundtrip (m : Module) (h : Module.wf m = true) :
    Module.readOrThrow (Module.writeOrThrow m) = .ok m :=
  Module_read_write h

/-- Witness for C2 at the empty module. -/
theorem module_write_read_roundtrip_witness :
    Module.wf ⟨⟨1⟩, ⟨[]⟩⟩ = true
    ∧ Module.readOrThrow (Module.writeOrThrow ⟨⟨1⟩, ⟨[]⟩⟩) = .ok ⟨⟨1⟩, ⟨[]⟩⟩ :=
  ⟨by decide, module_write_read_roundtrip ⟨⟨1⟩, ⟨[]⟩⟩ (by decide)⟩

/-- C2 (counterexample to the claim as stated): the 8-byte empty module
decodes; setting `Head.version` to `2` and re-encoding succeeds, but
re-decoding the result fails with the unsupported-version error, so a module
obtained by mutating an arbitrary field of a decoded module need not
round-trip. -/
theorem version_mutation_breaks_redecode :
    Module.readOrThrow [0x00, 0x61, 0x73, 0x6D, 0x01, 0x00, 0x00, 0x00]
      = .ok ⟨⟨1⟩, ⟨[]⟩⟩
    ∧ Module.writeOrThrow ⟨⟨2⟩, ⟨[]⟩⟩
      = [0x00, 0x61, 0x73, 0x6D, 0x02, 0x00, 0x00, 0x00]
    ∧ Module.readOrThrow [0x00, 0x61, 0x73, 0x6D, 0x02, 0x00, 0x00, 0x00]
      = .error .unsupportedVersion := by
  refine ⟨?_, by decide, ?_⟩
  · have hh : Head.readOrThrow [0x00, 0x61, 0x73, 0x6D, 0x01, 0x00, 0x00, 0x00]
        = .ok (⟨1⟩, []) := by decide
    have hb : Body.readOrThrow [] = .ok ⟨[]⟩ := by
      rw [Body.readOrThrow, Body.readSectionsOrThrow_nil]
    simp only [Module.readOrThrow, hh, hb]
  · have hh : Head.readOrThrow [0x00, 0x61, 0x73, 0x6D, 0x02, 0x00, 0x00, 0x00]
        = .error .unsupportedVersion := by decide
    simp only [Module.readOrThrow, hh]

end Wasm
